import Mathlib

/-! # OpenVPN configuration generator: the PKI lifecycle orchestrator

A shallow embedding of `src/clr/Interactive.cpp` (class `Interactive`) and the
properties of its operations.

Conventions of the embedding.

* A .NET `String^` is a list of characters (`Str`); a nullable one is an
  `Option Str`.
* The object fields, the file system, the console input and the log of calls
  to the cryptographic backend form one explicit `World`; every method is a
  function from a world to an `Outcome`: a returned value with the new world,
  or an abort (uncaught exception, endless loop, process exit) with the world
  at that point.
* Library routines (`String::Format`, `Path::Combine`, `Convert::ToInt32`,
  `int::TryParse`) are written out from their documented behaviour.
* Classes of the repository that live outside this source file
  (`CertificateSubject`, `OpenSSLHelper`, the constants of `Interactive.h`)
  are parameters, gathered in `Env`.
-/

namespace OvpnGen

/-! ## Strings -/

/-- A .NET string, as its sequence of characters. -/
abbrev Str := List Char

/-- The predicate `Char::IsWhiteSpace`: the controls U+0009 to U+000D and
U+0085, the space separators U+0020, U+00A0, U+1680, U+2000 to U+200A, U+202F,
U+205F, U+3000, the line separator U+2028 and the paragraph separator U+2029. -/
def isWhiteSpaceChar (c : Char) : Bool :=
  c = ' ' || (9 ≤ c.toNat && c.toNat ≤ 13) || c.toNat = 0x85 || c.toNat = 0xA0
    || c.toNat = 0x1680 || (0x2000 ≤ c.toNat && c.toNat ≤ 0x200A)
    || c.toNat = 0x2028 || c.toNat = 0x2029 || c.toNat = 0x202F || c.toNat = 0x205F
    || c.toNat = 0x3000

/-- The test `String::IsNullOrWhiteSpace`. -/
def IsNullOrWhiteSpace : Option Str → Bool
  | none => true
  | some s => s.all isWhiteSpaceChar

/-- The test `String::IsNullOrEmpty`. -/
def IsNullOrEmpty : Option Str → Bool
  | none => true
  | some s => s.isEmpty

/-- The method `String::ToLower`, on the ASCII letters. -/
def ToLower (s : Str) : Str := s.map Char.toLower

/-- The method `String::Trim`. -/
def Trim (s : Str) : Str :=
  ((s.dropWhile isWhiteSpaceChar).reverse.dropWhile isWhiteSpaceChar).reverse

/-- The pieces of `s` between the occurrences of the character `sep`. -/
def splitOn (sep : Char) : Str → List Str
  | [] => [[]]
  | c :: cs =>
    if c = sep then [] :: splitOn sep cs
    else
      match splitOn sep cs with
      | l :: ls => (c :: l) :: ls
      | [] => [[c]]

/-- The call `input->Split({","}, StringSplitOptions::RemoveEmptyEntries)`. -/
def SplitComma (s : Str) : List Str :=
  (splitOn ',' s).filter (fun p => !p.isEmpty)

/-- The lines of a text: the pieces between line feeds. -/
def lines (s : Str) : List Str := splitOn '\n' s

/-- The text has the line `l`. -/
def hasLine (text l : Str) : Prop := l ∈ lines text

/-- The lines of the text that begin with the directive name `d`. -/
def directiveLines (d : Str) (text : Str) : List Str :=
  (lines text).filter (fun l => d.isPrefixOf l)

/-- The text has a line that begins with the directive name `d`. -/
def hasDirective (d : Str) (text : Str) : Prop := directiveLines d text ≠ []

instance (text l : Str) : Decidable (hasLine text l) :=
  inferInstanceAs (Decidable (l ∈ lines text))

instance (d text : Str) : Decidable (hasDirective d text) :=
  inferInstanceAs (Decidable (directiveLines d text ≠ []))

/-- Neither brace occurs in the string. -/
def braceFree (s : Str) : Bool := s.all (fun c => c != '{' && c != '}')

/-- No line feed occurs in the string. -/
def lineFree (s : Str) : Bool := s.all (fun c => c != '\n')

/-! ## `String::Format`

The composite formatting of .NET, for string arguments: a format item is
`{index[,alignment][:formatString]}`, `{{` and `}}` stand for a brace, and
anything else with a brace raises `FormatException`.  A string argument
ignores the `formatString`. -/

/-- Where the scanner of `String::Format` stands. -/
inductive FmtState where
  | text
  | opened
  | closing
  | index (n : Nat)
  | idxSp (n : Nat)
  | comma (n : Nat)
  | minus (n : Nat)
  | width (n : Nat) (left : Bool) (w : Nat)
  | widthSp (n : Nat) (left : Bool) (w : Nat)
  | spec (n : Nat) (left : Bool) (w : Nat)
  | specOpen (n : Nat) (left : Bool) (w : Nat)
  | specClose (n : Nat) (left : Bool) (w : Nat)
  deriving DecidableEq, Repr

/-- The value of a decimal digit. -/
def digitVal (c : Char) : Nat := c.toNat - 48

/-- The argument `n`, padded to the width `w`. -/
def fmtItem (args : List Str) (n : Nat) (left : Bool) (w : Nat) : Option Str :=
  match args.get? n, w with
  | none, _ => none
  | some a, 0 => some a
  | some a, w =>
    let pad := List.replicate (w - a.length) ' '
    some (if left then a ++ pad else pad ++ a)

/-- The scanner in plain text reads `c`. -/
def fmtText (c : Char) : Option (FmtState × Str) :=
  if c = '{' then some (.opened, [])
  else if c = '}' then some (.closing, [])
  else some (.text, [c])

/-- The scanner reads `c` after the index and the alignment of an item: blanks
are skipped, `:` opens the format string, `}` ends the item. -/
def fmtTail (args : List Str) (n : Nat) (left : Bool) (w : Nat) (c : Char) :
    Option (FmtState × Str) :=
  if c = ' ' then some (.widthSp n left w, [])
  else if c = ':' then some (.spec n left w, [])
  else if c = '}' then (fmtItem args n left w).map (fun o => (.text, o))
  else none

/-- The scanner reads `c` after the index of an item, where a `,` may still
introduce the alignment. -/
def fmtAfterIndex (args : List Str) (n : Nat) (c : Char) : Option (FmtState × Str) :=
  if c = ' ' then some (.idxSp n, [])
  else if c = ',' then some (.comma n, [])
  else fmtTail args n false 0 c

/-- One character of the format string. -/
def fmtStep (args : List Str) : FmtState → Char → Option (FmtState × Str)
  | .text, c => fmtText c
  | .opened, c =>
    if c = '{' then some (.text, ['{'])
    else if c.isDigit then some (.index (digitVal c), [])
    else none
  | .closing, c => if c = '}' then some (.text, ['}']) else none
  | .index n, c =>
    if c.isDigit && decide (n < 1000000) then some (.index (n * 10 + digitVal c), [])
    else if args.length ≤ n then none
    else fmtAfterIndex args n c
  | .idxSp n, c => fmtAfterIndex args n c
  | .comma n, c =>
    if c = ' ' then some (.comma n, [])
    else if c = '-' then some (.minus n, [])
    else if c.isDigit then some (.width n false (digitVal c), [])
    else none
  | .minus n, c => if c.isDigit then some (.width n true (digitVal c), []) else none
  | .width n l w, c =>
    if c.isDigit && decide (w < 1000000) then some (.width n l (w * 10 + digitVal c), [])
    else fmtTail args n l w c
  | .widthSp n l w, c => fmtTail args n l w c
  | .spec n l w, c =>
    if c = '{' then some (.specOpen n l w, [])
    else if c = '}' then some (.specClose n l w, [])
    else some (.spec n l w, [])
  | .specOpen n l w, c => if c = '{' then some (.spec n l w, []) else none
  | .specClose n l w, c =>
    if c = '}' then some (.spec n l w, [])
    else
      match fmtItem args n l w, fmtText c with
      | some o, some (st, o') => some (st, o ++ o')
      | _, _ => none

/-- The end of the format string. -/
def fmtFinish (args : List Str) : FmtState → Option Str
  | .text => some []
  | .specClose n l w => fmtItem args n l w
  | _ => none

/-- The scanner of `String::Format`, from a state. -/
def formatGo (args : List Str) : FmtState → List Char → Option Str
  | st, [] => fmtFinish args st
  | st, c :: cs =>
    match fmtStep args st c with
    | none => none
    | some (st', o) =>
      match formatGo args st' cs with
      | none => none
      | some r => some (o ++ r)

/-- The call `String::Format(format, args)`; `none` is a `FormatException`. -/
def Format (format : Str) (args : List Str) : Option Str :=
  formatGo args .text format

/-! ## Paths -/

/-- A directory separator of Windows. -/
def isSep (c : Char) : Bool := c = '\\' || c = '/'

/-- The test `Path::IsPathRooted`: a leading separator or a drive letter. -/
def isRooted : Str → Bool
  | c :: d :: _ => isSep c || d = ':'
  | [c] => isSep c
  | [] => false

/-- The last character is a separator (or the `:` of a drive). -/
def endsWithSep (a : Str) : Bool :=
  match a.getLast? with
  | some c => isSep c || c = ':'
  | none => false

/-- A character that `Path::Combine` turns down: a control character, a double
quote, an angle bracket or a bar. -/
def isInvalidPathChar (c : Char) : Bool :=
  decide (c.toNat < 32) || c = '"' || c = '<' || c = '>' || c = '|'

/-- The path has a character that `Path::Combine` turns down with an
`ArgumentException`. -/
def hasInvalidPathChar (p : Str) : Bool := p.any isInvalidPathChar

/-- The value of `Path::Combine(a, b)` when the call returns, that is for
arguments without invalid path characters; the call with its exception is
`PathCombine`, which `RevokeCert` uses for the name it is given.  The other
methods take the value: what they do for a name or a suffix with an invalid
path character is not followed here. -/
def Combine (a b : Str) : Str :=
  if b.isEmpty then a
  else if a.isEmpty then b
  else if isRooted b then b
  else if endsWithSep a then a ++ b
  else a ++ '\\' :: b

/-- The directory `a` as the front of the paths below it: with a separator at
its end, and nothing for the empty path. -/
def dirPrefix (a : Str) : Str :=
  if a.isEmpty then [] else if endsWithSep a then a else a ++ ['\\']

/-- A file name that `Path::Combine` appends: not empty and not rooted. -/
def simpleName (b : Str) : Bool := !b.isEmpty && !isRooted b

/-- The path `p` lies below the directory `d`. -/
def isUnder (d p : Str) : Bool :=
  (d ++ ['\\']).isPrefixOf p || (d ++ ['/']).isPrefixOf p

/-! ## Numbers -/

/-- The value fits the 32-bit `int`. -/
def inInt32 (n : Int) : Bool := decide (-2147483648 ≤ n) && decide (n ≤ 2147483647)

/-- The 32-bit `int` that unchecked arithmetic leaves for the exact value `n`. -/
def wrapInt32 (n : Int) : Int := (n + 2147483648) % 4294967296 - 2147483648

/-- The blanks that number parsing skips. -/
def isNumberBlank (c : Char) : Bool := c = ' ' || (9 ≤ c.toNat && c.toNat ≤ 13)

/-- The value of a string of decimal digits. -/
def digitsVal (ds : List Char) : Nat := ds.foldl (fun acc c => acc * 10 + digitVal c) 0

/-- The call `int::TryParse(s, result)` (number style `Integer`): blanks, one
sign, digits, blanks, then nothing but NUL characters, and the value within the
32-bit range. -/
def parseInt32 (s : Option Str) : Option Int :=
  match s with
  | none => none
  | some s =>
    let t := s.dropWhile isNumberBlank
    let (neg, r) :=
      match t with
      | '-' :: r => (true, r)
      | '+' :: r => (false, r)
      | r => (false, r)
    let ds := r.takeWhile Char.isDigit
    let rest := (r.dropWhile Char.isDigit).dropWhile isNumberBlank
    if ds.isEmpty || !rest.all (fun c => c.toNat = 0) then none
    else
      let v : Int := if neg then -(digitsVal ds : Int) else (digitsVal ds : Int)
      if inInt32 v then some v else none

/-! ## The configuration dictionary -/

/-- The enumeration `OpenSSLHelper::Algorithm`, as its underlying integer: a
`static_cast` from `int` accepts every value. -/
structure Algorithm where
  code : Int
  deriving DecidableEq, Repr

/-- Modelled from the spec: the enumerators of `OpenSSLHelper::Algorithm`
(declared outside this source file), numbered in the order RSA, ECDSA, EdDSA in
which the specification lists them. -/
def Algorithm.RSA : Algorithm := ⟨0⟩

/-- Modelled from the spec: the second enumerator of `OpenSSLHelper::Algorithm`. -/
def Algorithm.ECDSA : Algorithm := ⟨1⟩

/-- Modelled from the spec: the third enumerator of `OpenSSLHelper::Algorithm`. -/
def Algorithm.EdDSA : Algorithm := ⟨2⟩

/-- A value of type `Object^` as the configuration dictionary holds it.
`jarray` is the array that the JSON reader delivers (not a `List<String^>`),
`other` any further object (a nested JSON object, say). -/
inductive Obj where
  | null
  | int (n : Int)
  | str (s : Str)
  | bool (b : Bool)
  | alg (a : Algorithm)
  | strList (l : List Str)
  | jarray (l : List Str)
  | other
  deriving DecidableEq, Repr

/-- The type `Dictionary<String^, Object^>`, in insertion order. -/
abbrev Dict := List (Str × Obj)

/-- The method `TryGetValue`. -/
def Dict.get? (d : Dict) (k : Str) : Option Obj :=
  match d with
  | [] => none
  | (k', v) :: rest => if k' = k then some v else Dict.get? rest k

/-- The indexer assignment `d[k] = v`: replaces the entry or appends one. -/
def Dict.set (d : Dict) (k : Str) (v : Obj) : Dict :=
  match d with
  | [] => [(k, v)]
  | (k', v') :: rest => if k' = k then (k, v) :: rest else (k', v') :: Dict.set rest k v

/-- The method `Add`: `none` is the `ArgumentException` for a key already there. -/
def Dict.add (d : Dict) (k : Str) (v : Obj) : Option Dict :=
  match d.get? k with
  | some _ => none
  | none => some (d ++ [(k, v)])

/-- What a value is after it was written as JSON and read back: integers and
enumerators come back as integers, a list of strings as a JSON array. -/
def Obj.json : Obj → Obj
  | .alg a => .int a.code
  | .strList l => .jarray l
  | v => v

/-- The dictionary after it was written as JSON and read back. -/
def Dict.json (d : Dict) : Dict := d.map (fun kv => (kv.1, kv.2.json))

/-- The call `Convert::ToInt32(Object^)`; `none` is an exception
(`FormatException`, `OverflowException`, `InvalidCastException`). -/
def ToInt32 : Obj → Option Int
  | .null => some 0
  | .int n => if inInt32 n then some n else none
  | .str s => parseInt32 (some s)
  | .bool b => some (if b then 1 else 0)
  | .alg a => if inInt32 a.code then some a.code else none
  | _ => none

/-- The cast `(String^)value`; `none` is the `InvalidCastException`, `some none`
the null reference. -/
def castString : Obj → Option (Option Str)
  | .null => some none
  | .str s => some (some s)
  | _ => none

/-- The cast `(List<String^>^)value`. -/
def castStringList : Obj → Option (Option (List Str))
  | .null => some none
  | .strList l => some (some l)
  | _ => none

/-- The unboxing `(bool)value`; `none` is an exception. -/
def castBool : Obj → Option Bool
  | .bool b => some b
  | _ => none

/-! ## Collaborators outside this source file -/

/-- The class `CertificateSubject`: the distinguished-name fields. -/
structure CertificateSubject where
  CommonName : Option Str
  Country : Option Str := none
  State : Option Str := none
  Location : Option Str := none
  Organisation : Option Str := none
  OrganisationUnit : Option Str := none
  Email : Option Str := none
  deriving DecidableEq, Repr

/-- The class `Identity`: a certificate and its private key, as handles. -/
structure Identity where
  cert : Str
  key : Str
  deriving DecidableEq, Repr

/-- What this source file takes from the rest of the repository and from
libraries without fixing it: the JSON reader and writer, the dictionary form of
a subject, the cryptographic backend `OpenSSLHelper`, the archive writer, the
address parser and the constants of `Interactive.h`.  `none` stands for a
raised exception, except where a field says otherwise. -/
structure Env where
  jsonEncode : Dict → Option Str
  jsonDecode : Str → Option Dict
  /-- The call `CertificateSubject::fromDict`; `none` is the null result. -/
  subjectFromDict : Dict → Option CertificateSubject
  subjectToDict : CertificateSubject → Dict
  /-- The constructor `CertificateSubject(commonName)`. -/
  newSubject : Option Str → CertificateSubject
  CreateCAAndKey : CertificateSubject → Algorithm → Int → Option Str → Int → Int → Option Identity
  CreateCertKeyBundle : CertificateSubject → Identity → Algorithm → Int → Option Str →
    Int → Int → Bool → Option Identity
  CreateDH : Int → Option Str
  CreateCRL : Option Identity → Algorithm → Option Str → Str → Int → Option Str
  /-- The call `OpenSSLHelper::LoadIdentity`; `some none` is the null result. -/
  LoadIdentity : Str → Str → Option (Option Identity)
  /-- The call `OpenSSLHelper::CertAsPEM`; `none` is the null result. -/
  CertAsPEM : Str → Option Str
  /-- The call `OpenSSLHelper::KeyAsPEM`; `none` is the null result. -/
  KeyAsPEM : Str → Option Str
  /-- The archive of the entry `name` of a directory, given the files below it. -/
  packDirectory : Str → (Str → Option Str) → Option Str
  isIPAddress : Str → Bool
  defaultPort : Str
  defaultProtocol : Str
  cloudflareDNS : List Str
  googleDNS : List Str
  openDNS : List Str
  localDNS : Str
  defaultCountry : Str
  defaultState : Str
  defaultLocale : Str
  defaultON : Str
  defaultOU : Str
  defaultEmail : Str

/-! ## The world -/

/-- An operation on the file system that can fail for a reason outside the
program (permissions, a missing parent directory, a lock, a full disk). -/
inductive FsOp where
  | read (p : Str)
  | write (p : Str)
  | copy (src dst : Str)
  | delete (p : Str)
  | mkdir (p : Str)
  | rmdir (p : Str)
  | pack (p : Str)
  deriving DecidableEq, Repr

/-- The file system: the text of every file, the directories, and which
operations fail. -/
structure FS where
  files : Str → Option Str
  dirs : Str → Bool
  fails : FsOp → Bool

/-- A call to the cryptographic backend, with the arguments that matter. -/
inductive Call where
  | createCA (subject : CertificateSubject) (alg : Algorithm) (serial : Int)
  | createBundle (subject : CertificateSubject) (serial : Int) (server : Bool)
  | createDH (keySize : Int)
  | createCRL (existing : Option Str) (cert : Str)
  | loadIdentity (cert key : Str)
  deriving DecidableEq, Repr

/-- The fields of an `Interactive` object.  The paths `configPath`, `pkiPath`,
`caPath`, `keyPath`, `crlPath` and `clientsPath` are set once by the constructor
from `path` and are functions of it here. -/
structure Interactive where
  path : Str
  keySize : Int
  validDays : Int
  keyAlg : Algorithm
  curveName : Option Str
  suffix : Str
  cSubject : Option CertificateSubject := none
  config : Option Dict := none
  _serial : Int := 0
  Issuer : Option Identity := none
  deriving DecidableEq, Repr

/-- The field `configPath`. -/
def Interactive.configPath (self : Interactive) : Str := Combine self.path "config.conf".toList

/-- The field `pkiPath`. -/
def Interactive.pkiPath (self : Interactive) : Str := Combine self.path "pki".toList

/-- The field `caPath`. -/
def Interactive.caPath (self : Interactive) : Str := Combine self.pkiPath "ca.crt".toList

/-- The field `keyPath`. -/
def Interactive.keyPath (self : Interactive) : Str := Combine self.pkiPath "ca.key".toList

/-- The field `crlPath`. -/
def Interactive.crlPath (self : Interactive) : Str := Combine self.pkiPath "crl.crt".toList

/-- The field `clientsPath`. -/
def Interactive.clientsPath (self : Interactive) : Str := Combine self.path "clients".toList

/-- The constructor `Interactive::Interactive`. -/
def Interactive.new (path : Str) (algorithm : Algorithm) (keySize : Int) (ecCurve : Option Str)
    (validDays : Int) (suffix : Option Str) : Interactive :=
  { path := path
    keySize := keySize
    validDays := validDays
    keyAlg := algorithm
    curveName := ecCurve
    suffix := match suffix with
      | none => []
      | some s => s }

/-- Everything an operation reads and changes. -/
structure World where
  self : Interactive
  fs : FS
  stdin : List Str
  calls : List Call := []

/-- An operation did not return. -/
inductive Abort where
  | exception
  | hang
  | exit
  deriving DecidableEq, Repr

/-- How an operation ends. -/
inductive Outcome (α : Type) where
  | ret (a : α) (w : World)
  | abort (e : Abort) (w : World)

/-- The returned value, if the operation returned. -/
def Outcome.result {α : Type} : Outcome α → Option α
  | .ret a _ => some a
  | .abort _ _ => none

/-- The world in which the operation ended. -/
def Outcome.world {α : Type} : Outcome α → World
  | .ret _ w => w
  | .abort _ w => w

/-- An operation of the program. -/
def M (α : Type) : Type := World → Outcome α

/-- Continue an outcome with `f`; an abort stays. -/
def Outcome.andThen {α β : Type} (o : Outcome α) (f : α → M β) : Outcome β :=
  match o with
  | .ret a w => f a w
  | .abort e w => .abort e w

/-- Hand the exception of an outcome to `handler`. -/
def Outcome.orElse {α : Type} (o : Outcome α) (handler : M α) : Outcome α :=
  match o with
  | .abort .exception w => handler w
  | r => r

/-- Return a value. -/
def M.pure {α : Type} (a : α) : M α := fun w => .ret a w

/-- Run `m`, then `f` on its value; an abort ends the run. -/
def M.bind {α β : Type} (m : M α) (f : α → M β) : M β := fun w => (m w).andThen f

instance : Monad M where
  pure := M.pure
  bind := M.bind

/-- Raise an exception. -/
def throwEx {α : Type} : M α := fun w => .abort .exception w

/-- Stop for good (an endless loop, or `Environment::Exit`). -/
def abortWith {α : Type} (e : Abort) : M α := fun w => .abort e w

/-- The block `try { body } catch (Exception^) { handler }`. -/
def tryCatch {α : Type} (body handler : M α) : M α := fun w => (body w).orElse handler

/-- The block `try { body } finally { cleanup }`. -/
def tryFinally {α : Type} (body : M α) (cleanup : M Unit) : M α := fun w =>
  match body w with
  | .ret a w' =>
    match cleanup w' with
    | .ret _ w'' => .ret a w''
    | .abort e w'' => .abort e w''
  | .abort .exception w' =>
    match cleanup w' with
    | .ret _ w'' => .abort .exception w''
    | .abort e w'' => .abort e w''
  | r => r

/-- The value of an `Option` whose `none` is a raised exception. -/
def orThrow {α : Type} : Option α → M α
  | some a => M.pure a
  | none => throwEx

/-- The object itself. -/
def getSelf : M Interactive := fun w => .ret w.self w

/-- Assign fields of the object. -/
def modifySelf (f : Interactive → Interactive) : M Unit := fun w =>
  .ret () { w with self := f w.self }

/-- Record a call to the backend. -/
def logCall (c : Call) : M Unit := fun w => .ret () { w with calls := w.calls ++ [c] }

/-- The loop `while (true) { body }` run at most `fuel` times: `body` gives
`some a` to leave the loop with `a`, `none` to go round again. -/
def loopFuel {α : Type} (body : M (Option α)) : Nat → M α
  | 0 => abortWith .hang
  | n + 1 => fun w =>
    match body w with
    | .ret (some a) w' => .ret a w'
    | .ret none w' => loopFuel body n w'
    | .abort e w' => .abort e w'

/-- The loop `while (true) { body }` of a prompt: every round reads a line of the
console or, at the end of the input, finds the same state again, so that one
round more than there are lines left tells an endless loop. -/
def whileTrue {α : Type} (body : M (Option α)) : M α := fun w =>
  loopFuel body (w.stdin.length + 1) w

/-! ### Files and directories -/

/-- The world with the file `p` holding `t` (`none`: no such file). -/
def World.setFile (w : World) (p : Str) (t : Option Str) : World :=
  { w with fs := { w.fs with files := fun q => if q = p then t else w.fs.files q } }

/-- The world with the directory `p` there. -/
def World.addDir (w : World) (p : Str) : World :=
  { w with fs := { w.fs with dirs := fun q => if q = p then true else w.fs.dirs q } }

/-- The world without the directory `p` and all that lies below it. -/
def World.removeTree (w : World) (p : Str) : World :=
  { w with fs := { w.fs with
    files := fun q => if isUnder p q then none else w.fs.files q
    dirs := fun q => if q = p || isUnder p q then false else w.fs.dirs q } }

/-- The world after the swallowed attempt to write `t` to the file `p`. -/
def World.tryWrite (w : World) (p t : Str) : World :=
  if w.fs.fails (.write p) then w else w.setFile p (some t)

/-- The world after the swallowed attempt to make the directory `p` if it is
not there. -/
def World.tryMkdir (w : World) (p : Str) : World :=
  if w.fs.dirs p || w.fs.fails (.mkdir p) then w else w.addDir p

/-- The settings of an object that no issuing changes. -/
def sameSettings (a b : Interactive) : Prop :=
  a.path = b.path ∧ a.suffix = b.suffix ∧ a.keyAlg = b.keyAlg ∧ a.curveName = b.curveName ∧
    a.config = b.config ∧ a.keySize = b.keySize ∧ a.validDays = b.validDays

/-- The call `Path::Combine(a, b)`: an `ArgumentException` for an argument with
an invalid path character. -/
def PathCombine (a b : Str) : M Str := fun w =>
  if hasInvalidPathChar a || hasInvalidPathChar b then .abort .exception w
  else .ret (Combine a b) w

/-- The call `File::Exists`. -/
def FileExists (p : Str) : M Bool := fun w => .ret (w.fs.files p).isSome w

/-- The call `Directory::Exists`. -/
def DirectoryExists (p : Str) : M Bool := fun w => .ret (w.fs.dirs p) w

/-- Read a file whole through a `StreamReader`. -/
def readFile (p : Str) : M Str := fun w =>
  if w.fs.fails (.read p) then .abort .exception w
  else
    match w.fs.files p with
    | some t => .ret t w
    | none => .abort .exception w

/-- Write a file whole through a `StreamWriter` (`Write`, `Flush`, `Close`). -/
def writeFile (p : Str) (t : Str) : M Unit := fun w =>
  if w.fs.fails (.write p) then .abort .exception w
  else .ret () (w.setFile p (some t))

/-- The call `File::Copy(src, dst, overwrite)`. -/
def FileCopy (src dst : Str) (overwrite : Bool) : M Unit := fun w =>
  if w.fs.fails (.copy src dst) || (w.fs.files src).isNone
      || (!overwrite && (w.fs.files dst).isSome) then .abort .exception w
  else .ret () (w.setFile dst (w.fs.files src))

/-- The call `File::Delete`: no error for a file that is not there. -/
def FileDelete (p : Str) : M Unit := fun w =>
  if w.fs.fails (.delete p) then .abort .exception w
  else .ret () (w.setFile p none)

/-- The call `Directory::CreateDirectory`. -/
def CreateDirectory (p : Str) : M Unit := fun w =>
  if w.fs.fails (.mkdir p) then .abort .exception w
  else .ret () (w.addDir p)

/-- The call `Directory::Delete(p, true)`: the directory with all below it. -/
def DeleteDirectory (p : Str) : M Unit := fun w =>
  if w.fs.fails (.rmdir p) || !w.fs.dirs p then .abort .exception w
  else .ret () (w.removeTree p)

/-- The block `try { action } catch (Exception^) { ... }` around one action:
whether the action went through. -/
def attempt (action : M Unit) : M Bool :=
  tryCatch (do action; return true) (return false)

/-- The block `try { text = read(p) } catch (Exception^) { ... }`: the text,
or `none` when reading raised. -/
def attemptRead (p : Str) : M (Option Str) :=
  tryCatch (do let t ← readFile p; return some t) (return none)

/-- The block that makes a directory anew: `try { if (Directory::Exists(p))
Directory::Delete(p, true); Directory::CreateDirectory(p); } catch ...`. -/
def makeFreshDirectory (p : Str) : M Bool :=
  attempt (do
    if (← DirectoryExists p) then
      DeleteDirectory p
    CreateDirectory p)

/-- The call `Console::ReadLine`: the next line, or null at the end of input. -/
def ReadLine : M (Option Str) := fun w =>
  match w.stdin with
  | [] => .ret none w
  | l :: rest => .ret (some l) { w with stdin := rest }

/-! ## The methods of `Interactive` -/

/-- The method `Interactive::askQuestion(question, allowedBlank, hasDefault)`;
the question only goes to the console. -/
def askQuestion (allowedBlank hasDefault : Bool) : M (Option Str) :=
  whileTrue (do
    let input ← ReadLine
    if IsNullOrWhiteSpace input && !hasDefault then
      return none
    if input = some ".".toList && !allowedBlank then
      return none
    return some input)

/-- The overload `Interactive::askQuestion(question, allowedBlank)`. -/
def askQuestion2 (allowedBlank : Bool) : M (Option Str) :=
  askQuestion allowedBlank true

/-- The call `askQuestion(...)->ToLower()`: a null answer raises
`NullReferenceException`. -/
def askLower (allowedBlank : Bool) : M Str := do
  let input ← askQuestion2 allowedBlank
  match input with
  | none => throwEx
  | some s => return ToLower s

/-- Modelled from the spec: the getter of the property `Serial`, declared in
`Interactive.h` and not in this source file; it "returns current Serial, then
increments it in memory", and persisting is left to the caller.  Whether the
getter of the program also saves the configuration cannot be seen from the
source file; no statement about the serial on disk is drawn from this model. -/
def Serial : M Int := fun w =>
  .ret w.self._serial { w with self := { w.self with _serial := wrapInt32 (w.self._serial + 1) } }

/-- The end of `Interactive::LoadConfig`, from the comment `Load in CA` on: the
CA certificate and key are read and loaded as the issuer. -/
def loadIssuer (env : Env) (self : Interactive) : M Bool := do
  let certData ← attemptRead self.caPath
  match certData with
  | none => return false
  | some certData =>
    let keyData ← attemptRead self.keyPath
    match keyData with
    | none => return false
    | some keyData =>
      logCall (.loadIdentity certData keyData)
      match env.LoadIdentity certData keyData with
      | none => return false
      | some issuer =>
        modifySelf (fun s => { s with Issuer := issuer })
        if issuer.isNone then
          return false
        return true

/-- The method `Interactive::LoadConfig`. -/
def LoadConfig (env : Env) : M Bool := do
  let self ← getSelf
  if !(← FileExists self.configPath) then
    return false
  let loaded ← tryCatch
    (do
      let json ← readFile self.configPath
      let dict ← orThrow (env.jsonDecode json)
      return some dict)
    (return none)
  match loaded with
  | none => return false
  | some dict =>
    modifySelf (fun s => { s with cSubject := env.subjectFromDict dict })
    if (env.subjectFromDict dict).isNone then
      return false
    modifySelf (fun s => { s with config := some dict })
    match dict.get? "keysize".toList with
    | some val =>
      let n ← orThrow (ToInt32 val)
      modifySelf (fun s => { s with keySize := n })
    | none => modifySelf (fun s => { s with keySize := 2048 })
    match dict.get? "validdays".toList with
    | some val =>
      let n ← orThrow (ToInt32 val)
      modifySelf (fun s => { s with validDays := n })
    | none => modifySelf (fun s => { s with validDays := 3650 })
    match dict.get? "serial".toList with
    | some val =>
      let n ← orThrow (ToInt32 val)
      modifySelf (fun s => { s with _serial := n })
    | none => return false
    match dict.get? "algorithm".toList with
    | some val =>
      tryCatch
        (do
          let n ← orThrow (ToInt32 val)
          modifySelf (fun s => { s with keyAlg := ⟨n⟩ }))
        (modifySelf (fun s => { s with keyAlg := Algorithm.RSA }))
    | none => modifySelf (fun s => { s with keyAlg := Algorithm.RSA })
    modifySelf (fun s => { s with curveName := none })
    match dict.get? "eccurve".toList with
    | some val =>
      let c ← orThrow (castString val)
      modifySelf (fun s => { s with curveName := c })
    | none =>
      if (← getSelf).keyAlg = Algorithm.EdDSA then
        modifySelf (fun s => { s with curveName := some "ED25519".toList })
      else
        modifySelf (fun s => { s with curveName := some "secp384r1".toList })
    match dict.get? "suffix".toList with
    | some val =>
      let c ← orThrow (castString val)
      modifySelf (fun s => { s with suffix := c.getD [] })
    | none => modifySelf (fun s => { s with suffix := [] })
    loadIssuer env self

/-- The method `Interactive::SaveConfig`. -/
def SaveConfig (env : Env) : M Bool := do
  let self ← getSelf
  match self.config with
  | none => throwEx
  | some config =>
    modifySelf (fun s => { s with config := some (config.set "serial".toList (.int s._serial)) })
    tryCatch
      (do
        let json ← orThrow (env.jsonEncode (config.set "serial".toList (.int self._serial)))
        writeFile self.configPath json
        return true)
      (return false)

/-- The method `Interactive::saveIdentity`. -/
def saveIdentity (env : Env) (identity : Identity) (name : Str) : M Bool := do
  let self ← getSelf
  let _ ← attempt (do
    if !(← DirectoryExists self.pkiPath) then
      CreateDirectory self.pkiPath)
  let certpath := Combine self.pkiPath (name ++ ".crt".toList)
  let keypath := Combine self.pkiPath (name ++ ".key".toList)
  match env.CertAsPEM identity.cert with
  | none => return false
  | some cert =>
    let _ ← attempt (writeFile certpath cert)
    match env.KeyAsPEM identity.key with
    | none => return false
    | some key =>
      let _ ← attempt (writeFile keypath key)
      return true

/-- The body of `Interactive::CreateNewIssuer`, for any getter of the property
`Serial`.  The getter runs inside the `try` around the call of the backend, as
the last argument of that call. -/
def CreateNewIssuerWith (serialGetter : M Int) (env : Env) : M Bool := do
  let self ← getSelf
  match self.cSubject with
  | none => return false
  | some cSubject =>
    let serial? ← tryCatch (do let s ← serialGetter; return some s) (return none)
    match serial? with
    | none => return false
    | some serial =>
      logCall (.createCA cSubject self.keyAlg serial)
      match env.CreateCAAndKey cSubject self.keyAlg self.keySize self.curveName self.validDays
          serial with
      | none => return false
      | some identity =>
        modifySelf (fun s => { s with Issuer := some identity })
        saveIdentity env identity "ca".toList

/-- The method `Interactive::CreateNewIssuer`. -/
def CreateNewIssuer (env : Env) : M Bool := CreateNewIssuerWith Serial env

/-- The method `Interactive::CreateDH`. -/
def CreateDH (env : Env) : M Bool := do
  let self ← getSelf
  tryCatch
    (do
      logCall (.createDH self.keySize)
      let dhPem ← orThrow (env.CreateDH self.keySize)
      writeFile (Combine self.pkiPath "dh.pem".toList) dhPem
      return true)
    (return false)

/-- The method `Interactive::verifyRequirements`. -/
def verifyRequirements : M Bool := do
  let self ← getSelf
  if self.Issuer.isNone then
    return false
  if self.cSubject.isNone then
    return false
  return true

/-- The method `Interactive::createNewClientIdentity`.  The local `subject` is
the object `cSubject` itself, so that the assignment of the common name lands
in the field. -/
def createNewClientIdentity (env : Env) (name : Str) : M Bool := do
  if !(← verifyRequirements) then
    return false
  modifySelf (fun s => { s with cSubject := s.cSubject.map (fun c => { c with CommonName := some name }) })
  let self ← getSelf
  match self.cSubject, self.Issuer with
  | some subject, some issuer =>
    let serial ← Serial
    logCall (.createBundle subject serial false)
    match env.CreateCertKeyBundle subject issuer self.keyAlg self.keySize self.curveName
        self.validDays serial false with
    | none => return false
    | some identity => saveIdentity env identity name
  | _, _ => throwEx

/-- The method `Interactive::createNewServerIdentity`, with the same aliasing of
`subject` and `cSubject`. -/
def createNewServerIdentity (env : Env) : M Bool := do
  if !(← verifyRequirements) then
    return false
  modifySelf (fun s =>
    { s with cSubject := s.cSubject.map (fun c => { c with CommonName := some "server".toList }) })
  let self ← getSelf
  match self.cSubject, self.Issuer with
  | some subject, some issuer =>
    let serial ← Serial
    logCall (.createBundle subject serial true)
    match env.CreateCertKeyBundle subject issuer self.keyAlg self.keySize self.curveName
        self.validDays serial true with
    | none => return false
    | some identity => saveIdentity env identity "server".toList
  | _, _ => throwEx

/-- The entry `config[key]` cast to `String^`; `none` is an exception (no
dictionary, no such key, another type). -/
def configString (config : Option Dict) (key : Str) : Option (Option Str) :=
  match config with
  | none => none
  | some d =>
    match d.get? key with
    | none => none
    | some v => castString v

/-- The lines that `CreateServerConfig` adds for `config["dns"]`; every
exception of the block is swallowed. -/
def dnsLines (config : Option Dict) : Str :=
  match config with
  | none => []
  | some d =>
    match d.get? "dns".toList with
    | none => []
    | some v =>
      match castStringList v with
      | some (some dns) =>
        (dns.map (fun var => (Format "push \"dhcp-option DNS {0}\"\n".toList [var]).getD [])).flatten
      | _ => []

/-- The line that `CreateServerConfig` adds for `config["redirect"]`; every
exception of the block is swallowed. -/
def redirectLine (config : Option Dict) : Str :=
  match config with
  | none => []
  | some d =>
    match d.get? "redirect".toList with
    | none => []
    | some v =>
      match castBool v with
      | some true => "push \"redirect-gateway def1\"\n".toList
      | _ => []

/-- The format string `file` that `CreateServerConfig` builds, before the last
`String::Format(file, proto, port)`; `crlExists` is `File::Exists(crlPath)`. -/
def serverTemplate (self : Interactive) (crlExists : Bool) : Str :=
  let caName := "ca".toList ++ self.suffix ++ ".crt".toList
  let crlName := "crl".toList ++ self.suffix ++ ".crt".toList
  let certName := "server".toList ++ self.suffix ++ ".crt".toList
  let keyName := "server".toList ++ self.suffix ++ ".key".toList
  let dhName := "dh".toList ++ self.suffix ++ ".pem".toList
  let curve := self.curveName.getD []
  let file := "#-- Config Auto Generated by SparkLabs OpenVPN Certificate Generator --#\n".toList
  let file := file ++ "#--                   Config for OpenVPN 2.4 Server                  --#\n\n".toList
  let file := file ++ "proto {0}\n".toList
  let file := file ++ ("ifconfig-pool-persist ipp".toList ++ self.suffix ++ ".txt\n".toList)
  let file := file ++ "keepalive 10 120\n".toList
  let file := file ++ "user nobody\ngroup nogroup\n".toList
  let file := file ++ "persist-key\npersist-tun\n".toList
  let file := file ++ ("status openvpn-status".toList ++ self.suffix ++ ".log\n".toList)
  let file := file ++ "verb 3\n".toList
  let file := file ++ "mute 10\n".toList
  let file := file ++ (Format "ca {0}\ncert {1}\nkey {2}\n".toList [caName, certName, keyName]).getD []
  let file := if crlExists then file ++ ("crl-verify ".toList ++ crlName ++ "\n".toList) else file
  let file :=
    if self.keyAlg = Algorithm.RSA then
      file ++ ("dh ".toList ++ dhName ++ "\n".toList)
    else if self.keyAlg = Algorithm.EdDSA then
      let file := file ++ "tls-version-min 1.3\n".toList
      let file := file ++ "dh none\n".toList
      let file := file ++ "# Note this curve probably isn't supported (yet), however OpenVPN will fall back to another (secp384r1)\n".toList
      let file := file ++ ("ecdh-curve ".toList ++ curve ++ "\n".toList)
      file ++ "tls-cipher TLS_AES_256_GCM_SHA384\n".toList
    else
      let file := file ++ "tls-version-min 1.2\n".toList
      let file := file ++ "dh none\n".toList
      let file := file ++ ("ecdh-curve ".toList ++ curve ++ "\n".toList)
      file ++ "tls-cipher TLS-ECDHE-ECDSA-WITH-AES-256-GCM-SHA384\n".toList
  let file := file ++ "port {1}\n".toList
  let file := file ++ "dev tun0\n".toList
  let file := file ++ "server 10.8.0.0 255.255.255.0\n".toList
  let file := file ++ dnsLines self.config
  let file := file ++ redirectLine self.config
  let file := file ++ "#Uncomment the below to allow client to client communication\n#client-to-client\n".toList
  file ++ "#Uncomment the below and modify the command to allow access to your internal network\n#push \"route 192.168.0.0 255.255.255.0\"\n".toList

/-- The protocol word of the server: `config["proto"]` is `tcp` or anything else. -/
def serverProto (proto : Option Str) : Str :=
  if proto = some "tcp".toList then "tcp-server".toList else "udp".toList

/-- The text of the server configuration: `String::Format(file, proto, port)`;
`none` is the `FormatException`. -/
def serverConfigText (self : Interactive) (crlExists : Bool) (proto : Str) (port : Option Str) :
    Option Str :=
  Format (serverTemplate self crlExists) [proto, port.getD []]

/-- The path of the server directory. -/
def Interactive.serverPath (self : Interactive) : Str := Combine self.path "server".toList

/-- The path of the server configuration file. -/
def Interactive.serverConfPath (self : Interactive) : Str :=
  Combine self.serverPath ("server".toList ++ self.suffix ++ ".conf".toList)

/-- The path of the Diffie-Hellman parameters. -/
def Interactive.dhPath (self : Interactive) : Str := Combine self.pkiPath "dh.pem".toList

/-- The last part of `Interactive::CreateServerConfig`: the CA, the certificate,
the Diffie-Hellman parameters (RSA only), the key and the revocation list (if
there is one) are copied beside the configuration. -/
def copyServerMaterial : M Bool := do
  let self ← getSelf
  let caName := "ca".toList ++ self.suffix ++ ".crt".toList
  let crlName := "crl".toList ++ self.suffix ++ ".crt".toList
  let certName := "server".toList ++ self.suffix ++ ".crt".toList
  let certpath := Combine self.pkiPath "server.crt".toList
  let keyName := "server".toList ++ self.suffix ++ ".key".toList
  let keypath := Combine self.pkiPath "server.key".toList
  let dhName := "dh".toList ++ self.suffix ++ ".pem".toList
  let serverPath := self.serverPath
  if !(← attempt (FileCopy self.caPath (Combine serverPath caName) true)) then
    return false
  if !(← attempt (FileCopy certpath (Combine serverPath certName) true)) then
    return false
  if !(← attempt (do
      if self.keyAlg = Algorithm.RSA then
        FileCopy self.dhPath (Combine serverPath dhName) true)) then
    return false
  if !(← attempt (FileCopy keypath (Combine serverPath keyName) true)) then
    return false
  if !(← attempt (do
      if (← FileExists self.crlPath) then
        FileCopy self.crlPath (Combine serverPath crlName) true)) then
    return false
  return true

/-- The second part of `Interactive::CreateServerConfig`, from the block that
reads `port` and `proto` on: the text is rendered, the server directory made
anew, the configuration written and the material copied beside it. -/
def emitServerConfig : M Bool := do
  let self ← getSelf
  let certpath := Combine self.pkiPath "server.crt".toList
  let keypath := Combine self.pkiPath "server.key".toList
  match configString self.config "port".toList, configString self.config "proto".toList with
  | some port, some proto =>
    let proto := serverProto proto
    if !(← FileExists certpath) then
      return false
    if !(← FileExists keypath) then
      return false
    let crlExists ← FileExists self.crlPath
    let file ← orThrow (serverConfigText self crlExists proto port)
    if !(← makeFreshDirectory self.serverPath) then
      return false
    if !(← attempt (writeFile self.serverConfPath file)) then
      return false
    copyServerMaterial
  | _, _ => return false

/-- The method `Interactive::CreateServerConfig`: the checks of the
prerequisites and the issuing of a missing server identity, then
`emitServerConfig`. -/
def CreateServerConfig (env : Env) : M Bool := do
  let self ← getSelf
  let certpath := Combine self.pkiPath "server.crt".toList
  let keypath := Combine self.pkiPath "server.key".toList
  if !(← FileExists self.caPath) then
    return false
  if self.keyAlg = Algorithm.RSA then
    if !(← FileExists self.dhPath) then
      return false
  let haveCert ← FileExists certpath
  let haveKey ← FileExists keypath
  if !haveCert || !haveKey then
    if !(← createNewServerIdentity env) then
      return false
  emitServerConfig

/-- The format string `file` that `CreateNewClientConfig` builds. -/
def clientTemplate (keyAlg : Algorithm) : Str :=
  let file := "#-- Config Auto Generated By SparkLabs OpenVPN Certificate Generator--#\n\n".toList
  let file := file ++ "#viscosity name {0}@{1}\n".toList
  let file := file ++ "remote {1} {2} {3}\n".toList
  let file := file ++ "dev tun\ntls-client\n".toList
  let file := file ++ "ca ca.crt\n".toList
  let file := file ++ "cert {0}.crt\n".toList
  let file := file ++ "key {0}.key\n".toList
  let file := file ++ "persist-tun\npersist-key\nnobind\npull\n".toList
  if keyAlg = Algorithm.EdDSA then
    file ++ "tls-version-min 1.3\n".toList
  else if keyAlg = Algorithm.ECDSA then
    let file := file ++ "tls-version-min 1.2\n".toList
    file ++ "tls-cipher TLS-ECDHE-ECDSA-WITH-AES-256-GCM-SHA384\n".toList
  else file

/-- The protocol word of a client: `config["proto"]` is `tcp` or anything else. -/
def clientProto (proto : Option Str) : Str :=
  if proto = some "tcp".toList then "tcp-client".toList else "udp".toList

/-- The text of a client configuration:
`String::Format(file, CN, address, port, proto)`. -/
def clientConfigText (keyAlg : Algorithm) (CN : Str) (address port : Option Str) (proto : Str) :
    Option Str :=
  Format (clientTemplate keyAlg) [CN, address.getD [], port.getD [], proto]

/-- The archive of the entry `fileName` of the directory `folder` goes into the
open file `visz` (`CreateEntryFromFile`, `WriteEntry`, `Close`). -/
def writeArchive (env : Env) (visz fileName folder : Str) : M Unit := fun w =>
  if w.fs.fails (.pack visz) then .abort .exception w
  else
    match env.packDirectory fileName (fun rel => w.fs.files (Combine folder rel)) with
    | some b => .ret () (w.setFile visz (some b))
    | none => .abort .exception w

/-- The method `Interactive::createVisz`: the archive `clients/<name>.visz` of
the directory `folder`.  `File::Create` makes the file; writing the archive may
raise, and nothing here catches that. -/
def createVisz (env : Env) (fileName folder : Str) : M Bool := do
  let self ← getSelf
  let visz := Combine self.clientsPath (fileName ++ ".visz".toList)
  writeFile visz []
  tryFinally
    (do
      writeArchive env visz fileName folder
      return true)
    (return ())

/-- The method `Interactive::CreateNewClientConfig`. -/
def CreateNewClientConfig (env : Env) (name : Option Str) : M Bool := do
  let self ← getSelf
  if self.cSubject.isNone then
    return false
  if !(← FileExists self.caPath) then
    return false
  match configString self.config "server".toList, configString self.config "port".toList,
      configString self.config "proto".toList with
  | some address, some port, some proto =>
    let proto := clientProto proto
    if !(← attempt (do
        if !(← DirectoryExists self.clientsPath) then
          CreateDirectory self.clientsPath)) then
      return false
    let CN ←
      (if !IsNullOrWhiteSpace name then pure (name.getD [])
      else do
        let input ← askQuestion2 false
        pure (if IsNullOrWhiteSpace input then "client1".toList else input.getD []) : M Str)
    let clientPath := Combine self.path CN
    if !(← makeFreshDirectory clientPath) then
      return false
    if !(← createNewClientIdentity env CN) then
      return false
    let self ← getSelf
    let cert := CN ++ ".crt".toList
    let key := CN ++ ".key".toList
    if !(← attempt (FileCopy self.caPath (Combine clientPath "ca.crt".toList) false)) then
      return false
    if !(← attempt (FileCopy (Combine self.pkiPath cert) (Combine clientPath cert) false)) then
      return false
    if !(← attempt (FileCopy (Combine self.pkiPath key) (Combine clientPath key) false)) then
      return false
    let file ← orThrow (clientConfigText self.keyAlg CN address port proto)
    if !(← attempt (writeFile (Combine clientPath "config.conf".toList) file)) then
      return false
    let _ ← createVisz env CN clientPath
    let _ ← attempt (do
      if (← DirectoryExists clientPath) then
        DeleteDirectory clientPath)
    return true
  | _, _, _ => return false

/-- The method `Interactive::RevokeCert`. -/
def RevokeCert (env : Env) (name : Option Str) : M Bool := do
  let self ← getSelf
  if !(← DirectoryExists self.pkiPath) then
    return false
  let CN? ←
    (if !IsNullOrWhiteSpace name then pure name
    else do
      let input ← askQuestion2 false
      if IsNullOrWhiteSpace input then pure none else pure input : M (Option Str))
  match CN? with
  | none => return false
  | some CN =>
    if CN = "cert".toList then
      return false
    let certpath ← PathCombine self.pkiPath (CN ++ ".crt".toList)
    if !(← FileExists certpath) then
      return false
    match (← attemptRead certpath) with
    | none => return false
    | some certData =>
      let crlRead ←
        (if (← FileExists self.crlPath) then do
          match (← attemptRead self.crlPath) with
          | none => pure none
          | some t => pure (some (some t))
        else pure (some none) : M (Option (Option Str)))
      match crlRead with
      | none => return false
      | some crlData =>
        logCall (.createCRL crlData certData)
        match env.CreateCRL self.Issuer self.keyAlg crlData certData self.validDays with
        | none => return false
        | some crlData =>
          if !(← attempt (writeFile self.crlPath crlData)) then
            return false
          let _ ← attempt (FileDelete certpath)
          let keypath := Combine self.pkiPath (CN ++ ".key".toList)
          let _ ← attempt (FileDelete keypath)
          let confPath := Combine self.clientsPath (CN ++ ".visz".toList)
          let _ ← attempt (FileDelete confPath)
          let input ← askLower false
          if input = [] || input = "y".toList then
            let _ ← CreateServerConfig env
            pure ()
          return true

/-- A nullable string as an `Object^`. -/
def objOfString : Option Str → Obj
  | none => .null
  | some s => .str s

/-- The answer to a prompt with a default: the default for the empty line. -/
def orDefault (input : Option Str) (dflt : Str) : Option Str :=
  if input = some [] then some dflt else input

/-- The loop of the EdDSA notice in `GenerateNewConfig`: the empty answer or
`y` goes on, `n` ends the process, anything else asks again. -/
def confirmEdDSA : M Unit :=
  whileTrue (do
    let input ← askLower false
    if input = [] || input = "y".toList then
      return some ()
    else if input = "n".toList then
      abortWith .exit
    return none)

/-- One round of the loop of the port prompt in `GenerateNewConfig`: the empty
answer gives the default port, an answer that `int::TryParse` reads as a number
above 0 and below 65535 is the port, anything else goes round again. -/
def portRound (env : Env) : M (Option Str) := do
  let input ← askQuestion2 false
  if input = some [] then
    return some env.defaultPort
  match parseInt32 input with
  | some test =>
    if test > 0 && test < 65535 then
      return some (input.getD [])
    else
      return none
  | none => return none

/-- The loop of the port prompt in `GenerateNewConfig`. -/
def askPort (env : Env) : M Str := whileTrue (portRound env)

/-- The part of `GenerateNewConfig` that asks for the certificate details: the
question of the anonymous defaults and, without them, the fields of the
subject. -/
def askSubject (env : Env) (address : Option Str) : M CertificateSubject := do
  let useDefaults ← whileTrue (do
    let input ← askLower false
    if input = [] || input = "y".toList then
      return some true
    else if input = "n".toList then
      return some false
    return none)
  let cs ←
    (if useDefaults then pure (env.newSubject address)
    else do
      let input ← askQuestion2 false
      let cs := env.newSubject (if input = some [] then address else input)
      let input ← askQuestion2 true
      let input := orDefault input env.defaultCountry
      let cs := if input ≠ some ".".toList then { cs with Country := input } else cs
      let input ← askQuestion2 true
      let input := orDefault input env.defaultState
      let cs := if input ≠ some ".".toList then { cs with State := input } else cs
      let input ← askQuestion2 true
      let input := orDefault input env.defaultLocale
      let cs := if input ≠ some ".".toList then { cs with Location := input } else cs
      let input ← askQuestion2 true
      let input := orDefault input env.defaultON
      let cs := if input ≠ some ".".toList then { cs with Organisation := input } else cs
      let input ← askQuestion2 true
      let input := orDefault input env.defaultOU
      let cs := if input ≠ some ".".toList then { cs with OrganisationUnit := input } else cs
      let input ← askQuestion2 true
      let input := orDefault input env.defaultEmail
      let cs := if input ≠ some ".".toList then { cs with Email := input } else cs
      pure cs : M CertificateSubject)
  return cs

/-- The part of `GenerateNewConfig` from the label `SAVEDETAILS` on: the
dictionary of the subject takes the settings, becomes the configuration of the
object and is saved. -/
def storeConfig (env : Env) (address : Option Str) (proto port : Str) (redirectTraffic : Bool)
    (dns : List Str) (cs : CertificateSubject) : M Bool := do
  let self ← getSelf
  let config := env.subjectToDict cs
  let config ← orThrow (config.add "proto".toList (.str proto))
  let config ← orThrow (config.add "port".toList (.str port))
  let config ← orThrow (config.add "server".toList (objOfString address))
  let config ← orThrow (config.add "redirect".toList (.bool redirectTraffic))
  let config ← orThrow (config.add "keysize".toList (.int self.keySize))
  let config ← orThrow (config.add "validdays".toList (.int self.validDays))
  let config ← orThrow (config.add "dns".toList (.strList dns))
  let config ← orThrow (config.add "algorithm".toList (.alg self.keyAlg))
  let config ← orThrow (config.add "eccurve".toList (objOfString self.curveName))
  let config ← orThrow (config.add "suffix".toList (.str self.suffix))
  modifySelf (fun s => { s with config := some config, cSubject := some cs })
  SaveConfig env

/-- The method `Interactive::GenerateNewConfig`. -/
def GenerateNewConfig (env : Env) : M Bool := do
  if (← LoadConfig env) then
    return false
  let self ← getSelf
  if self.keyAlg = Algorithm.EdDSA then
    confirmEdDSA
  let address ← askQuestion false false
  let port ← askPort env
  let proto ← whileTrue (do
    let input ← askQuestion2 false
    if input = some [] then
      return some (ToLower env.defaultProtocol)
    if input = some "1".toList then
      return some "udp".toList
    else if input = some "2".toList then
      return some "tcp".toList
    return none)
  let redirectTraffic ← whileTrue (do
    let input ← askLower false
    if input = [] || input = "y".toList then
      return some true
    else if input = "n".toList then
      return some false
    return none)
  let defaultDNSChoice : Nat := if redirectTraffic then 1 else 4
  let (dns, customDNS) ← whileTrue (do
    let input ← askQuestion2 true
    if IsNullOrEmpty input then
      if defaultDNSChoice = 1 then
        return some (env.cloudflareDNS, false)
      else
        return some ([env.localDNS], false)
    else if input = some "1".toList then
      return some (env.cloudflareDNS, false)
    else if input = some "2".toList then
      return some (env.googleDNS, false)
    else if input = some "3".toList then
      return some (env.openDNS, false)
    else if input = some "4".toList then
      return some ([env.localDNS], false)
    else if input = some "5".toList then
      return some ([], true)
    else if input = some "6".toList || input = some ".".toList then
      return some ([], false)
    else
      return none)
  let dns ←
    (if customDNS then
      whileTrue (do
        let input ← askQuestion2 false
        if IsNullOrWhiteSpace input then
          return none
        let tmps := (SplitComma (input.getD [])).map Trim
        if tmps.all env.isIPAddress then
          return some tmps
        else
          return none)
    else pure dns : M (List Str))
  let cs ← askSubject env address
  storeConfig env address proto port redirectTraffic dns cs

/-! ## The expected texts -/

/-- A text from its lines: every line is ended by a line feed. -/
def joinLines (ls : List Str) : Str := (ls.map (fun l => l ++ ['\n'])).flatten

/-- The value of `config["dns"]` when it is a non-null `List<String^>`, else no entry. -/
def dnsList (config : Option Dict) : List Str :=
  match config with
  | none => []
  | some d =>
    match d.get? "dns".toList with
    | none => []
    | some v =>
      match castStringList v with
      | some (some dns) => dns
      | _ => []

/-- The first lines of the server configuration, up to the key file. -/
def serverLinesHead (self : Interactive) (proto : Str) : List Str :=
  ["#-- Config Auto Generated by SparkLabs OpenVPN Certificate Generator --#".toList,
   "#--                   Config for OpenVPN 2.4 Server                  --#".toList,
   [],
   "proto ".toList ++ proto,
   "ifconfig-pool-persist ipp".toList ++ self.suffix ++ ".txt".toList,
   "keepalive 10 120".toList,
   "user nobody".toList,
   "group nogroup".toList,
   "persist-key".toList,
   "persist-tun".toList,
   "status openvpn-status".toList ++ self.suffix ++ ".log".toList,
   "verb 3".toList,
   "mute 10".toList,
   "ca ca".toList ++ self.suffix ++ ".crt".toList,
   "cert server".toList ++ self.suffix ++ ".crt".toList,
   "key server".toList ++ self.suffix ++ ".key".toList]

/-- The line of the revocation list, when the list exists. -/
def serverLinesCrl (self : Interactive) (crlExists : Bool) : List Str :=
  if crlExists then ["crl-verify crl".toList ++ self.suffix ++ ".crt".toList] else []

/-- The lines that depend on the algorithm. -/
def serverLinesAlg (self : Interactive) : List Str :=
  if self.keyAlg = Algorithm.RSA then
    ["dh dh".toList ++ self.suffix ++ ".pem".toList]
  else if self.keyAlg = Algorithm.EdDSA then
    ["tls-version-min 1.3".toList,
     "dh none".toList,
     "# Note this curve probably isn't supported (yet), however OpenVPN will fall back to another (secp384r1)".toList,
     "ecdh-curve ".toList ++ self.curveName.getD [],
     "tls-cipher TLS_AES_256_GCM_SHA384".toList]
  else
    ["tls-version-min 1.2".toList,
     "dh none".toList,
     "ecdh-curve ".toList ++ self.curveName.getD [],
     "tls-cipher TLS-ECDHE-ECDSA-WITH-AES-256-GCM-SHA384".toList]

/-- The lines of the port, the device and the network. -/
def serverLinesMid (port : Str) : List Str :=
  ["port ".toList ++ port,
   "dev tun0".toList,
   "server 10.8.0.0 255.255.255.0".toList]

/-- One line for every entry of `config["dns"]`, in the order of the list. -/
def serverLinesDns (self : Interactive) : List Str :=
  (dnsList self.config).map (fun d => "push \"dhcp-option DNS ".toList ++ d ++ "\"".toList)

/-- The line of the redirection, when `config["redirect"]` is true. -/
def serverLinesRedirect (self : Interactive) : List Str :=
  if redirectLine self.config = [] then [] else ["push \"redirect-gateway def1\"".toList]

/-- The last lines of the server configuration: the commented templates. -/
def serverLinesTail : List Str :=
  ["#Uncomment the below to allow client to client communication".toList,
   "#client-to-client".toList,
   "#Uncomment the below and modify the command to allow access to your internal network".toList,
   "#push \"route 192.168.0.0 255.255.255.0\"".toList]

/-- The lines of the server configuration with `proto` and `port` in the
places of the format items `{0}` and `{1}`. -/
def serverLines (self : Interactive) (crlExists : Bool) (proto port : Str) : List Str :=
  serverLinesHead self proto ++ serverLinesCrl self crlExists ++ serverLinesAlg self
    ++ serverLinesMid port ++ serverLinesDns self ++ serverLinesRedirect self ++ serverLinesTail

/-- The lines expected in a client configuration. -/
def clientLines (keyAlg : Algorithm) (CN : Str) (address port : Option Str) (proto : Str) :
    List Str :=
  ["#-- Config Auto Generated By SparkLabs OpenVPN Certificate Generator--#".toList,
   [],
   "#viscosity name ".toList ++ CN ++ "@".toList ++ address.getD [],
   "remote ".toList ++ address.getD [] ++ " ".toList ++ port.getD [] ++ " ".toList ++ proto,
   "dev tun".toList,
   "tls-client".toList,
   "ca ca.crt".toList,
   "cert ".toList ++ CN ++ ".crt".toList,
   "key ".toList ++ CN ++ ".key".toList,
   "persist-tun".toList,
   "persist-key".toList,
   "nobind".toList,
   "pull".toList]
  ++ (if keyAlg = Algorithm.EdDSA then ["tls-version-min 1.3".toList]
      else if keyAlg = Algorithm.ECDSA then
        ["tls-version-min 1.2".toList,
         "tls-cipher TLS-ECDHE-ECDSA-WITH-AES-256-GCM-SHA384".toList]
      else [])

/-- The values that reach the server configuration are free of braces and of
line feeds: the suffix, the curve name and the DNS entries, which become part
of the format string, and (line feeds only) the port, which is an argument. -/
def Interactive.plainValues (self : Interactive) : Bool :=
  braceFree self.suffix && lineFree self.suffix
    && braceFree (self.curveName.getD []) && lineFree (self.curveName.getD [])
    && (dnsList self.config).all (fun d => braceFree d && lineFree d)
    && (match configString self.config "port".toList with
        | some port => lineFree (port.getD [])
        | none => true)

/-- The key size `LoadConfig` takes from a dictionary: the entry `keysize`
converted, 2048 without the entry; `none` is the exception of the conversion. -/
def loadedKeySize (dict : Dict) : Option Int :=
  match dict.get? "keysize".toList with
  | some val => ToInt32 val
  | none => some 2048

/-- The validity `LoadConfig` takes from a dictionary: the entry `validdays`
converted, 3650 without the entry. -/
def loadedValidDays (dict : Dict) : Option Int :=
  match dict.get? "validdays".toList with
  | some val => ToInt32 val
  | none => some 3650

/-- The algorithm `LoadConfig` takes from a dictionary: the entry `algorithm`
converted and cast, and RSA when the entry is absent or does not convert. -/
def loadedAlgorithm (dict : Dict) : Algorithm :=
  match dict.get? "algorithm".toList with
  | some val =>
    match ToInt32 val with
    | some n => ⟨n⟩
    | none => Algorithm.RSA
  | none => Algorithm.RSA

/-- The curve name `LoadConfig` takes from a dictionary: the entry `eccurve`
cast to a string, and without the entry `ED25519` for EdDSA and `secp384r1`
otherwise; `none` is the exception of the cast. -/
def loadedCurve (dict : Dict) : Option (Option Str) :=
  match dict.get? "eccurve".toList with
  | some val => castString val
  | none =>
    some (some (if loadedAlgorithm dict = Algorithm.EdDSA then "ED25519".toList
      else "secp384r1".toList))

/-- The suffix `LoadConfig` takes from a dictionary: the entry `suffix` cast to
a string, the empty string without the entry. -/
def loadedSuffix (dict : Dict) : Option (Option Str) :=
  match dict.get? "suffix".toList with
  | some val => castString val
  | none => some (some [])

/-- The object agrees with a dictionary: key size, validity, algorithm, curve
name and suffix are the values `LoadConfig` takes from the dictionary, as they
are once `GenerateNewConfig` has stored them or `LoadConfig` has read them. -/
def Interactive.agrees (self : Interactive) (dict : Dict) : Prop :=
  loadedKeySize dict = some self.keySize ∧ loadedValidDays dict = some self.validDays ∧
    loadedAlgorithm dict = self.keyAlg ∧ loadedCurve dict = some self.curveName ∧
    (loadedSuffix dict).map (fun s => s.getD []) = some self.suffix

/-- The dictionary that `SaveConfig` writes: the configuration with the entry
`serial` set to the serial in memory. -/
def savedDict (self : Interactive) (d : Dict) : Dict :=
  d.set "serial".toList (.int self._serial)

/-- A backend and library for the examples: certificates and keys are their own
PEM text, a JSON document is the text `J` of one fixed dictionary. -/
def sampleEnv : Env where
  jsonEncode := fun _ => some "J".toList
  jsonDecode := fun t =>
    if t = "J".toList then
      some [("cn".toList, .str "vpn.example.org".toList), ("serial".toList, .int 0)]
    else none
  subjectFromDict := fun d =>
    match d.get? "cn".toList with
    | some (.str cn) => some { CommonName := some cn }
    | _ => none
  subjectToDict := fun c => [("cn".toList, objOfString c.CommonName)]
  newSubject := fun cn => { CommonName := cn }
  CreateCAAndKey := fun _ _ _ _ _ _ => some ⟨"CA-CERT".toList, "CA-KEY".toList⟩
  CreateCertKeyBundle := fun c _ _ _ _ _ _ _ =>
    some ⟨"CERT ".toList ++ c.CommonName.getD [], "KEY ".toList ++ c.CommonName.getD []⟩
  CreateDH := fun _ => some "DH".toList
  CreateCRL := fun _ _ old cert _ => some (old.getD [] ++ "REVOKED ".toList ++ cert)
  LoadIdentity := fun c k => some (some ⟨c, k⟩)
  CertAsPEM := fun c => some c
  KeyAsPEM := fun k => some k
  packDirectory := fun n _ => some n
  isIPAddress := fun _ => true
  defaultPort := "1194".toList
  defaultProtocol := "UDP".toList
  cloudflareDNS := ["1.1.1.1".toList, "1.0.0.1".toList]
  googleDNS := ["8.8.8.8".toList, "8.8.4.4".toList]
  openDNS := ["208.67.222.222".toList, "208.67.220.220".toList]
  localDNS := "10.8.0.1".toList
  defaultCountry := "AU".toList
  defaultState := "NSW".toList
  defaultLocale := "Sydney".toList
  defaultON := "My Company".toList
  defaultOU := "Networks".toList
  defaultEmail := "me@host.domain".toList

/-- A PKI directory `d` with a CA and a server identity, with or without the
Diffie-Hellman parameters, where nothing fails. -/
def sampleFS (dh : Bool) : FS where
  files := fun p =>
    if p = "d\\pki\\ca.crt".toList then some "CA-CERT".toList
    else if p = "d\\pki\\ca.key".toList then some "CA-KEY".toList
    else if p = "d\\pki\\server.crt".toList then some "CERT server".toList
    else if p = "d\\pki\\server.key".toList then some "KEY server".toList
    else if p = "d\\pki\\dh.pem".toList then (if dh then some "DH".toList else none)
    else none
  dirs := fun p => p = "d".toList || p = "d\\pki".toList
  fails := fun _ => false

/-- The configuration dictionary of the sample directory. -/
def sampleConfig (port : Str) : Dict :=
  [("cn".toList, .str "vpn.example.org".toList),
   ("proto".toList, .str "udp".toList),
   ("port".toList, .str port),
   ("server".toList, .str "vpn.example.org".toList),
   ("redirect".toList, .bool true),
   ("dns".toList, .strList ["1.1.1.1".toList, "1.0.0.1".toList])]

/-- A loaded object on the sample directory. -/
def sampleSelf (alg : Algorithm) (curve : Option Str) (suffix port : Str) : Interactive :=
  { path := "d".toList
    keySize := 2048
    validDays := 3650
    keyAlg := alg
    curveName := curve
    suffix := suffix
    cSubject := some { CommonName := some "vpn.example.org".toList }
    config := some (sampleConfig port)
    _serial := 2
    Issuer := some ⟨"CA-CERT".toList, "CA-KEY".toList⟩ }

/-- The sample directory with a loaded object and the given console input. -/
def sampleWorld (alg : Algorithm) (curve : Option Str) (suffix port : Str) (dh : Bool)
    (input : List Str) : World :=
  { self := sampleSelf alg curve suffix port, fs := sampleFS dh, stdin := input }

/-- An ECDSA directory with the curve `secp384r1` and no Diffie-Hellman file. -/
def ecdsaWorld : World :=
  sampleWorld Algorithm.ECDSA (some "secp384r1".toList) [] "1194".toList false []

/-- An EdDSA directory with the curve `ED25519` and no Diffie-Hellman file. -/
def eddsaWorld : World :=
  sampleWorld Algorithm.EdDSA (some "ED25519".toList) [] "1194".toList false []

/-- An RSA directory whose suffix is the text `{0}`. -/
def rsaBraceWorld : World :=
  sampleWorld Algorithm.RSA none "{0}".toList "1194".toList true []

/-- An RSA directory whose configured port holds a line feed. -/
def rsaPortWorld : World :=
  sampleWorld Algorithm.RSA none [] "1194\ntls-cipher DEFAULT".toList true []

/-- An RSA directory with the Diffie-Hellman file, where the console answers
`n` to the offer to regenerate the server configuration. -/
def revokeCaWorld : World :=
  sampleWorld Algorithm.RSA none [] "1194".toList true ["n".toList]

/-- A configuration dictionary as `GenerateNewConfig` stores it, with the serial
that `SaveConfig` adds. -/
def storedConfig : Dict :=
  [("cn".toList, .str "vpn.example.org".toList),
   ("proto".toList, .str "udp".toList),
   ("port".toList, .str "1194".toList),
   ("server".toList, .str "vpn.example.org".toList),
   ("redirect".toList, .bool true),
   ("keysize".toList, .int 4096),
   ("validdays".toList, .int 365),
   ("dns".toList, .strList ["1.1.1.1".toList, "1.0.0.1".toList]),
   ("algorithm".toList, .alg Algorithm.EdDSA),
   ("eccurve".toList, .str "ED25519".toList),
   ("suffix".toList, .str "-x".toList),
   ("serial".toList, .int 7)]

/-- The sample backend with a JSON writer and reader for `storedConfig`: the
text `K` stands for that dictionary. -/
def codecEnv : Env :=
  { sampleEnv with
    jsonEncode := fun d => if d = storedConfig then some "K".toList else none
    jsonDecode := fun t => if t = "K".toList then some storedConfig.json else none }

/-- An EdDSA directory whose object holds `storedConfig` and the serial 7. -/
def storedWorld : World :=
  { self :=
      { sampleSelf Algorithm.EdDSA (some "ED25519".toList) "-x".toList "1194".toList with
        keySize := 4096, validDays := 365, config := some storedConfig, _serial := 7 }
    fs := sampleFS false
    stdin := [] }

/-- The sample backend with a JSON writer that gives the text `NEW`. -/
def rewriteEnv : Env :=
  { sampleEnv with jsonEncode := fun _ => some "NEW".toList }

/-- A directory `d` that holds a configuration file which decodes, with subject
and serial, and no CA files; a fresh RSA object; and a console that answers the
address prompt and takes every default. -/
def existingConfigWorld : World :=
  { self := Interactive.new "d".toList Algorithm.RSA 2048 none 3650 none
    fs :=
      { files := fun p => if p = "d\\config.conf".toList then some "J".toList else none
        dirs := fun p => p = "d".toList
        fails := fun _ => false }
    stdin := ["vpn.example.org".toList, [], [], [], [], []] }

/-- The directory of `existingConfigWorld` with a console that answers the
port prompt with `65535`, `0`, `abc`, `.` and `-5`, which it turns down, and
then with `8080`, and takes every default after it. -/
def portAnswersWorld : World :=
  { existingConfigWorld with
    stdin := ["vpn.example.org".toList, "65535".toList, "0".toList, "abc".toList, ".".toList,
      "-5".toList, "8080".toList, [], [], [], []] }

/-- The sample RSA directory on a disk where every write of a file fails. -/
def readOnlyWorld : World :=
  { self := sampleSelf Algorithm.RSA none [] "1194".toList
    fs :=
      { sampleFS true with
        fails := fun op =>
          match op with
          | .write _ => true
          | _ => false }
    stdin := [] }

/-- The sample directory with a configuration file that holds a subject and a
serial only, and an EdDSA object constructed with values of its own. -/
def constructedWorld : World :=
  { self := Interactive.new "d".toList Algorithm.EdDSA 4096 (some "P-256".toList) 10
      (some "-s".toList)
    fs :=
      { sampleFS true with
        files := fun p =>
          if p = "d\\config.conf".toList then some "J".toList else (sampleFS true).files p }
    stdin := [] }

/-- The sample backend with a JSON reader that gives the dictionary `d` for
every text. -/
def dictEnv (d : Dict) : Env :=
  { sampleEnv with jsonDecode := fun _ => some d }

/-- The sample backend with a JSON codec for a configuration without a serial
(the text `J`) and for the same configuration with the serial 0 (the text `B`). -/
def serialLessEnv : Env :=
  { sampleEnv with
    jsonEncode := fun d =>
      if d = [("cn".toList, .str "vpn.example.org".toList), ("serial".toList, .int 0)] then
        some "B".toList
      else none
    jsonDecode := fun t =>
      if t = "J".toList then some [("cn".toList, .str "vpn.example.org".toList)]
      else if t = "B".toList then
        some [("cn".toList, .str "vpn.example.org".toList), ("serial".toList, .int 0)]
      else none }

/-- A fresh directory `d` right after its configuration was written with the
serial 0: the object holds subject and dictionary, the disk `config.conf`. -/
def configuredWorld : World :=
  { self :=
      { Interactive.new "d".toList Algorithm.RSA 2048 none 3650 none with
        cSubject := some { CommonName := some "vpn.example.org".toList }
        config := some [("cn".toList, .str "vpn.example.org".toList), ("serial".toList, .int 0)]
        _serial := 0 }
    fs :=
      { files := fun p => if p = "d\\config.conf".toList then some "J".toList else none
        dirs := fun p => p = "d".toList
        fails := fun _ => false }
    stdin := [] }

/-- The directory of `configuredWorld` with an empty directory `pki` below
which no file can be written; `config.conf` can be written. -/
def lockedPkiWorld : World :=
  { configuredWorld with
    fs :=
      { configuredWorld.fs with
        dirs := fun p => p = "d".toList || p = "d\\pki".toList
        fails := fun op =>
          match op with
          | .write p => isUnder "d\\pki".toList p
          | _ => false } }

/-- The operation ended by an exception that nothing caught. -/
def Outcome.raised {α : Type} : Outcome α → Bool
  | .abort .exception _ => true
  | _ => false

/-- The sample ECDSA directory on a disk where writing the archive
`clients\alice.visz` fails. -/
def packFailWorld : World :=
  { self := sampleSelf Algorithm.ECDSA (some "secp384r1".toList) [] "1194".toList
    fs :=
      { sampleFS false with
        fails := fun op => decide (op = FsOp.pack "d\\clients\\alice.visz".toList) }
    stdin := [] }

/-- The rule of rejection as the specification words it: a line is rejected
when it is null or white space and there is no default, or when it is the
sentinel `.` and a blank answer is not allowed. -/
def rejectedLine (allowedBlank hasDefault : Bool) (line : Option Str) : Bool :=
  (IsNullOrWhiteSpace line && !hasDefault) || (decide (line = some ".".toList) && !allowedBlank)

/-- One round of the loop of `askQuestion`: read a line, go round again for a
line that is turned down, leave the loop with any other. -/
def askRound (allowedBlank hasDefault : Bool) : M (Option (Option Str)) := do
  let input ← ReadLine
  if IsNullOrWhiteSpace input && !hasDefault then
    return none
  if input = some ".".toList && !allowedBlank then
    return none
  return some input

/-- The port prompt takes the answer: it is empty, or `int::TryParse` reads it
as a number above 0 and below 65535. -/
def portAccepted (line : Str) : Bool :=
  decide (line = []) ||
    (match parseInt32 (some line) with
    | some p => decide (0 < p) && decide (p < 65535)
    | none => false)

/-- The entry `port` of the configuration dictionary, when it is a string. -/
def storedPort (w : World) : Option Str :=
  match w.self.config with
  | none => none
  | some d =>
    match d.get? "port".toList with
    | some (.str p) => some p
    | _ => none

/-! ## Lemmas: the monad -/

@[simp] theorem bind_apply {α β : Type} (m : M α) (f : α → M β) (w : World) :
    (m >>= f) w = (m w).andThen f := rfl

@[simp] theorem pure_apply {α : Type} (a : α) (w : World) : (pure a : M α) w = .ret a w := rfl

@[simp] theorem tryCatch_apply {α : Type} (body handler : M α) (w : World) :
    tryCatch body handler w = (body w).orElse handler := rfl

@[simp] theorem andThen_ret {α β : Type} (a : α) (w : World) (f : α → M β) :
    (Outcome.ret a w).andThen f = f a w := rfl

@[simp] theorem andThen_abort {α β : Type} (e : Abort) (w : World) (f : α → M β) :
    (Outcome.abort e w : Outcome α).andThen f = .abort e w := rfl

@[simp] theorem andThen_ite {α β : Type} (c : Prop) [Decidable c] (x y : Outcome α)
    (f : α → M β) :
    (if c then x else y).andThen f = if c then x.andThen f else y.andThen f := by
  split <;> rfl

@[simp] theorem orElse_ret {α : Type} (a : α) (w : World) (h : M α) :
    (Outcome.ret a w).orElse h = .ret a w := rfl

@[simp] theorem orElse_exception {α : Type} (w : World) (h : M α) :
    (Outcome.abort .exception w : Outcome α).orElse h = h w := rfl

@[simp] theorem orElse_hang {α : Type} (w : World) (h : M α) :
    (Outcome.abort .hang w : Outcome α).orElse h = .abort .hang w := rfl

@[simp] theorem orElse_exit {α : Type} (w : World) (h : M α) :
    (Outcome.abort .exit w : Outcome α).orElse h = .abort .exit w := rfl

@[simp] theorem orElse_ite {α : Type} (c : Prop) [Decidable c] (x y : Outcome α) (h : M α) :
    (if c then x else y).orElse h = if c then x.orElse h else y.orElse h := by
  split <;> rfl

@[simp] theorem ite_apply_world {α : Type} (c : Prop) [Decidable c] (x y : M α) (w : World) :
    (if c then x else y) w = if c then x w else y w := by
  split <;> rfl

@[simp] theorem result_ret {α : Type} (a : α) (w : World) : (Outcome.ret a w).result = some a := rfl

@[simp] theorem result_abort {α : Type} (e : Abort) (w : World) :
    (Outcome.abort e w : Outcome α).result = none := rfl

@[simp] theorem world_ret {α : Type} (a : α) (w : World) : (Outcome.ret a w).world = w := rfl

@[simp] theorem world_abort {α : Type} (e : Abort) (w : World) :
    (Outcome.abort e w : Outcome α).world = w := rfl

@[simp] theorem throwEx_apply {α : Type} (w : World) : (throwEx : M α) w = .abort .exception w := rfl

@[simp] theorem abortWith_apply {α : Type} (e : Abort) (w : World) :
    (abortWith e : M α) w = .abort e w := rfl

@[simp] theorem orThrow_some {α : Type} (a : α) (w : World) : orThrow (some a) w = .ret a w := rfl

@[simp] theorem orThrow_none {α : Type} (w : World) :
    (orThrow none : M α) w = .abort .exception w := rfl

@[simp] theorem getSelf_apply (w : World) : getSelf w = .ret w.self w := rfl

@[simp] theorem modifySelf_apply (f : Interactive → Interactive) (w : World) :
    modifySelf f w = .ret () { w with self := f w.self } := rfl

@[simp] theorem logCall_apply (c : Call) (w : World) :
    logCall c w = .ret () { w with calls := w.calls ++ [c] } := rfl

/-! ## Lemmas: files and directories -/

@[simp] theorem setFile_self (w : World) (p : Str) (t : Option Str) : (w.setFile p t).self = w.self := rfl

@[simp] theorem setFile_stdin (w : World) (p : Str) (t : Option Str) :
    (w.setFile p t).stdin = w.stdin := rfl

@[simp] theorem setFile_fails (w : World) (p : Str) (t : Option Str) :
    (w.setFile p t).fs.fails = w.fs.fails := rfl

@[simp] theorem setFile_files (w : World) (p : Str) (t : Option Str) (q : Str) :
    (w.setFile p t).fs.files q = if q = p then t else w.fs.files q := rfl

@[simp] theorem addDir_self (w : World) (p : Str) : (w.addDir p).self = w.self := rfl

@[simp] theorem addDir_stdin (w : World) (p : Str) : (w.addDir p).stdin = w.stdin := rfl

@[simp] theorem addDir_calls (w : World) (p : Str) : (w.addDir p).calls = w.calls := rfl

@[simp] theorem addDir_fails (w : World) (p : Str) : (w.addDir p).fs.fails = w.fs.fails := rfl

@[simp] theorem removeTree_self (w : World) (p : Str) : (w.removeTree p).self = w.self := rfl

@[simp] theorem removeTree_stdin (w : World) (p : Str) : (w.removeTree p).stdin = w.stdin := rfl

@[simp] theorem removeTree_calls (w : World) (p : Str) : (w.removeTree p).calls = w.calls := rfl

@[simp] theorem removeTree_fails (w : World) (p : Str) :
    (w.removeTree p).fs.fails = w.fs.fails := rfl

@[simp] theorem removeTree_dirs (w : World) (p q : Str) :
    (w.removeTree p).fs.dirs q = if (q = p || isUnder p q) = true then false else w.fs.dirs q := rfl

@[simp] theorem FileExists_apply (p : Str) (w : World) :
    FileExists p w = .ret (w.fs.files p).isSome w := rfl

@[simp] theorem DirectoryExists_apply (p : Str) (w : World) :
    DirectoryExists p w = .ret (w.fs.dirs p) w := rfl

@[simp] theorem writeFile_apply (p t : Str) (w : World) :
    writeFile p t w =
      if w.fs.fails (.write p) = true then .abort .exception w
      else .ret () (w.setFile p (some t)) := rfl

@[simp] theorem FileDelete_apply (p : Str) (w : World) :
    FileDelete p w =
      if w.fs.fails (.delete p) = true then .abort .exception w
      else .ret () (w.setFile p none) := rfl

@[simp] theorem CreateDirectory_apply (p : Str) (w : World) :
    CreateDirectory p w =
      if w.fs.fails (.mkdir p) = true then .abort .exception w
      else .ret () (w.addDir p) := rfl

@[simp] theorem DeleteDirectory_apply (p : Str) (w : World) :
    DeleteDirectory p w =
      if (w.fs.fails (.rmdir p) || !w.fs.dirs p) = true then .abort .exception w
      else .ret () (w.removeTree p) := rfl

@[simp] theorem FileCopy_apply (src dst : Str) (ov : Bool) (w : World) :
    FileCopy src dst ov w =
      if (w.fs.fails (.copy src dst) || (w.fs.files src).isNone
          || (!ov && (w.fs.files dst).isSome)) = true then .abort .exception w
      else .ret () (w.setFile dst (w.fs.files src)) := rfl

theorem readFile_apply (p : Str) (w : World) :
    readFile p w =
      if w.fs.fails (.read p) = true ∨ w.fs.files p = none then .abort .exception w
      else .ret ((w.fs.files p).getD []) w := by
  unfold readFile
  by_cases h1 : w.fs.fails (.read p) = true
  · simp [h1]
  · rcases h2 : w.fs.files p with _ | t <;> simp [h1]

theorem attempt_apply (action : M Unit) (w : World) :
    attempt action w = ((action w).andThen (fun _ => pure true)).orElse (pure false) := rfl

theorem attemptRead_apply (p : Str) (w : World) :
    attemptRead p w =
      if w.fs.fails (.read p) = true ∨ w.fs.files p = none then .ret none w
      else .ret (w.fs.files p) w := by
  unfold attemptRead
  simp only [tryCatch_apply, bind_apply, readFile_apply]
  by_cases h1 : w.fs.fails (.read p) = true
  · simp [h1]
  · rcases h2 : w.fs.files p with _ | t <;> simp [h1]

theorem attempt_writeFile (p t : Str) (w : World) :
    attempt (writeFile p t) w =
      if w.fs.fails (.write p) = true then .ret false w
      else .ret true (w.setFile p (some t)) := by
  simp only [attempt_apply, writeFile_apply]
  split <;> simp

theorem attempt_FileDelete (p : Str) (w : World) :
    attempt (FileDelete p) w =
      if w.fs.fails (.delete p) = true then .ret false w
      else .ret true (w.setFile p none) := by
  simp only [attempt_apply, FileDelete_apply]
  split <;> simp

theorem attempt_FileCopy (src dst : Str) (ov : Bool) (w : World) :
    attempt (FileCopy src dst ov) w =
      if (w.fs.fails (.copy src dst) || (w.fs.files src).isNone
          || (!ov && (w.fs.files dst).isSome)) = true then .ret false w
      else .ret true (w.setFile dst (w.fs.files src)) := by
  simp only [attempt_apply, FileCopy_apply]
  split <;> simp

theorem makeFreshDirectory_apply (p : Str) (w : World) :
    makeFreshDirectory p w =
      if w.fs.dirs p = true then
        if w.fs.fails (.rmdir p) = true then .ret false w
        else if w.fs.fails (.mkdir p) = true then .ret false (w.removeTree p)
        else .ret true ((w.removeTree p).addDir p)
      else
        if w.fs.fails (.mkdir p) = true then .ret false w
        else .ret true (w.addDir p) := by
  unfold makeFreshDirectory
  simp only [attempt_apply, bind_apply, DirectoryExists_apply, andThen_ret]
  by_cases h1 : w.fs.dirs p = true <;> by_cases h2 : w.fs.fails (.rmdir p) = true <;>
    by_cases h3 : w.fs.fails (.mkdir p) = true <;> simp [h1, h2, h3]

/-! ## Lemmas: paths -/

theorem Combine_simple (a b : Str) (hb : simpleName b = true) : Combine a b = dirPrefix a ++ b := by
  unfold simpleName at hb
  simp only [Bool.and_eq_true, Bool.not_eq_true'] at hb
  unfold Combine dirPrefix
  simp only [hb.1, hb.2, Bool.false_eq_true, if_false]
  by_cases h1 : a.isEmpty = true
  · simp [h1]
  · by_cases h2 : endsWithSep a = true
    · simp [h1, h2]
    · simp [h1, h2]

theorem endsWithSep_append_cons (a : Str) (c : Char) (cs : Str) :
    endsWithSep (a ++ c :: cs) = endsWithSep (c :: cs) := by
  unfold endsWithSep
  rw [List.getLast?_append_of_ne_nil _ (by simp)]

theorem dirPrefix_append (a b : Str) (hb : b ≠ []) (he : endsWithSep b = false) :
    dirPrefix (a ++ b) = a ++ b ++ ['\\'] := by
  cases b with
  | nil => exact absurd rfl hb
  | cons c cs =>
    unfold dirPrefix
    rw [endsWithSep_append_cons, he]
    simp

theorem pkiPath_eq (self : Interactive) : self.pkiPath = dirPrefix self.path ++ "pki".toList :=
  Combine_simple _ _ rfl

theorem serverPath_eq (self : Interactive) : self.serverPath = dirPrefix self.path ++ "server".toList :=
  Combine_simple _ _ rfl

theorem clientsPath_eq (self : Interactive) :
    self.clientsPath = dirPrefix self.path ++ "clients".toList :=
  Combine_simple _ _ rfl

theorem configPath_eq (self : Interactive) :
    self.configPath = dirPrefix self.path ++ "config.conf".toList :=
  Combine_simple _ _ rfl

theorem Combine_pki (self : Interactive) (b : Str) (hb : simpleName b = true) :
    Combine self.pkiPath b = dirPrefix self.path ++ ("pki\\".toList ++ b) := by
  rw [Combine_simple _ _ hb, pkiPath_eq, dirPrefix_append _ _ (by decide) (by decide)]
  simp

theorem Combine_server (self : Interactive) (b : Str) (hb : simpleName b = true) :
    Combine self.serverPath b = dirPrefix self.path ++ ("server\\".toList ++ b) := by
  rw [Combine_simple _ _ hb, serverPath_eq, dirPrefix_append _ _ (by decide) (by decide)]
  simp

theorem Combine_clients (self : Interactive) (b : Str) (hb : simpleName b = true) :
    Combine self.clientsPath b = dirPrefix self.path ++ ("clients\\".toList ++ b) := by
  rw [Combine_simple _ _ hb, clientsPath_eq, dirPrefix_append _ _ (by decide) (by decide)]
  simp

theorem caPath_eq (self : Interactive) :
    self.caPath = dirPrefix self.path ++ ("pki\\".toList ++ "ca.crt".toList) := Combine_pki _ _ rfl

theorem keyPath_eq (self : Interactive) :
    self.keyPath = dirPrefix self.path ++ ("pki\\".toList ++ "ca.key".toList) := Combine_pki _ _ rfl

theorem serverConfPath_eq (self : Interactive) :
    self.serverConfPath =
      dirPrefix self.path ++ ("server\\".toList ++ ("server".toList ++ self.suffix ++ ".conf".toList)) :=
  Combine_server _ _ rfl

theorem formatGo_plain (args : List Str) (s t : Str) (h : braceFree s = true) :
    formatGo args .text (s ++ t) = (formatGo args .text t).map (fun r => s ++ r) := by
  induction s with
  | nil => simp
  | cons c s ih =>
    simp [braceFree] at h
    have hs : braceFree s = true := by simp [braceFree]; exact h.2
    simp [formatGo, fmtStep, fmtText, h.1, ih hs]
    cases formatGo args .text t <;> simp

theorem formatGo_item (args : List Str) (d : Char) (t : Str) (hd : d.isDigit = true) :
    formatGo args .text ('{' :: d :: '}' :: t) =
      match args.get? (digitVal d) with
      | some a => (formatGo args .text t).map (fun r => a ++ r)
      | none => none := by
  have h1 : d ≠ '{' := by rintro rfl; simp at hd
  simp [formatGo, fmtStep, fmtText, h1, hd, fmtAfterIndex, fmtTail, fmtItem]
  rcases h : args[digitVal d]? with _ | a
  · simp
  · have hl : ¬ args.length ≤ digitVal d := by
      intro hle
      rw [List.getElem?_eq_none hle] at h
      cases h
    simp [hl]
    cases formatGo args .text t <;> simp

theorem formatGo_append (args : List Str) (c : Char) (t : Str) (hc : c ≠ '}') :
    ∀ (l : Str) (st : FmtState) (o : Str), formatGo args st l = some o →
      formatGo args st (l ++ c :: t) = (formatGo args .text (c :: t)).map (fun r => o ++ r) := by
  intro l
  induction l with
  | nil =>
    intro st o h
    cases st <;> simp [formatGo, fmtFinish] at h
    · subst h; simp
    · simp [formatGo, fmtStep, hc, h]
      rcases h1 : fmtText c with _ | ⟨st', o'⟩
      · simp [fmtText] at h1
        split_ifs at h1
      · simp
        cases formatGo args st' t <;> simp
  | cons a l ih =>
    intro st o h
    have e : formatGo args st ((a :: l) ++ c :: t) =
        match fmtStep args st a with
        | none => none
        | some (st', o) =>
          match formatGo args st' (l ++ c :: t) with
          | none => none
          | some r => some (o ++ r) := rfl
    have e2 : formatGo args st (a :: l) =
        match fmtStep args st a with
        | none => none
        | some (st', o) =>
          match formatGo args st' l with
          | none => none
          | some r => some (o ++ r) := rfl
    rw [e]
    rw [e2] at h
    rcases h1 : fmtStep args st a with _ | ⟨st', o1⟩
    · simp [h1] at h
    · simp only [h1] at h ⊢
      rcases h2 : formatGo args st' l with _ | r
      · simp [h2] at h
      · simp only [h2, Option.some.injEq] at h
        subst h
        rw [ih st' r h2]
        cases formatGo args .text (c :: t) <;> simp

theorem formatGo_joinLines (args : List Str) :
    ∀ (ls os : List Str), List.Forall₂ (fun l o => formatGo args .text l = some o) ls os →
      formatGo args .text (joinLines ls) = some (joinLines os) := by
  intro ls os h
  induction h with
  | nil => rfl
  | @cons l o ls os hlo _ ih =>
    have : joinLines (l :: ls) = l ++ '\n' :: joinLines ls := by simp [joinLines]
    have t2 : joinLines (o :: os) = o ++ '\n' :: joinLines os := by simp [joinLines]
    rw [this, t2, formatGo_append args '\n' _ (by decide) l .text o hlo]
    simp [formatGo, fmtStep, fmtText, ih]

theorem formatGo_self (args : List Str) (l : Str) (h : braceFree l = true) :
    formatGo args .text l = some l := by
  induction l with
  | nil => rfl
  | cons c s ih =>
    simp [braceFree] at h
    have hs : braceFree s = true := by simp [braceFree]; exact h.2
    simp [formatGo, fmtStep, fmtText, h.1, ih hs]

theorem braceFree_append (a b : Str) : braceFree (a ++ b) = (braceFree a && braceFree b) := by
  simp [braceFree]

set_option maxRecDepth 100000 in
theorem dnsLines_eq (config : Option Dict) :
    dnsLines config =
      joinLines ((dnsList config).map (fun d => "push \"dhcp-option DNS ".toList ++ d ++ "\"".toList)) := by
  have h : ∀ var : Str, (Format "push \"dhcp-option DNS {0}\"\n".toList [var]).getD [] =
      ("push \"dhcp-option DNS ".toList ++ var ++ "\"".toList) ++ ['\n'] := by
    intro var
    simp only [String.toList, List.append_assoc, List.cons_append, List.nil_append]
    rfl
  unfold dnsLines dnsList joinLines
  rcases config with _ | d
  · rfl
  · simp only
    rcases d.get? "dns".toList with _ | v
    · rfl
    · simp only
      rcases castStringList v with _ | _ | dns
      · rfl
      · rfl
      · simp only [List.map_map]
        congr 1
        apply List.map_congr_left
        intro var _
        exact h var

theorem joinLines_append (a b : List Str) : joinLines (a ++ b) = joinLines a ++ joinLines b := by
  simp [joinLines]

theorem joinLines_cons (l : Str) (ls : List Str) : joinLines (l :: ls) = l ++ '\n' :: joinLines ls := by
  simp [joinLines]

theorem joinLines_nil : joinLines [] = [] := rfl

theorem redirectLine_cases (config : Option Dict) :
    redirectLine config = [] ∨ redirectLine config = "push \"redirect-gateway def1\"\n".toList := by
  unfold redirectLine
  rcases config with _ | d
  · exact Or.inl rfl
  · simp only
    rcases d.get? "redirect".toList with _ | v
    · exact Or.inl rfl
    · simp only
      rcases castBool v with _ | _ | _
      · exact Or.inl rfl
      · exact Or.inl rfl
      · exact Or.inr rfl

set_option maxRecDepth 100000 in
theorem serverTemplate_eq (self : Interactive) (crl : Bool) :
    serverTemplate self crl = joinLines (serverLines self crl "{0}".toList "{1}".toList) := by
  have hca : ∀ a b c : Str, (Format "ca {0}\ncert {1}\nkey {2}\n".toList [a, b, c]).getD [] =
      "ca ".toList ++ (a ++ ("\ncert ".toList ++ (b ++ ("\nkey ".toList ++ (c ++ "\n".toList))))) := by
    intro a b c
    simp only [String.toList, List.append_assoc, List.cons_append, List.nil_append]
    rfl
  have e1 : (Algorithm.EdDSA = Algorithm.RSA) = False := by decide
  have h3 : self.keyAlg = Algorithm.RSA ∨ self.keyAlg = Algorithm.EdDSA ∨
      (self.keyAlg ≠ Algorithm.RSA ∧ self.keyAlg ≠ Algorithm.EdDSA) := by
    by_cases h1 : self.keyAlg = Algorithm.RSA
    · exact Or.inl h1
    · by_cases h2 : self.keyAlg = Algorithm.EdDSA
      · exact Or.inr (Or.inl h2)
      · exact Or.inr (Or.inr ⟨h1, h2⟩)
  unfold serverTemplate serverLines serverLinesHead serverLinesCrl serverLinesAlg serverLinesMid
    serverLinesDns serverLinesRedirect serverLinesTail
  simp only [hca, dnsLines_eq, joinLines_append]
  rcases h3 with h | h | ⟨h, h'⟩
  · rcases redirectLine_cases self.config with hr | hr <;> cases crl <;>
      simp only [h, hr, e1, if_true, if_false, joinLines_cons, joinLines_nil, List.append_assoc,
        List.cons_append, List.nil_append, List.append_nil, Bool.false_eq_true] <;> rfl
  · rcases redirectLine_cases self.config with hr | hr <;> cases crl <;>
      simp only [h, hr, e1, if_true, if_false, joinLines_cons, joinLines_nil, List.append_assoc,
        List.cons_append, List.nil_append, List.append_nil, Bool.false_eq_true] <;> rfl
  · rcases redirectLine_cases self.config with hr | hr <;> cases crl <;>
      simp only [h, h', hr, e1, if_true, if_false, joinLines_cons, joinLines_nil, List.append_assoc,
        List.cons_append, List.nil_append, List.append_nil, Bool.false_eq_true] <;> rfl

theorem forall2_append {α β : Type} {R : α → β → Prop} {a c : List α} {b d : List β}
    (h1 : List.Forall₂ R a b) (h2 : List.Forall₂ R c d) : List.Forall₂ R (a ++ c) (b ++ d) := by
  induction h1 with
  | nil => simpa using h2
  | cons h _ ih => exact List.Forall₂.cons h ih

theorem forall2_same {α : Type} {R : α → α → Prop} (l : List α) (h : ∀ x ∈ l, R x x) :
    List.Forall₂ R l l := by
  induction l with
  | nil => exact List.Forall₂.nil
  | cons x xs ih =>
    exact List.Forall₂.cons (h x (by simp)) (ih (fun y hy => h y (by simp [hy])))

theorem braceFree_wrap (a s b : Str) (ha : braceFree a = true) (hs : braceFree s = true)
    (hb : braceFree b = true) : braceFree (a ++ s ++ b) = true := by
  simp [braceFree_append, ha, hs, hb]

theorem formatGo_item_line (args : List Str) (pre : Str) (d : Char) (a : Str)
    (hpre : braceFree pre = true) (hd : d.isDigit = true) (ha : args.get? (digitVal d) = some a) :
    formatGo args .text (pre ++ ['{', d, '}']) = some (pre ++ a) := by
  rw [formatGo_plain _ _ _ hpre, formatGo_item _ _ _ hd, ha]
  simp [formatGo, fmtFinish]

set_option maxRecDepth 100000 in
theorem serverConfigText_eq (self : Interactive) (crl : Bool) (proto : Str) (port : Option Str)
    (hs : braceFree self.suffix = true) (hc : braceFree (self.curveName.getD []) = true)
    (hd : ∀ d ∈ dnsList self.config, braceFree d = true) :
    serverConfigText self crl proto port =
      some (joinLines (serverLines self crl proto (port.getD []))) := by
  unfold serverConfigText Format
  rw [serverTemplate_eq]
  apply formatGo_joinLines
  have hproto : formatGo [proto, port.getD []] .text ("proto ".toList ++ "{0}".toList) =
      some ("proto ".toList ++ proto) :=
    formatGo_item_line _ _ '0' proto rfl rfl rfl
  have hport : formatGo [proto, port.getD []] .text ("port ".toList ++ "{1}".toList) =
      some ("port ".toList ++ port.getD []) :=
    formatGo_item_line _ _ '1' (port.getD []) rfl rfl rfl
  have hw : ∀ a b : Str, braceFree a = true → braceFree b = true →
      formatGo [proto, port.getD []] .text (a ++ self.suffix ++ b) = some (a ++ self.suffix ++ b) :=
    fun a b ha hb => formatGo_self _ _ (braceFree_wrap a _ b ha hs hb)
  have hl : ∀ a : Str, braceFree a = true →
      formatGo [proto, port.getD []] .text a = some a :=
    fun a ha => formatGo_self _ _ ha
  have hcurve : formatGo [proto, port.getD []] .text ("ecdh-curve ".toList ++ self.curveName.getD []) =
      some ("ecdh-curve ".toList ++ self.curveName.getD []) :=
    formatGo_self _ _ (by rw [braceFree_append, hc]; rfl)
  unfold serverLines serverLinesHead serverLinesCrl serverLinesAlg serverLinesMid
    serverLinesDns serverLinesRedirect serverLinesTail
  refine forall2_append (forall2_append (forall2_append (forall2_append (forall2_append (forall2_append ?_ ?_) ?_) ?_) ?_) ?_) ?_
  · repeat' (first | exact List.Forall₂.nil | refine List.Forall₂.cons ?_ ?_)
    all_goals first | exact hproto | exact hw _ _ (by rfl) (by rfl) | exact hl _ (by rfl)
  · split
    · exact List.Forall₂.cons (hw _ _ (by rfl) (by rfl)) List.Forall₂.nil
    · exact List.Forall₂.nil
  · split
    · exact List.Forall₂.cons (hw _ _ (by rfl) (by rfl)) List.Forall₂.nil
    · split
      · repeat' (first | exact List.Forall₂.nil | refine List.Forall₂.cons ?_ ?_)
        all_goals first | exact hcurve | exact hl _ (by rfl)
      · repeat' (first | exact List.Forall₂.nil | refine List.Forall₂.cons ?_ ?_)
        all_goals first | exact hcurve | exact hl _ (by rfl)
  · repeat' (first | exact List.Forall₂.nil | refine List.Forall₂.cons ?_ ?_)
    all_goals first | exact hport | exact hl _ (by rfl)
  · apply forall2_same
    intro l hl'
    simp only [List.mem_map] at hl'
    obtain ⟨d, hdm, rfl⟩ := hl'
    exact formatGo_self _ _ (braceFree_wrap _ _ _ (by rfl) (hd d hdm) (by rfl))
  · split
    · exact List.Forall₂.nil
    · exact List.Forall₂.cons (hl _ (by rfl)) List.Forall₂.nil
  · repeat' (first | exact List.Forall₂.nil | refine List.Forall₂.cons ?_ ?_)
    all_goals exact hl _ (by rfl)

set_option maxRecDepth 100000 in
theorem clientConfigText_eq (alg : Algorithm) (CN : Str) (a p : Option Str) (pr : Str) :
    clientConfigText alg CN a p pr = some (joinLines (clientLines alg CN a p pr)) := by
  unfold clientConfigText clientTemplate clientLines
  by_cases h1 : alg = Algorithm.EdDSA
  · simp only [h1, if_true, joinLines, List.map, List.flatten, List.append_assoc, List.cons_append, 
      List.nil_append, List.append_nil, String.toList]
    rfl
  · by_cases h2 : alg = Algorithm.ECDSA
    · simp only [h1, h2, if_true, if_false, joinLines, List.map, List.flatten, List.append_assoc, List.cons_append, 
        List.nil_append, List.append_nil, String.toList]
      rfl
    · simp only [h1, h2, if_false, joinLines, List.map, List.flatten, List.append_assoc, List.cons_append, 
        List.nil_append, List.append_nil, String.toList]
      rfl

/-! ## Lemmas: the lines of a text -/

theorem splitOn_ne_nil (sep : Char) (s : Str) : splitOn sep s ≠ [] := by
  induction s with
  | nil => simp [splitOn]
  | cons c cs ih =>
    unfold splitOn
    split
    · simp
    · split <;> simp

theorem lineFree_append (a b : Str) : lineFree (a ++ b) = (lineFree a && lineFree b) := by
  simp [lineFree]

theorem lines_append_line (l rest : Str) (h : lineFree l = true) :
    lines (l ++ '\n' :: rest) = l :: lines rest := by
  induction l with
  | nil => simp [lines, splitOn]
  | cons c cs ih =>
    simp [lineFree] at h
    have hcs : lineFree cs = true := by simp [lineFree]; exact h.2
    have ih' := ih hcs
    unfold lines at ih' ⊢
    simp only [List.cons_append]
    rw [splitOn]
    simp [h.1, ih']

theorem lines_joinLines (ls : List Str) (h : ∀ l ∈ ls, lineFree l = true) :
    lines (joinLines ls) = ls ++ [[]] := by
  induction ls with
  | nil => simp [joinLines, lines, splitOn]
  | cons l ls ih =>
    rw [joinLines_cons, lines_append_line l _ (h l (by simp)),
      ih (fun x hx => h x (by simp [hx]))]
    simp

theorem directiveLines_joinLines (d : Str) (ls : List Str) (hd : d ≠ [])
    (h : ∀ l ∈ ls, lineFree l = true) :
    directiveLines d (joinLines ls) = ls.filter (fun l => d.isPrefixOf l) := by
  unfold directiveLines
  rw [lines_joinLines ls h, List.filter_append]
  cases d with
  | nil => exact absurd rfl hd
  | cons c cs => simp [List.isPrefixOf]

theorem forall_mem_append {α : Type} {P : α → Prop} {a b : List α}
    (ha : ∀ x ∈ a, P x) (hb : ∀ x ∈ b, P x) : ∀ x ∈ a ++ b, P x := by
  intro x hx
  rcases List.mem_append.mp hx with h | h
  · exact ha x h
  · exact hb x h

theorem forall_mem_cons {α : Type} {P : α → Prop} {a : α} {l : List α}
    (ha : P a) (hl : ∀ x ∈ l, P x) : ∀ x ∈ a :: l, P x := by
  intro x hx
  rcases List.mem_cons.mp hx with h | h
  · exact h ▸ ha
  · exact hl x h

theorem forall_mem_nil {α : Type} {P : α → Prop} : ∀ x ∈ ([] : List α), P x := by
  intro x hx
  cases hx

theorem lineFree_wrap (a s b : Str) (ha : lineFree a = true) (hs : lineFree s = true)
    (hb : lineFree b = true) : lineFree (a ++ s ++ b) = true := by
  simp [lineFree_append, ha, hs, hb]

theorem lineFree_pre (a s : Str) (ha : lineFree a = true) (hs : lineFree s = true) :
    lineFree (a ++ s) = true := by
  simp [lineFree_append, ha, hs]

set_option maxRecDepth 100000 in
theorem serverLines_lineFree (self : Interactive) (crl : Bool) (proto port : Str)
    (hs : lineFree self.suffix = true) (hc : lineFree (self.curveName.getD []) = true)
    (hd : ∀ d ∈ dnsList self.config, lineFree d = true)
    (hproto : lineFree proto = true) (hport : lineFree port = true) :
    ∀ l ∈ serverLines self crl proto port, lineFree l = true := by
  have hw : ∀ a b : Str, lineFree a = true → lineFree b = true →
      lineFree (a ++ self.suffix ++ b) = true := fun a b ha hb => lineFree_wrap a _ b ha hs hb
  unfold serverLines serverLinesHead serverLinesCrl serverLinesAlg serverLinesMid
    serverLinesDns serverLinesRedirect serverLinesTail
  refine forall_mem_append (forall_mem_append (forall_mem_append (forall_mem_append
    (forall_mem_append (forall_mem_append ?_ ?_) ?_) ?_) ?_) ?_) ?_
  · repeat' (first | exact forall_mem_nil | refine forall_mem_cons ?_ ?_)
    all_goals first
      | exact lineFree_pre _ _ (by rfl) hproto
      | exact hw _ _ (by rfl) (by rfl)
      | rfl
  · split
    · exact forall_mem_cons (hw _ _ (by rfl) (by rfl)) forall_mem_nil
    · exact forall_mem_nil
  · split
    · exact forall_mem_cons (hw _ _ (by rfl) (by rfl)) forall_mem_nil
    · split
      · repeat' (first | exact forall_mem_nil | refine forall_mem_cons ?_ ?_)
        all_goals first | exact lineFree_pre _ _ (by rfl) hc | rfl
      · repeat' (first | exact forall_mem_nil | refine forall_mem_cons ?_ ?_)
        all_goals first | exact lineFree_pre _ _ (by rfl) hc | rfl
  · repeat' (first | exact forall_mem_nil | refine forall_mem_cons ?_ ?_)
    all_goals first | exact lineFree_pre _ _ (by rfl) hport | rfl
  · intro l hl
    simp only [List.mem_map] at hl
    obtain ⟨d, hdm, rfl⟩ := hl
    exact lineFree_wrap _ _ _ (by rfl) (hd d hdm) (by rfl)
  · split
    · exact forall_mem_nil
    · exact forall_mem_cons (by rfl) forall_mem_nil
  · repeat' (first | exact forall_mem_nil | refine forall_mem_cons ?_ ?_)
    all_goals rfl

set_option maxRecDepth 100000 in
theorem clientLines_lineFree (alg : Algorithm) (CN : Str) (a p : Option Str) (pr : Str)
    (hCN : lineFree CN = true) (ha : lineFree (a.getD []) = true)
    (hp : lineFree (p.getD []) = true) (hpr : lineFree pr = true) :
    ∀ l ∈ clientLines alg CN a p pr, lineFree l = true := by
  unfold clientLines
  refine forall_mem_append ?_ ?_
  · repeat' (first | exact forall_mem_nil | refine forall_mem_cons ?_ ?_)
    all_goals first
      | rfl
      | exact lineFree_wrap _ _ _ (by rfl) hCN (by rfl)
      | (simp only [lineFree_append, hCN, ha, hp, hpr, Bool.and_true, Bool.true_and]; rfl)
  · split
    · exact forall_mem_cons (by rfl) forall_mem_nil
    · split
      · exact forall_mem_cons (by rfl) (forall_mem_cons (by rfl) forall_mem_nil)
      · exact forall_mem_nil

theorem filter_map_nil {α β : Type} (p : β → Bool) (f : α → β) (l : List α)
    (h : ∀ x, p (f x) = false) : (l.map f).filter p = [] := by
  induction l with
  | nil => rfl
  | cons x xs ih => simp [List.filter, h x, ih]

set_option maxRecDepth 100000 in
theorem serverLines_tlsCipher (self : Interactive) (crl : Bool) (proto port : Str) :
    (serverLines self crl proto port).filter (fun l => "tls-cipher".toList.isPrefixOf l) =
      if self.keyAlg = Algorithm.RSA then []
      else if self.keyAlg = Algorithm.EdDSA then ["tls-cipher TLS_AES_256_GCM_SHA384".toList]
      else ["tls-cipher TLS-ECDHE-ECDSA-WITH-AES-256-GCM-SHA384".toList] := by
  have h1 : (serverLinesHead self proto).filter (fun l => "tls-cipher".toList.isPrefixOf l) = [] := rfl
  have h2 : (serverLinesCrl self crl).filter (fun l => "tls-cipher".toList.isPrefixOf l) = [] := by
    unfold serverLinesCrl; split <;> rfl
  have h3 : (serverLinesMid port).filter (fun l => "tls-cipher".toList.isPrefixOf l) = [] := rfl
  have h4 : (serverLinesDns self).filter (fun l => "tls-cipher".toList.isPrefixOf l) = [] :=
    filter_map_nil _ _ _ (fun _ => rfl)
  have h5 : (serverLinesRedirect self).filter (fun l => "tls-cipher".toList.isPrefixOf l) = [] := by
    unfold serverLinesRedirect; split <;> rfl
  have h6 : serverLinesTail.filter (fun l => "tls-cipher".toList.isPrefixOf l) = [] := rfl
  unfold serverLines
  simp only [List.filter_append, h1, h2, h3, h4, h5, h6, List.append_nil, List.nil_append]
  unfold serverLinesAlg
  split
  · rfl
  · split <;> rfl

set_option maxRecDepth 100000 in
theorem serverLines_tlsVersion (self : Interactive) (crl : Bool) (proto port : Str) :
    (serverLines self crl proto port).filter (fun l => "tls-version-min".toList.isPrefixOf l) =
      if self.keyAlg = Algorithm.RSA then []
      else if self.keyAlg = Algorithm.EdDSA then ["tls-version-min 1.3".toList]
      else ["tls-version-min 1.2".toList] := by
  have h1 : (serverLinesHead self proto).filter (fun l => "tls-version-min".toList.isPrefixOf l) = [] := rfl
  have h2 : (serverLinesCrl self crl).filter (fun l => "tls-version-min".toList.isPrefixOf l) = [] := by
    unfold serverLinesCrl; split <;> rfl
  have h3 : (serverLinesMid port).filter (fun l => "tls-version-min".toList.isPrefixOf l) = [] := rfl
  have h4 : (serverLinesDns self).filter (fun l => "tls-version-min".toList.isPrefixOf l) = [] :=
    filter_map_nil _ _ _ (fun _ => rfl)
  have h5 : (serverLinesRedirect self).filter (fun l => "tls-version-min".toList.isPrefixOf l) = [] := by
    unfold serverLinesRedirect; split <;> rfl
  have h6 : serverLinesTail.filter (fun l => "tls-version-min".toList.isPrefixOf l) = [] := rfl
  unfold serverLines
  simp only [List.filter_append, h1, h2, h3, h4, h5, h6, List.append_nil, List.nil_append]
  unfold serverLinesAlg
  split
  · rfl
  · split <;> rfl

set_option maxRecDepth 100000 in
theorem clientLines_tlsCipher (alg : Algorithm) (CN : Str) (a p : Option Str) (pr : Str) :
    (clientLines alg CN a p pr).filter (fun l => "tls-cipher".toList.isPrefixOf l) =
      if alg = Algorithm.ECDSA then ["tls-cipher TLS-ECDHE-ECDSA-WITH-AES-256-GCM-SHA384".toList]
      else [] := by
  unfold clientLines
  by_cases h1 : alg = Algorithm.EdDSA
  · subst h1; rfl
  · by_cases h2 : alg = Algorithm.ECDSA
    · subst h2; rfl
    · simp only [h1, h2, if_false]; rfl

set_option maxRecDepth 100000 in
theorem clientLines_tlsVersion (alg : Algorithm) (CN : Str) (a p : Option Str) (pr : Str) :
    (clientLines alg CN a p pr).filter (fun l => "tls-version-min".toList.isPrefixOf l) =
      if alg = Algorithm.EdDSA then ["tls-version-min 1.3".toList]
      else if alg = Algorithm.ECDSA then ["tls-version-min 1.2".toList]
      else [] := by
  unfold clientLines
  by_cases h1 : alg = Algorithm.EdDSA
  · subst h1; rfl
  · by_cases h2 : alg = Algorithm.ECDSA
    · subst h2; rfl
    · simp only [h1, h2, if_false]; rfl

/-! ## Lemmas: identities -/

@[simp] theorem tryWrite_self (w : World) (p t : Str) : (w.tryWrite p t).self = w.self := by
  unfold World.tryWrite; split <;> rfl

@[simp] theorem tryWrite_fails (w : World) (p t : Str) : (w.tryWrite p t).fs.fails = w.fs.fails := by
  unfold World.tryWrite; split <;> rfl

@[simp] theorem tryWrite_calls (w : World) (p t : Str) : (w.tryWrite p t).calls = w.calls := by
  unfold World.tryWrite; split <;> rfl

@[simp] theorem tryWrite_stdin (w : World) (p t : Str) : (w.tryWrite p t).stdin = w.stdin := by
  unfold World.tryWrite; split <;> rfl

theorem tryWrite_files (w : World) (p t q : Str) :
    (w.tryWrite p t).fs.files q =
      if q = p ∧ w.fs.fails (.write p) = false then some t else w.fs.files q := by
  unfold World.tryWrite
  by_cases h : w.fs.fails (.write p) = true <;> by_cases hq : q = p <;> simp [h, hq]

@[simp] theorem tryMkdir_self (w : World) (p : Str) : (w.tryMkdir p).self = w.self := by
  unfold World.tryMkdir; split <;> rfl

@[simp] theorem tryMkdir_fails (w : World) (p : Str) : (w.tryMkdir p).fs.fails = w.fs.fails := by
  unfold World.tryMkdir; split <;> rfl

@[simp] theorem tryMkdir_files (w : World) (p : Str) : (w.tryMkdir p).fs.files = w.fs.files := by
  unfold World.tryMkdir; split <;> rfl

@[simp] theorem tryMkdir_calls (w : World) (p : Str) : (w.tryMkdir p).calls = w.calls := by
  unfold World.tryMkdir; split <;> rfl

@[simp] theorem tryMkdir_stdin (w : World) (p : Str) : (w.tryMkdir p).stdin = w.stdin := by
  unfold World.tryMkdir; split <;> rfl

theorem saveIdentity_apply (env : Env) (identity : Identity) (name : Str) (w : World) :
    saveIdentity env identity name w =
      match env.CertAsPEM identity.cert with
      | none => .ret false (w.tryMkdir w.self.pkiPath)
      | some cert =>
        match env.KeyAsPEM identity.key with
        | none => .ret false
            ((w.tryMkdir w.self.pkiPath).tryWrite (Combine w.self.pkiPath (name ++ ".crt".toList)) cert)
        | some key => .ret true
            (((w.tryMkdir w.self.pkiPath).tryWrite (Combine w.self.pkiPath (name ++ ".crt".toList)) cert).tryWrite
              (Combine w.self.pkiPath (name ++ ".key".toList)) key) := by
  have hm : attempt (do
      if !(← DirectoryExists w.self.pkiPath) then
        CreateDirectory w.self.pkiPath) w = .ret (!(w.fs.dirs w.self.pkiPath = false ∧ w.fs.fails (.mkdir w.self.pkiPath) = true)) (w.tryMkdir w.self.pkiPath) := by
    unfold World.tryMkdir
    simp only [attempt_apply, bind_apply, DirectoryExists_apply, andThen_ret]
    by_cases h1 : w.fs.dirs w.self.pkiPath = true <;>
      by_cases h2 : w.fs.fails (.mkdir w.self.pkiPath) = true <;> simp [h1, h2]
  have hw : ∀ (w : World) (p t : Str), attempt (writeFile p t) w =
      .ret (!w.fs.fails (.write p)) (w.tryWrite p t) := by
    intro w p t
    rw [attempt_writeFile]
    unfold World.tryWrite
    by_cases h : w.fs.fails (.write p) = true <;> simp [h]
  unfold saveIdentity
  simp only [bind_apply, getSelf_apply, andThen_ret, hm]
  rcases env.CertAsPEM identity.cert with _ | cert
  · rfl
  · simp only [bind_apply, hw, andThen_ret]
    rcases env.KeyAsPEM identity.key with _ | key
    · rfl
    · simp only [bind_apply, hw, andThen_ret, tryMkdir_self, tryWrite_self]
      rfl

theorem saveIdentity_self (env : Env) (identity : Identity) (name : Str) (w : World) :
    (saveIdentity env identity name w).world.self = w.self := by
  rw [saveIdentity_apply]
  rcases env.CertAsPEM identity.cert with _ | cert
  · simp
  · rcases env.KeyAsPEM identity.key with _ | key <;> simp

@[simp] theorem Serial_apply (w : World) :
    Serial w = .ret w.self._serial
      { w with self := { w.self with _serial := wrapInt32 (w.self._serial + 1) } } := rfl

theorem createNewServerIdentity_apply (env : Env) (w : World) :
    createNewServerIdentity env w =
      match w.self.Issuer, w.self.cSubject with
      | some issuer, some c =>
        match env.CreateCertKeyBundle { c with CommonName := some "server".toList } issuer
            w.self.keyAlg w.self.keySize w.self.curveName w.self.validDays w.self._serial true with
        | none => .ret false
            { w with
              self := { w.self with
                cSubject := some { c with CommonName := some "server".toList }
                _serial := wrapInt32 (w.self._serial + 1) }
              calls := w.calls ++
                [.createBundle { c with CommonName := some "server".toList } w.self._serial true] }
        | some identity => saveIdentity env identity "server".toList
            { w with
              self := { w.self with
                cSubject := some { c with CommonName := some "server".toList }
                _serial := wrapInt32 (w.self._serial + 1) }
              calls := w.calls ++
                [.createBundle { c with CommonName := some "server".toList } w.self._serial true] }
      | _, _ => .ret false w := by
  rcases w with ⟨⟨path, keySize, validDays, keyAlg, curveName, suffix, cSubject, config, serial,
    Issuer⟩, fs, stdin, calls⟩
  unfold createNewServerIdentity verifyRequirements
  rcases Issuer with _ | issuer
  · rfl
  · rcases cSubject with _ | c
    · rfl
    · simp only [bind_apply, getSelf_apply, andThen_ret, Option.isNone, pure_apply,
        Bool.false_eq_true, if_false, Bool.not_false, Bool.not_true, modifySelf_apply, Option.map,
        Serial_apply, logCall_apply, ite_apply_world]
      rcases env.CreateCertKeyBundle { c with CommonName := some "server".toList } issuer
          keyAlg keySize curveName validDays serial true with _ | identity
      · rfl
      · rfl

theorem createNewServerIdentity_settings (env : Env) (w : World) :
    sameSettings (createNewServerIdentity env w).world.self w.self := by
  rw [createNewServerIdentity_apply]
  rcases w.self.Issuer with _ | issuer
  · simp [sameSettings]
  · rcases w.self.cSubject with _ | c
    · simp [sameSettings]
    · simp only
      rcases env.CreateCertKeyBundle { c with CommonName := some "server".toList } issuer
          w.self.keyAlg w.self.keySize w.self.curveName w.self.validDays w.self._serial true
        with _ | identity
      · simp [sameSettings]
      · simp [saveIdentity_self, sameSettings]

/-! ## Lemmas: the server configuration -/

theorem copyServerMaterial_keeps (w w' : World) (b : Bool) (h : copyServerMaterial w = .ret b w') :
    w'.self = w.self ∧ w'.fs.files w.self.serverConfPath = w.fs.files w.self.serverConfPath := by
  have n1 : w.self.serverConfPath ≠ Combine w.self.serverPath ("ca".toList ++ w.self.suffix ++ ".crt".toList) := by
    rw [serverConfPath_eq, Combine_server _ _ (by rfl)]; simp
  have n2 : w.self.serverConfPath ≠ Combine w.self.serverPath ("server".toList ++ w.self.suffix ++ ".crt".toList) := by
    rw [serverConfPath_eq, Combine_server _ _ (by rfl)]; simp
  have n3 : w.self.serverConfPath ≠ Combine w.self.serverPath ("dh".toList ++ w.self.suffix ++ ".pem".toList) := by
    rw [serverConfPath_eq, Combine_server _ _ (by rfl)]; simp
  have n4 : w.self.serverConfPath ≠ Combine w.self.serverPath ("server".toList ++ w.self.suffix ++ ".key".toList) := by
    rw [serverConfPath_eq, Combine_server _ _ (by rfl)]; simp
  have n5 : w.self.serverConfPath ≠ Combine w.self.serverPath ("crl".toList ++ w.self.suffix ++ ".crt".toList) := by
    rw [serverConfPath_eq, Combine_server _ _ (by rfl)]; simp
  simp only [String.toList, List.cons_append, List.nil_append, ne_eq] at n1 n2 n3 n4 n5
  unfold copyServerMaterial at h
  simp only [bind_apply, getSelf_apply, andThen_ret, attempt_FileCopy, attempt_apply, pure_apply, FileExists_apply,
    ite_apply_world, andThen_ite, orElse_ite, orElse_ret, orElse_exception, FileCopy_apply, andThen_abort,
    Bool.not_false, Bool.not_true, if_true, if_false, Bool.false_eq_true] at h
  split_ifs at h <;> simp at h <;> obtain ⟨-, rfl⟩ := h <;> simp [n1, n2, n3, n4, n5]

theorem emit_success (w w' : World) (h : emitServerConfig w = .ret true w') :
    ∃ port proto text, configString w.self.config "port".toList = some port ∧
      configString w.self.config "proto".toList = some proto ∧
      serverConfigText w.self (w.fs.files w.self.crlPath).isSome (serverProto proto) port = some text ∧
      w'.fs.files w.self.serverConfPath = some text ∧ w'.self = w.self := by
  unfold emitServerConfig at h
  rcases hp : configString w.self.config "port".toList with _ | port
  · simp only [hp, bind_apply, getSelf_apply, andThen_ret, pure_apply] at h
    cases h
  rcases hpr : configString w.self.config "proto".toList with _ | proto
  · simp only [hp, hpr, bind_apply, getSelf_apply, andThen_ret, pure_apply] at h
    cases h
  refine ⟨port, proto, ?_⟩
  rcases ht : serverConfigText w.self (w.fs.files w.self.crlPath).isSome (serverProto proto) port with _ | text
  · simp only [hp, hpr, bind_apply, getSelf_apply, pure_apply, FileExists_apply,
      andThen_ret, ht, orThrow_none, andThen_abort, ite_apply_world] at h
    split_ifs at h <;> simp at h
  · simp only [hp, hpr, bind_apply, getSelf_apply, pure_apply, FileExists_apply,
      andThen_ret, ht, orThrow_some, andThen_abort, ite_apply_world, makeFreshDirectory_apply,
      attempt_writeFile, andThen_ite, Bool.not_false, Bool.not_true, if_true, if_false,
      Bool.false_eq_true, setFile_fails, addDir_fails, removeTree_fails, setFile_self, addDir_self,
      removeTree_self] at h
    refine ⟨text, rfl, rfl, rfl, ?_⟩
    split_ifs at h
    all_goals first
      | (have hk := copyServerMaterial_keeps _ _ _ h
         simp only [setFile_self, addDir_self, removeTree_self, setFile_files, if_true] at hk
         exact ⟨hk.2, hk.1⟩)
      | simp at h

theorem CreateServerConfig_apply (env : Env) (w : World) :
    CreateServerConfig env w =
      if (w.fs.files w.self.caPath).isSome = false then .ret false w
      else if w.self.keyAlg = Algorithm.RSA ∧ (w.fs.files w.self.dhPath).isSome = false then
        .ret false w
      else if (w.fs.files (Combine w.self.pkiPath "server.crt".toList)).isSome = true ∧
          (w.fs.files (Combine w.self.pkiPath "server.key".toList)).isSome = true then
        emitServerConfig w
      else
        (createNewServerIdentity env w).andThen
          (fun b => if b = true then emitServerConfig else pure false) := by
  unfold CreateServerConfig
  simp only [bind_apply, getSelf_apply, andThen_ret, FileExists_apply, ite_apply_world, pure_apply]
  by_cases h1 : (w.fs.files w.self.caPath).isSome = true
  · by_cases h2 : w.self.keyAlg = Algorithm.RSA
    · by_cases h3 : (w.fs.files w.self.dhPath).isSome = true
      · by_cases h4 : (w.fs.files (Combine w.self.pkiPath "server.crt".toList)).isSome = true
        · by_cases h5 : (w.fs.files (Combine w.self.pkiPath "server.key".toList)).isSome = true
          · simp [-String.toList, h1, h2, h3, h4, h5]
          · simp [-String.toList, h1, h2, h3, h4, h5]
            cases createNewServerIdentity env w with
            | ret b w1 => cases b <;> simp
            | abort e w1 => simp
        · simp [-String.toList, h1, h2, h3, h4]
          cases createNewServerIdentity env w with
          | ret b w1 => cases b <;> simp
          | abort e w1 => simp
      · simp [-String.toList, h1, h2, h3]
    · by_cases h4 : (w.fs.files (Combine w.self.pkiPath "server.crt".toList)).isSome = true
      · by_cases h5 : (w.fs.files (Combine w.self.pkiPath "server.key".toList)).isSome = true
        · simp [-String.toList, h1, h2, h4, h5]
        · simp [-String.toList, h1, h2, h4, h5]
          cases createNewServerIdentity env w with
          | ret b w1 => cases b <;> simp
          | abort e w1 => simp
      · simp [-String.toList, h1, h2, h4]
        cases createNewServerIdentity env w with
        | ret b w1 => cases b <;> simp
        | abort e w1 => simp
  · simp [-String.toList, h1]

theorem CreateServerConfig_success (env : Env) (w w' : World)
    (h : CreateServerConfig env w = .ret true w') :
    ∃ w1, emitServerConfig w1 = .ret true w' ∧ sameSettings w1.self w.self ∧
      (w.self.keyAlg = Algorithm.RSA → (w.fs.files w.self.dhPath).isSome = true) := by
  rw [CreateServerConfig_apply] at h
  split_ifs at h with h1 h2 h3
  · cases h
  · cases h
  · refine ⟨w, h, by simp [sameSettings], ?_⟩
    intro ha
    by_contra hd
    exact h2 ⟨ha, by simpa using hd⟩
  · have hs := createNewServerIdentity_settings env w
    cases hc : createNewServerIdentity env w with
    | ret b w1 =>
      rw [hc] at h hs
      cases b
      · simp at h
      · simp only [andThen_ret, if_true] at h
        refine ⟨w1, h, hs, ?_⟩
        intro ha
        by_contra hd
        exact h2 ⟨ha, by simpa using hd⟩
    | abort e w1 =>
      rw [hc] at h
      simp at h

theorem serverConfigText_congr (a b : Interactive) (h : sameSettings a b) (crl : Bool)
    (proto : Str) (port : Option Str) :
    serverConfigText a crl proto port = serverConfigText b crl proto port := by
  obtain ⟨_, h2, h3, h4, h5, _, _⟩ := h
  unfold serverConfigText serverTemplate
  rw [h2, h3, h4, h5]

theorem serverProto_lineFree (p : Option Str) : lineFree (serverProto p) = true := by
  unfold serverProto
  split <;> rfl

theorem plainValues_parts (self : Interactive) (h : self.plainValues = true) :
    braceFree self.suffix = true ∧ lineFree self.suffix = true ∧
      braceFree (self.curveName.getD []) = true ∧ lineFree (self.curveName.getD []) = true ∧
      (∀ d ∈ dnsList self.config, braceFree d = true) ∧
      (∀ d ∈ dnsList self.config, lineFree d = true) ∧
      (∀ port, configString self.config "port".toList = some port →
        lineFree (port.getD []) = true) := by
  unfold Interactive.plainValues at h
  simp only [Bool.and_eq_true, List.all_eq_true] at h
  obtain ⟨⟨⟨⟨⟨h1, h2⟩, h3⟩, h4⟩, h5⟩, h6⟩ := h
  refine ⟨h1, h2, h3, h4, fun d hd => (h5 d hd).1, fun d hd => (h5 d hd).2, ?_⟩
  intro port hp
  rw [hp] at h6
  exact h6

/-- What a successful `CreateServerConfig` leaves in the configuration file:
the joined lines `serverLines`, for plain values. -/
theorem CreateServerConfig_text (env : Env) (w w' : World)
    (hok : CreateServerConfig env w = .ret true w') (hplain : w.self.plainValues = true) :
    ∃ crl proto port, 
      w'.fs.files w.self.serverConfPath = some (joinLines (serverLines w.self crl proto port)) ∧
      lines (joinLines (serverLines w.self crl proto port)) = serverLines w.self crl proto port ++ [[]] ∧
      directiveLines "tls-cipher".toList (joinLines (serverLines w.self crl proto port)) =
        (serverLines w.self crl proto port).filter (fun l => "tls-cipher".toList.isPrefixOf l) := by
  obtain ⟨w1, hemit, hs, -⟩ := CreateServerConfig_success env w w' hok
  obtain ⟨port, proto, text, hp, -, ht, hfile, -⟩ := emit_success w1 w' hemit
  obtain ⟨b1, l1, b2, l2, b3, l3, hport⟩ := plainValues_parts _ hplain
  have hpath : w1.self.serverConfPath = w.self.serverConfPath := by
    unfold Interactive.serverConfPath Interactive.serverPath
    rw [hs.1, hs.2.1]
  rw [hpath] at hfile
  rw [serverConfigText_congr _ _ hs, serverConfigText_eq _ _ _ _ b1 b2 b3] at ht
  rw [hs.2.2.2.2.1] at hp
  have hl := serverLines_lineFree w.self (w1.fs.files w1.self.crlPath).isSome (serverProto proto)
    (port.getD []) l1 l2 l3 (serverProto_lineFree _) (hport port hp)
  refine ⟨_, _, _, ?_, lines_joinLines _ hl, directiveLines_joinLines _ _ (by decide) hl⟩
  rw [hfile, ← ht]

/-! ## C1: the directives of the server configuration -/

theorem ret_of_result {α : Type} (o : Outcome α) (a : α) (h : o.result = some a) :
    o = .ret a o.world := by
  cases o with
  | ret b w => simp at h; subst h; rfl
  | abort e w => simp at h

/-- C1 (amended): when `CreateServerConfig` succeeds and the suffix, the curve
name and the DNS entries hold neither a brace nor a line feed and the port no
line feed, the configuration file it leaves has, for RSA, the line
`dh dh<suffix>.pem` and no line beginning with `tls-cipher`, and for ECDSA and
EdDSA the lines `dh none` and `ecdh-curve <curveName>`. -/
theorem CreateServerConfig_directives (env : Env) (w w' : World)
    (hok : CreateServerConfig env w = .ret true w') (hplain : w.self.plainValues = true) :
    ∃ text, w'.fs.files w.self.serverConfPath = some text ∧
      (w.self.keyAlg = Algorithm.RSA →
        hasLine text ("dh dh".toList ++ w.self.suffix ++ ".pem".toList) ∧
          ¬ hasDirective "tls-cipher".toList text) ∧
      (w.self.keyAlg = Algorithm.ECDSA ∨ w.self.keyAlg = Algorithm.EdDSA →
        hasLine text "dh none".toList ∧
          hasLine text ("ecdh-curve ".toList ++ w.self.curveName.getD [])) := by
  obtain ⟨crl, proto, port, hfile, hlines, hdir⟩ := CreateServerConfig_text env w w' hok hplain
  have hmem : ∀ l, l ∈ serverLinesAlg w.self → l ∈ serverLines w.self crl proto port ++ [[]] := by
    intro l hl
    unfold serverLines
    simp only [List.mem_append]
    exact Or.inl (Or.inl (Or.inl (Or.inl (Or.inl (Or.inr hl)))))
  refine ⟨_, hfile, ?_, ?_⟩
  · intro ha
    constructor
    · unfold hasLine
      rw [hlines]
      apply hmem
      unfold serverLinesAlg
      rw [if_pos ha]
      exact List.mem_singleton.mpr rfl
    · unfold hasDirective
      rw [hdir, serverLines_tlsCipher]
      simp [ha]
  · intro ha
    have h1 : w.self.keyAlg ≠ Algorithm.RSA := by
      rcases ha with ha | ha <;> rw [ha] <;> decide
    unfold hasLine
    rw [hlines]
    constructor
    · apply hmem
      unfold serverLinesAlg
      rw [if_neg h1]
      by_cases h2 : w.self.keyAlg = Algorithm.EdDSA
      · rw [if_pos h2]
        simp [-String.toList]
      · rw [if_neg h2]
        simp [-String.toList]
    · apply hmem
      unfold serverLinesAlg
      rw [if_neg h1]
      by_cases h2 : w.self.keyAlg = Algorithm.EdDSA
      · rw [if_pos h2]
        simp [-String.toList]
      · rw [if_neg h2]
        simp [-String.toList]

set_option maxRecDepth 1000000 in
/-- Witness of C1 (amended): an ECDSA directory with curve `secp384r1`. -/
theorem CreateServerConfig_directives_witness :
    CreateServerConfig sampleEnv ecdsaWorld =
        .ret true (CreateServerConfig sampleEnv ecdsaWorld).world ∧
      ecdsaWorld.self.plainValues = true ∧
      ∃ text,
        (CreateServerConfig sampleEnv ecdsaWorld).world.fs.files ecdsaWorld.self.serverConfPath =
          some text ∧
        (ecdsaWorld.self.keyAlg = Algorithm.RSA →
          hasLine text ("dh dh".toList ++ ecdsaWorld.self.suffix ++ ".pem".toList) ∧
            ¬ hasDirective "tls-cipher".toList text) ∧
        (ecdsaWorld.self.keyAlg = Algorithm.ECDSA ∨ ecdsaWorld.self.keyAlg = Algorithm.EdDSA →
          hasLine text "dh none".toList ∧
            hasLine text ("ecdh-curve ".toList ++ ecdsaWorld.self.curveName.getD [])) :=
  ⟨ret_of_result _ _ (by decide), by decide,
    CreateServerConfig_directives sampleEnv ecdsaWorld _ (ret_of_result _ _ (by decide))
      (by decide)⟩

set_option maxRecDepth 1000000 in
/-- Counterexample to C1 as stated: with the suffix `{0}` the RSA configuration
has the line `dh dhudp.pem` and not `dh dh{0}.pem`, because the suffix is part of
the format string; with a line feed in the port an RSA configuration has a line
that begins with `tls-cipher`. -/
theorem CreateServerConfig_directives_counterexample :
    ((CreateServerConfig sampleEnv rsaBraceWorld).result = some true ∧
      rsaBraceWorld.self.keyAlg = Algorithm.RSA ∧ rsaBraceWorld.self.suffix = "{0}".toList ∧
      ∃ text,
        (CreateServerConfig sampleEnv rsaBraceWorld).world.fs.files
          rsaBraceWorld.self.serverConfPath = some text ∧
        ¬ hasLine text ("dh dh".toList ++ rsaBraceWorld.self.suffix ++ ".pem".toList) ∧
        hasLine text "dh dhudp.pem".toList) ∧
    ((CreateServerConfig sampleEnv rsaPortWorld).result = some true ∧
      rsaPortWorld.self.keyAlg = Algorithm.RSA ∧
      ∃ text,
        (CreateServerConfig sampleEnv rsaPortWorld).world.fs.files
          rsaPortWorld.self.serverConfPath = some text ∧
        hasDirective "tls-cipher".toList text) :=
  ⟨⟨by decide, rfl, rfl, _, rfl, by decide, by decide⟩, ⟨by decide, rfl, _, rfl, by decide⟩⟩

/-! ## C9: the TLS directives of server and client -/

theorem clientProto_lineFree (p : Option Str) : lineFree (clientProto p) = true := by
  unfold clientProto
  split <;> rfl

/-- C9 (amended): for values without braces and line feeds, the server and the
client configuration rendered from one object have, for ECDSA, the same single
`tls-version-min 1.2` line and the same single `tls-cipher` line with the
ECDHE-ECDSA pin; for EdDSA the same single `tls-version-min 1.3` line, the
server the line `tls-cipher TLS_AES_256_GCM_SHA384` and the client no
`tls-cipher` line; for RSA neither has a line of either directive. -/
theorem tls_directives_server_client (self : Interactive) (crl : Bool) (CN : Str)
    (address port proto : Option Str)
    (hport : configString self.config "port".toList = some port)
    (hplain : self.plainValues = true) (hCN : lineFree CN = true)
    (haddr : lineFree (address.getD []) = true) :
    ∃ ts tc, serverConfigText self crl (serverProto proto) port = some ts ∧
      clientConfigText self.keyAlg CN address port (clientProto proto) = some tc ∧
      (self.keyAlg = Algorithm.ECDSA →
        directiveLines "tls-version-min".toList ts = ["tls-version-min 1.2".toList] ∧
        directiveLines "tls-version-min".toList tc = ["tls-version-min 1.2".toList] ∧
        directiveLines "tls-cipher".toList ts =
          ["tls-cipher TLS-ECDHE-ECDSA-WITH-AES-256-GCM-SHA384".toList] ∧
        directiveLines "tls-cipher".toList tc =
          ["tls-cipher TLS-ECDHE-ECDSA-WITH-AES-256-GCM-SHA384".toList]) ∧
      (self.keyAlg = Algorithm.EdDSA →
        directiveLines "tls-version-min".toList ts = ["tls-version-min 1.3".toList] ∧
        directiveLines "tls-version-min".toList tc = ["tls-version-min 1.3".toList] ∧
        directiveLines "tls-cipher".toList ts = ["tls-cipher TLS_AES_256_GCM_SHA384".toList] ∧
        directiveLines "tls-cipher".toList tc = []) ∧
      (self.keyAlg = Algorithm.RSA →
        directiveLines "tls-version-min".toList ts = [] ∧
        directiveLines "tls-version-min".toList tc = [] ∧
        directiveLines "tls-cipher".toList ts = [] ∧
        directiveLines "tls-cipher".toList tc = []) := by
  obtain ⟨b1, l1, b2, l2, b3, l3, hp⟩ := plainValues_parts _ hplain
  have hls := serverLines_lineFree self crl (serverProto proto) (port.getD []) l1 l2 l3
    (serverProto_lineFree _) (hp port hport)
  have hlc := clientLines_lineFree self.keyAlg CN address port (clientProto proto) hCN haddr
    (hp port hport) (clientProto_lineFree _)
  refine ⟨_, _, serverConfigText_eq _ _ _ _ b1 b2 b3, clientConfigText_eq _ _ _ _ _, ?_, ?_, ?_⟩
  all_goals
    intro ha
    rw [directiveLines_joinLines _ _ (by decide) hls, directiveLines_joinLines _ _ (by decide) hls,
      directiveLines_joinLines _ _ (by decide) hlc, directiveLines_joinLines _ _ (by decide) hlc,
      serverLines_tlsCipher, serverLines_tlsVersion, clientLines_tlsCipher, clientLines_tlsVersion,
      ha]
    decide

set_option maxRecDepth 1000000 in
/-- Witness of C9 (amended): the ECDSA sample directory and the client `client1`. -/
theorem tls_directives_server_client_witness :
    configString ecdsaWorld.self.config "port".toList = some (some "1194".toList) ∧
      ecdsaWorld.self.plainValues = true ∧ lineFree "client1".toList = true ∧
      lineFree ((some "vpn.example.org".toList).getD []) = true ∧
      ∃ ts tc,
        serverConfigText ecdsaWorld.self false (serverProto (some "udp".toList))
          (some "1194".toList) = some ts ∧
        clientConfigText ecdsaWorld.self.keyAlg "client1".toList (some "vpn.example.org".toList)
          (some "1194".toList) (clientProto (some "udp".toList)) = some tc ∧
        (ecdsaWorld.self.keyAlg = Algorithm.ECDSA →
          directiveLines "tls-version-min".toList ts = ["tls-version-min 1.2".toList] ∧
          directiveLines "tls-version-min".toList tc = ["tls-version-min 1.2".toList] ∧
          directiveLines "tls-cipher".toList ts =
            ["tls-cipher TLS-ECDHE-ECDSA-WITH-AES-256-GCM-SHA384".toList] ∧
          directiveLines "tls-cipher".toList tc =
            ["tls-cipher TLS-ECDHE-ECDSA-WITH-AES-256-GCM-SHA384".toList]) ∧
        (ecdsaWorld.self.keyAlg = Algorithm.EdDSA →
          directiveLines "tls-version-min".toList ts = ["tls-version-min 1.3".toList] ∧
          directiveLines "tls-version-min".toList tc = ["tls-version-min 1.3".toList] ∧
          directiveLines "tls-cipher".toList ts = ["tls-cipher TLS_AES_256_GCM_SHA384".toList] ∧
          directiveLines "tls-cipher".toList tc = []) ∧
        (ecdsaWorld.self.keyAlg = Algorithm.RSA →
          directiveLines "tls-version-min".toList ts = [] ∧
          directiveLines "tls-version-min".toList tc = [] ∧
          directiveLines "tls-cipher".toList ts = [] ∧
          directiveLines "tls-cipher".toList tc = []) :=
  ⟨by decide, by decide, by decide, by decide,
    tls_directives_server_client ecdsaWorld.self false "client1".toList
      (some "vpn.example.org".toList) (some "1194".toList) (some "udp".toList)
      (by decide) (by decide) (by decide) (by decide)⟩

set_option maxRecDepth 1000000 in
/-- Counterexample to C9 as stated: for EdDSA the server configuration has the
line `tls-cipher TLS_AES_256_GCM_SHA384` and the client configuration rendered
from the same object has no `tls-cipher` line at all. -/
theorem tls_directives_server_client_counterexample :
    eddsaWorld.self.keyAlg = Algorithm.EdDSA ∧
      ∃ ts tc,
        serverConfigText eddsaWorld.self false (serverProto (some "udp".toList))
          (some "1194".toList) = some ts ∧
        clientConfigText eddsaWorld.self.keyAlg "client1".toList (some "vpn.example.org".toList)
          (some "1194".toList) (clientProto (some "udp".toList)) = some tc ∧
        hasLine ts "tls-cipher TLS_AES_256_GCM_SHA384".toList ∧
        ¬ hasDirective "tls-cipher".toList tc ∧
        directiveLines "tls-cipher".toList ts ≠ directiveLines "tls-cipher".toList tc :=
  ⟨rfl, _, _, rfl, rfl, by decide, by decide, by decide⟩

/-! ## C2: the Diffie-Hellman prerequisite -/

set_option maxRecDepth 1000000 in
/-- C3 fails in the code: `RevokeCert` compares the name with `cert`, not with
the role name `ca`; on a directory holding `pki/ca.crt` the call with the name
`ca` returns success, calls the backend CRL update on the CA certificate, writes
`pki/crl.crt` and deletes `pki/ca.crt` and `pki/ca.key`. -/
theorem RevokeCert_ca_revokes :
    revokeCaWorld.fs.files "d\\pki\\ca.crt".toList = some "CA-CERT".toList ∧
    revokeCaWorld.fs.files "d\\pki\\crl.crt".toList = none ∧
    (RevokeCert sampleEnv (some "ca".toList) revokeCaWorld).result = some true ∧
    (RevokeCert sampleEnv (some "ca".toList) revokeCaWorld).world.calls =
      [.createCRL none "CA-CERT".toList] ∧
    (RevokeCert sampleEnv (some "ca".toList) revokeCaWorld).world.fs.files
      "d\\pki\\crl.crt".toList = some "REVOKED CA-CERT".toList ∧
    (RevokeCert sampleEnv (some "ca".toList) revokeCaWorld).world.fs.files
      "d\\pki\\ca.crt".toList = none ∧
    (RevokeCert sampleEnv (some "ca".toList) revokeCaWorld).world.fs.files
      "d\\pki\\ca.key".toList = none :=
  ⟨by rfl, by rfl, by rfl, by rfl, by rfl, by rfl, by rfl⟩

/-! ## C4: revoking a name that was never issued -/

theorem hasInvalidPathChar_append (a b : Str) :
    hasInvalidPathChar (a ++ b) = (hasInvalidPathChar a || hasInvalidPathChar b) := by
  simp [hasInvalidPathChar, List.any_append]

theorem hasInvalidPathChar_Combine (a b : Str) (ha : hasInvalidPathChar a = false)
    (hb : hasInvalidPathChar b = false) : hasInvalidPathChar (Combine a b) = false := by
  unfold Combine
  split_ifs
  · exact ha
  · exact hb
  · exact hb
  · rw [hasInvalidPathChar_append, ha, hb]; rfl
  · have h : a ++ '\\' :: b = a ++ (['\\'] ++ b) := rfl
    rw [h, hasInvalidPathChar_append, hasInvalidPathChar_append, ha, hb]; rfl

theorem PathCombine_apply (a b : Str) (w : World) :
    PathCombine a b w =
      if hasInvalidPathChar a || hasInvalidPathChar b then .abort .exception w
      else .ret (Combine a b) w := rfl

/-- C4 (amended): take an object whose directory path has no character that
`Path::Combine` turns down, and a name that `String::IsNullOrWhiteSpace` does
not take for blank and whose certificate file `pki/<name>.crt` does not exist.
If the name has no such character either, `RevokeCert` returns failure and
leaves the whole world as it was: the files, among them `pki/crl.crt`, the
directories, the console and the record of backend calls.  If the name has
one, and the directory `pki` exists, the `ArgumentException` of
`Path::Combine` leaves `RevokeCert`, again with the world as it was. -/
theorem RevokeCert_missing_certificate (env : Env) (w : World) (name : Str)
    (hname : IsNullOrWhiteSpace (some name) = false)
    (hpath : hasInvalidPathChar w.self.path = false)
    (hcert : w.fs.files (Combine w.self.pkiPath (name ++ ".crt".toList)) = none) :
    (hasInvalidPathChar name = false → RevokeCert env (some name) w = .ret false w) ∧
    (hasInvalidPathChar name = true → w.fs.dirs w.self.pkiPath = true →
      RevokeCert env (some name) w = .abort .exception w) := by
  have hpki : hasInvalidPathChar w.self.pkiPath = false :=
    hasInvalidPathChar_Combine _ _ hpath (by decide)
  have hcrt : hasInvalidPathChar (name ++ ".crt".toList) = hasInvalidPathChar name := by
    rw [hasInvalidPathChar_append]
    have : hasInvalidPathChar ".crt".toList = false := by decide
    rw [this, Bool.or_false]
  constructor
  · intro hn
    unfold RevokeCert
    simp only [bind_apply, getSelf_apply, andThen_ret, DirectoryExists_apply, pure_apply, hname,
      Bool.not_false, if_true]
    split_ifs
    · rfl
    · simp only [bind_apply, pure_apply, andThen_ret]
      split_ifs
      · rfl
      · simp only [bind_apply, pure_apply, andThen_ret, PathCombine_apply, hpki, hcrt, hn,
          Bool.or_false, Bool.false_eq_true, if_false, FileExists_apply, hcert,
          Option.isSome_none, Bool.not_false, if_true]
  · intro hn hdir
    have hne : name ≠ "cert".toList := by
      intro h
      rw [h] at hn
      exact absurd hn (by decide)
    unfold RevokeCert
    simp only [bind_apply, getSelf_apply, andThen_ret, DirectoryExists_apply, pure_apply, hname,
      Bool.not_false, if_true, hdir, Bool.not_true, Bool.false_eq_true, if_false, if_neg hne,
      PathCombine_apply, hpki, hcrt, hn, Bool.or_true, Outcome.andThen]

set_option maxRecDepth 1000000 in
theorem RevokeCert_missing_certificate_witness :
    IsNullOrWhiteSpace (some "alice".toList) = false ∧
    hasInvalidPathChar revokeCaWorld.self.path = false ∧
    revokeCaWorld.fs.files
      (Combine revokeCaWorld.self.pkiPath ("alice".toList ++ ".crt".toList)) = none ∧
    hasInvalidPathChar "alice".toList = false ∧
    RevokeCert sampleEnv (some "alice".toList) revokeCaWorld = .ret false revokeCaWorld :=
  ⟨by rfl, by rfl, by rfl, by rfl,
    (RevokeCert_missing_certificate sampleEnv revokeCaWorld "alice".toList (by rfl) (by rfl)
      (by rfl)).1 (by rfl)⟩

set_option maxRecDepth 1000000 in
/-- C4, the claim as written fails: the name `a|b` is not blank and no file
`pki\a|b.crt` exists, yet `RevokeCert` returns nothing: the
`ArgumentException` of `Path::Combine` leaves the method.  The world is as it
was. -/
theorem RevokeCert_missing_certificate_counterexample :
    IsNullOrWhiteSpace (some "a|b".toList) = false ∧
    revokeCaWorld.fs.files
      (Combine revokeCaWorld.self.pkiPath ("a|b".toList ++ ".crt".toList)) = none ∧
    RevokeCert sampleEnv (some "a|b".toList) revokeCaWorld = .abort .exception revokeCaWorld ∧
    (RevokeCert sampleEnv (some "a|b".toList) revokeCaWorld).result = none ∧
    (RevokeCert sampleEnv (some "a|b".toList) revokeCaWorld).raised = true :=
  ⟨by rfl, by rfl, by rfl, by rfl, by rfl⟩

/-! ## Loading and saving the configuration -/

theorem get?_set_self (d : Dict) (k : Str) (v : Obj) : (d.set k v).get? k = some v := by
  induction d with
  | nil => simp [Dict.set, Dict.get?]
  | cons kv rest ih =>
    obtain ⟨k', v'⟩ := kv
    by_cases h : k' = k
    · simp [Dict.set, Dict.get?, h]
    · simp [Dict.set, Dict.get?, h, ih]

theorem get?_set_ne (d : Dict) (k k' : Str) (v : Obj) (h : k' ≠ k) :
    (d.set k v).get? k' = d.get? k' := by
  induction d with
  | nil => simp [Dict.set, Dict.get?, Ne.symm h]
  | cons kv rest ih =>
    obtain ⟨k0, v0⟩ := kv
    by_cases h0 : k0 = k
    · subst h0
      simp [Dict.set, Dict.get?, Ne.symm h]
    · by_cases h1 : k0 = k'
      · subst h1
        simp [Dict.set, Dict.get?, h0]
      · simp [Dict.set, Dict.get?, h0, h1, ih]

theorem get?_json (d : Dict) (k : Str) : d.json.get? k = (d.get? k).map Obj.json := by
  induction d with
  | nil => rfl
  | cons kv rest ih =>
    obtain ⟨k0, v0⟩ := kv
    by_cases h0 : k0 = k
    · simp [Dict.json, Dict.get?, h0]
    · have ih' : Dict.get? (List.map (fun kv => (kv.1, kv.2.json)) rest) k =
          (Dict.get? rest k).map Obj.json := ih
      simp [Dict.json, Dict.get?, h0, ih']

theorem ToInt32_json (v : Obj) : ToInt32 v.json = ToInt32 v := by
  cases v <;> rfl

theorem castString_json (v : Obj) : castString v.json = castString v := by
  cases v <;> rfl

/-- What `LoadConfig` does with a configuration file that decodes. -/
theorem LoadConfig_apply (env : Env) (w : World) (json : Str) (dict : Dict)
    (c : CertificateSubject) (vs : Obj) (ks vd s : Int) (cv sf : Option Str)
    (hfile : w.fs.files w.self.configPath = some json)
    (hread : w.fs.fails (.read w.self.configPath) = false)
    (hdec : env.jsonDecode json = some dict)
    (hsub : env.subjectFromDict dict = some c)
    (hks : loadedKeySize dict = some ks) (hvd : loadedValidDays dict = some vd)
    (hserial : dict.get? "serial".toList = some vs) (hs : ToInt32 vs = some s)
    (hcv : loadedCurve dict = some cv) (hsf : loadedSuffix dict = some sf) :
    LoadConfig env w = loadIssuer env w.self
      { w with self := { w.self with
          cSubject := some c, config := some dict, keySize := ks, validDays := vd, _serial := s,
          keyAlg := loadedAlgorithm dict, curveName := cv, suffix := sf.getD [] } } := by
  unfold LoadConfig
  simp only [bind_apply, getSelf_apply, andThen_ret, FileExists_apply, hfile, Option.isSome_some,
    Bool.not_true, Bool.false_eq_true, if_false, tryCatch_apply, readFile_apply, hread,
    false_or, Option.getD_some, orThrow_some, hdec, pure_apply, orElse_ret,
    modifySelf_apply, hsub, Option.isNone_some, reduceCtorEq, hserial, hs]
  unfold loadedKeySize at hks
  unfold loadedValidDays at hvd
  unfold loadedCurve at hcv
  unfold loadedSuffix at hsf
  unfold loadedAlgorithm at hcv ⊢
  rcases h4 : dict.get? "algorithm".toList with _ | v4
  · have h7 : True := trivial
    rcases h1 : dict.get? "keysize".toList with _ | v1
    all_goals rcases h2 : dict.get? "validdays".toList with _ | v2
    all_goals rcases h5 : dict.get? "eccurve".toList with _ | v5
    all_goals rcases h6 : dict.get? "suffix".toList with _ | v6
    all_goals simp only [h1, h2, h4, h5, h6, h7, Option.some.injEq] at hks hvd hcv hsf
    all_goals try subst ks
    all_goals try subst vd
    all_goals try subst cv
    all_goals try subst sf
    all_goals simp only [bind_apply, andThen_ret, modifySelf_apply, orThrow_some, pure_apply,
      tryCatch_apply, orElse_ret, orThrow_none, andThen_abort, orElse_exception, getSelf_apply,
      ite_apply_world, *]
    all_goals rfl
  · rcases h7 : ToInt32 v4 with _ | n
    · rcases h1 : dict.get? "keysize".toList with _ | v1
      all_goals rcases h2 : dict.get? "validdays".toList with _ | v2
      all_goals rcases h5 : dict.get? "eccurve".toList with _ | v5
      all_goals rcases h6 : dict.get? "suffix".toList with _ | v6
      all_goals simp only [h1, h2, h4, h5, h6, h7, Option.some.injEq] at hks hvd hcv hsf
      all_goals try subst ks
      all_goals try subst vd
      all_goals try subst cv
      all_goals try subst sf
      all_goals simp only [bind_apply, andThen_ret, modifySelf_apply, orThrow_some, pure_apply,
        tryCatch_apply, orElse_ret, orThrow_none, andThen_abort, orElse_exception, getSelf_apply,
        ite_apply_world, *]
      all_goals rfl
    · rcases h1 : dict.get? "keysize".toList with _ | v1
      all_goals rcases h2 : dict.get? "validdays".toList with _ | v2
      all_goals rcases h5 : dict.get? "eccurve".toList with _ | v5
      all_goals rcases h6 : dict.get? "suffix".toList with _ | v6
      all_goals simp only [h1, h2, h4, h5, h6, h7, Option.some.injEq] at hks hvd hcv hsf
      all_goals try subst ks
      all_goals try subst vd
      all_goals try subst cv
      all_goals try subst sf
      all_goals simp only [bind_apply, andThen_ret, modifySelf_apply, orThrow_some, pure_apply,
        tryCatch_apply, orElse_ret, orThrow_none, andThen_abort, orElse_exception, getSelf_apply,
        ite_apply_world, *]
      all_goals first | rfl | (split_ifs <;> rfl)


theorem loadIssuer_apply (env : Env) (self : Interactive) (w : World) :
    loadIssuer env self w =
      if w.fs.fails (.read self.caPath) = true ∨ w.fs.files self.caPath = none then .ret false w
      else if w.fs.fails (.read self.keyPath) = true ∨ w.fs.files self.keyPath = none then
        .ret false w
      else
        match env.LoadIdentity ((w.fs.files self.caPath).getD [])
            ((w.fs.files self.keyPath).getD []) with
        | none =>
          .ret false { w with calls := w.calls ++
            [.loadIdentity ((w.fs.files self.caPath).getD [])
              ((w.fs.files self.keyPath).getD [])] }
        | some issuer =>
          .ret issuer.isSome { w with
            self := { w.self with Issuer := issuer }
            calls := w.calls ++
              [.loadIdentity ((w.fs.files self.caPath).getD [])
                ((w.fs.files self.keyPath).getD [])] } := by
  unfold loadIssuer
  simp only [bind_apply, attemptRead_apply]
  by_cases h1 : w.fs.fails (.read self.caPath) = true ∨ w.fs.files self.caPath = none
  · rw [if_pos h1, if_pos h1]
    rfl
  rw [if_neg h1, if_neg h1]
  obtain ⟨t, ht⟩ := Option.ne_none_iff_exists'.mp (fun h => h1 (Or.inr h))
  simp only [andThen_ret, ht, bind_apply, attemptRead_apply]
  by_cases h2 : w.fs.fails (.read self.keyPath) = true ∨ w.fs.files self.keyPath = none
  · rw [if_pos h2, if_pos h2]
    rfl
  rw [if_neg h2, if_neg h2]
  obtain ⟨u, hu⟩ := Option.ne_none_iff_exists'.mp (fun h => h2 (Or.inr h))
  simp only [andThen_ret, hu, ht, bind_apply, logCall_apply, Option.getD_some]
  rcases env.LoadIdentity t u with _ | issuer
  · rfl
  · rcases issuer with _ | issuer <;> rfl

theorem SaveConfig_apply (env : Env) (w : World) (d : Dict) (h : w.self.config = some d) :
    SaveConfig env w =
      match env.jsonEncode (savedDict w.self d) with
      | none => .ret false { w with self := { w.self with config := some (savedDict w.self d) } }
      | some json =>
        if w.fs.fails (.write w.self.configPath) = true then
          .ret false { w with self := { w.self with config := some (savedDict w.self d) } }
        else
          .ret true (World.setFile
            { w with self := { w.self with config := some (savedDict w.self d) } }
            w.self.configPath (some json)) := by
  unfold SaveConfig savedDict
  simp only [bind_apply, getSelf_apply, andThen_ret, h, modifySelf_apply, tryCatch_apply]
  rcases env.jsonEncode (Dict.set d "serial".toList (.int w.self._serial)) with _ | json
  · rfl
  · simp only [orThrow_some, andThen_ret, bind_apply, writeFile_apply]
    split_ifs <;> rfl

theorem get?_saved (self : Interactive) (d : Dict) (k : Str) (hk : k ≠ "serial".toList) :
    (savedDict self d).json.get? k = (d.get? k).map Obj.json := by
  unfold savedDict
  rw [get?_json, get?_set_ne _ _ _ _ hk]

theorem get?_saved_serial (self : Interactive) (d : Dict) :
    (savedDict self d).json.get? "serial".toList = some (.int self._serial) := by
  unfold savedDict
  rw [get?_json, get?_set_self]
  rfl

theorem loadedKeySize_saved (self : Interactive) (d : Dict) :
    loadedKeySize (savedDict self d).json = loadedKeySize d := by
  unfold loadedKeySize
  rw [get?_saved _ _ _ (by decide)]
  rcases d.get? "keysize".toList with _ | v
  · rfl
  · exact ToInt32_json v

theorem loadedValidDays_saved (self : Interactive) (d : Dict) :
    loadedValidDays (savedDict self d).json = loadedValidDays d := by
  unfold loadedValidDays
  rw [get?_saved _ _ _ (by decide)]
  rcases d.get? "validdays".toList with _ | v
  · rfl
  · exact ToInt32_json v

theorem loadedAlgorithm_saved (self : Interactive) (d : Dict) :
    loadedAlgorithm (savedDict self d).json = loadedAlgorithm d := by
  unfold loadedAlgorithm
  rw [get?_saved _ _ _ (by decide)]
  rcases d.get? "algorithm".toList with _ | v
  · rfl
  · simp only [Option.map_some', ToInt32_json]

theorem loadedCurve_saved (self : Interactive) (d : Dict) :
    loadedCurve (savedDict self d).json = loadedCurve d := by
  unfold loadedCurve
  rw [get?_saved _ _ _ (by decide), loadedAlgorithm_saved]
  rcases d.get? "eccurve".toList with _ | v
  · rfl
  · exact castString_json v

theorem loadedSuffix_saved (self : Interactive) (d : Dict) :
    loadedSuffix (savedDict self d).json = loadedSuffix d := by
  unfold loadedSuffix
  rw [get?_saved _ _ _ (by decide)]
  rcases d.get? "suffix".toList with _ | v
  · rfl
  · exact castString_json v

theorem config_ne_pki (P x : Str) :
    (P ++ ("pki\\".toList ++ x) = P ++ "config.conf".toList) = False := by
  simp

/-! ## C5: saving and loading again -/

theorem ToInt32_int (n : Int) (h : inInt32 n = true) : ToInt32 (.int n) = some n := by
  show (if inInt32 n = true then some n else none) = some n
  rw [if_pos h]

/-- C5 (amended): when the object agrees with its dictionary and the serial `s` is a
32-bit value, a `SaveConfig` that succeeds stores `s` under the key `serial`,
and `LoadConfig` on the same directory, with a JSON reader that returns what
was written, a loadable subject and a loadable CA, succeeds and restores key
size, validity, algorithm, curve name, suffix and the serial `s`. -/
theorem SaveConfig_LoadConfig_roundtrip (env : Env) (w : World) (d : Dict) (json : Str)
    (c : CertificateSubject) (cert key : Str) (issuer : Identity)
    (hconfig : w.self.config = some d) (hagree : w.self.agrees d)
    (hserial : inInt32 w.self._serial = true)
    (henc : env.jsonEncode (savedDict w.self d) = some json)
    (hdec : env.jsonDecode json = some (savedDict w.self d).json)
    (hsub : env.subjectFromDict (savedDict w.self d).json = some c)
    (hwrite : w.fs.fails (.write w.self.configPath) = false)
    (hread : w.fs.fails (.read w.self.configPath) = false)
    (hca : w.fs.files w.self.caPath = some cert)
    (hcar : w.fs.fails (.read w.self.caPath) = false)
    (hkey : w.fs.files w.self.keyPath = some key)
    (hkeyr : w.fs.fails (.read w.self.keyPath) = false)
    (hload : env.LoadIdentity cert key = some (some issuer)) :
    (SaveConfig env w).result = some true ∧
    (SaveConfig env w).world.fs.files w.self.configPath = some json ∧
    (savedDict w.self d).get? "serial".toList = some (.int w.self._serial) ∧
    (LoadConfig env (SaveConfig env w).world).result = some true ∧
    (LoadConfig env (SaveConfig env w).world).world.self.keySize = w.self.keySize ∧
    (LoadConfig env (SaveConfig env w).world).world.self.validDays = w.self.validDays ∧
    (LoadConfig env (SaveConfig env w).world).world.self.keyAlg = w.self.keyAlg ∧
    (LoadConfig env (SaveConfig env w).world).world.self.curveName = w.self.curveName ∧
    (LoadConfig env (SaveConfig env w).world).world.self.suffix = w.self.suffix ∧
    (LoadConfig env (SaveConfig env w).world).world.self._serial = w.self._serial := by
  obtain ⟨a1, a2, a3, a4, a5⟩ := hagree
  obtain ⟨sf, hsf, hsf'⟩ : ∃ sf, loadedSuffix d = some sf ∧ sf.getD [] = w.self.suffix := by
    rcases h : loadedSuffix d with _ | sf
    · rw [h] at a5
      cases a5
    · rw [h] at a5
      exact ⟨sf, rfl, Option.some.inj a5⟩
  have hsave : SaveConfig env w = .ret true (World.setFile
      { w with self := { w.self with config := some (savedDict w.self d) } }
      w.self.configPath (some json)) := by
    rw [SaveConfig_apply env w d hconfig, henc]
    simp only [hwrite, Bool.false_eq_true, if_false]
  have hfile : (World.setFile
      { w with self := { w.self with config := some (savedDict w.self d) } }
      w.self.configPath (some json)).fs.files w.self.configPath = some json := by
    rw [setFile_files, if_pos rfl]
  have hl := LoadConfig_apply env (World.setFile
      { w with self := { w.self with config := some (savedDict w.self d) } }
      w.self.configPath (some json)) json (savedDict w.self d).json c (.int w.self._serial)
      w.self.keySize w.self.validDays w.self._serial w.self.curveName sf
      hfile hread hdec hsub
      ((loadedKeySize_saved _ _).trans a1) ((loadedValidDays_saved _ _).trans a2)
      (get?_saved_serial _ _) (ToInt32_int _ hserial)
      ((loadedCurve_saved _ _).trans a4) ((loadedSuffix_saved _ _).trans hsf)
  rw [hsave]
  simp only [result_ret, world_ret]
  rw [hl, loadIssuer_apply]
  simp only [setFile_self, setFile_files, setFile_fails, caPath_eq, keyPath_eq, configPath_eq,
    config_ne_pki, if_false]
  rw [caPath_eq] at hca hcar
  rw [keyPath_eq] at hkey hkeyr
  simp only [hca, hcar, hkey, hkeyr, Bool.false_eq_true, reduceCtorEq, or_self, if_false,
    Option.getD_some, hload, result_ret, world_ret, Option.isSome_some, loadedAlgorithm_saved,
    a3, hsf', true_and, and_true]
  refine ⟨?_, ?_⟩
  · rw [if_pos trivial]
  · unfold savedDict
    exact get?_set_self _ _ _

set_option maxRecDepth 1000000 in
theorem SaveConfig_LoadConfig_roundtrip_witness :
    storedWorld.self.agrees storedConfig ∧
    (SaveConfig codecEnv storedWorld).result = some true ∧
    (LoadConfig codecEnv (SaveConfig codecEnv storedWorld).world).result = some true ∧
    (LoadConfig codecEnv (SaveConfig codecEnv storedWorld).world).world.self.keySize = 4096 ∧
    (LoadConfig codecEnv (SaveConfig codecEnv storedWorld).world).world.self.validDays = 365 ∧
    (LoadConfig codecEnv (SaveConfig codecEnv storedWorld).world).world.self.keyAlg
      = Algorithm.EdDSA ∧
    (LoadConfig codecEnv (SaveConfig codecEnv storedWorld).world).world.self.curveName
      = some "ED25519".toList ∧
    (LoadConfig codecEnv (SaveConfig codecEnv storedWorld).world).world.self.suffix
      = "-x".toList ∧
    (LoadConfig codecEnv (SaveConfig codecEnv storedWorld).world).world.self._serial = 7 :=
  have T := SaveConfig_LoadConfig_roundtrip codecEnv storedWorld storedConfig "K".toList
    { CommonName := some "vpn.example.org".toList } "CA-CERT".toList "CA-KEY".toList
    ⟨"CA-CERT".toList, "CA-KEY".toList⟩ (by rfl) ⟨by rfl, by rfl, by rfl, by rfl, by rfl⟩
    (by rfl) (by rfl) (by rfl) (by rfl) (by rfl) (by rfl) (by rfl) (by rfl) (by rfl) (by rfl)
    (by rfl)
  ⟨⟨by rfl, by rfl, by rfl, by rfl, by rfl⟩, T.1, T.2.2.2.1, T.2.2.2.2.1, T.2.2.2.2.2.1,
    T.2.2.2.2.2.2.1, T.2.2.2.2.2.2.2.1, T.2.2.2.2.2.2.2.2.1, T.2.2.2.2.2.2.2.2.2⟩

set_option maxRecDepth 1000000 in
/-- C5 as stated fails: an EdDSA object with the suffix `-s`, whose `LoadConfig`
failed on a configuration without a serial, keeps its algorithm and suffix
beside the dictionary it read; `SaveConfig` then succeeds, and the `LoadConfig`
that follows succeeds with the algorithm RSA and the empty suffix. -/
theorem SaveConfig_LoadConfig_roundtrip_counterexample :
    (LoadConfig serialLessEnv constructedWorld).result = some false ∧
    (LoadConfig serialLessEnv constructedWorld).world.self.keyAlg = Algorithm.EdDSA ∧
    (LoadConfig serialLessEnv constructedWorld).world.self.suffix = "-s".toList ∧
    (SaveConfig serialLessEnv (LoadConfig serialLessEnv constructedWorld).world).result
      = some true ∧
    (LoadConfig serialLessEnv
      (SaveConfig serialLessEnv (LoadConfig serialLessEnv constructedWorld).world).world).result
      = some true ∧
    (LoadConfig serialLessEnv
      (SaveConfig serialLessEnv
        (LoadConfig serialLessEnv constructedWorld).world).world).world.self.keyAlg
      = Algorithm.RSA ∧
    (LoadConfig serialLessEnv
      (SaveConfig serialLessEnv
        (LoadConfig serialLessEnv constructedWorld).world).world).world.self.suffix = [] :=
  ⟨by decide!, by decide!, by decide!, by decide!, by decide!, by decide!, by decide!⟩

/-! ## C6: generating over an existing configuration -/

set_option maxRecDepth 1000000 in
/-- C6 fails in the code: `GenerateNewConfig` takes a failed `LoadConfig` for
the absence of a configuration; on a directory whose `config.conf` decodes but
whose CA files are missing it asks its questions, returns success and writes a
new `config.conf` over the existing one. -/
theorem GenerateNewConfig_overwrites :
    existingConfigWorld.fs.files "d\\config.conf".toList = some "J".toList ∧
    existingConfigWorld.self.configPath = "d\\config.conf".toList ∧
    (LoadConfig rewriteEnv existingConfigWorld).result = some false ∧
    (GenerateNewConfig rewriteEnv existingConfigWorld).result = some true ∧
    (GenerateNewConfig rewriteEnv existingConfigWorld).world.fs.files "d\\config.conf".toList =
      some "NEW".toList :=
  ⟨by rfl, by rfl, by rfl, by decide!, by decide!⟩

/-! ## C7: an identity that could not be written -/

set_option maxRecDepth 1000000 in
/-- C7 fails in the code: the `catch` blocks of `saveIdentity` only print; on a
disk where every write fails `saveIdentity`, and with it
`createNewClientIdentity`, returns success although neither `pki/alice.crt` nor
`pki/alice.key` was written. -/
theorem saveIdentity_ignores_failed_writes :
    (∀ p, readOnlyWorld.fs.fails (.write p) = true) ∧
    (saveIdentity sampleEnv ⟨"CERT alice".toList, "KEY alice".toList⟩ "alice".toList
      readOnlyWorld).result = some true ∧
    (saveIdentity sampleEnv ⟨"CERT alice".toList, "KEY alice".toList⟩ "alice".toList
      readOnlyWorld).world.fs.files "d\\pki\\alice.crt".toList = none ∧
    (saveIdentity sampleEnv ⟨"CERT alice".toList, "KEY alice".toList⟩ "alice".toList
      readOnlyWorld).world.fs.files "d\\pki\\alice.key".toList = none ∧
    (createNewClientIdentity sampleEnv "alice".toList readOnlyWorld).result = some true ∧
    (createNewClientIdentity sampleEnv "alice".toList readOnlyWorld).world.fs.files
      "d\\pki\\alice.crt".toList = none ∧
    (createNewClientIdentity sampleEnv "alice".toList readOnlyWorld).world.fs.files
      "d\\pki\\alice.key".toList = none :=
  ⟨fun _ => rfl, by decide!, by decide!, by decide!, by decide!, by decide!, by decide!⟩

/-! ## C8: the fallback rules of `LoadConfig` -/

theorem loadIssuer_fields (env : Env) (self : Interactive) (w : World) :
    (loadIssuer env self w).result.isSome = true ∧
    (loadIssuer env self w).world.self.keySize = w.self.keySize ∧
    (loadIssuer env self w).world.self.validDays = w.self.validDays ∧
    (loadIssuer env self w).world.self.keyAlg = w.self.keyAlg ∧
    (loadIssuer env self w).world.self.curveName = w.self.curveName ∧
    (loadIssuer env self w).world.self.suffix = w.self.suffix ∧
    (loadIssuer env self w).world.self._serial = w.self._serial := by
  rw [loadIssuer_apply]
  split_ifs
  · exact ⟨rfl, rfl, rfl, rfl, rfl, rfl, rfl⟩
  · exact ⟨rfl, rfl, rfl, rfl, rfl, rfl, rfl⟩
  · rcases env.LoadIdentity ((w.fs.files self.caPath).getD [])
      ((w.fs.files self.keyPath).getD []) with _ | issuer
    · exact ⟨rfl, rfl, rfl, rfl, rfl, rfl, rfl⟩
    · exact ⟨rfl, rfl, rfl, rfl, rfl, rfl, rfl⟩

/-- C8 (amended): when the configuration file decodes to a dictionary with a
subject and a serial, and the entries `keysize`, `validdays`, `eccurve`,
`suffix` that are present convert, `LoadConfig` returns and leaves in the
object: key size 2048, validity 3650, algorithm RSA, the empty suffix and the
curve `ED25519` (for EdDSA) or `secp384r1` (otherwise) for the entry that is
missing, the converted value for the entry that is present, and RSA for an
entry `algorithm` that does not convert, whatever the object held before. -/
theorem LoadConfig_fallbacks (env : Env) (w : World) (json : Str) (dict : Dict)
    (c : CertificateSubject) (vs : Obj) (ks vd s : Int) (cv sf : Option Str)
    (hfile : w.fs.files w.self.configPath = some json)
    (hread : w.fs.fails (.read w.self.configPath) = false)
    (hdec : env.jsonDecode json = some dict)
    (hsub : env.subjectFromDict dict = some c)
    (hks : loadedKeySize dict = some ks) (hvd : loadedValidDays dict = some vd)
    (hserial : dict.get? "serial".toList = some vs) (hs : ToInt32 vs = some s)
    (hcv : loadedCurve dict = some cv) (hsf : loadedSuffix dict = some sf) :
    (LoadConfig env w).result.isSome = true ∧
    (dict.get? "keysize".toList = none → (LoadConfig env w).world.self.keySize = 2048) ∧
    (∀ v, dict.get? "keysize".toList = some v →
      ToInt32 v = some (LoadConfig env w).world.self.keySize) ∧
    (dict.get? "validdays".toList = none → (LoadConfig env w).world.self.validDays = 3650) ∧
    (∀ v, dict.get? "validdays".toList = some v →
      ToInt32 v = some (LoadConfig env w).world.self.validDays) ∧
    (dict.get? "algorithm".toList = none →
      (LoadConfig env w).world.self.keyAlg = Algorithm.RSA) ∧
    (∀ v n, dict.get? "algorithm".toList = some v → ToInt32 v = some n →
      (LoadConfig env w).world.self.keyAlg = ⟨n⟩) ∧
    (∀ v, dict.get? "algorithm".toList = some v → ToInt32 v = none →
      (LoadConfig env w).world.self.keyAlg = Algorithm.RSA) ∧
    (dict.get? "suffix".toList = none → (LoadConfig env w).world.self.suffix = []) ∧
    (∀ v x, dict.get? "suffix".toList = some v → castString v = some (some x) →
      (LoadConfig env w).world.self.suffix = x) ∧
    (dict.get? "eccurve".toList = none →
      (LoadConfig env w).world.self.keyAlg = Algorithm.EdDSA →
      (LoadConfig env w).world.self.curveName = some "ED25519".toList) ∧
    (dict.get? "eccurve".toList = none →
      (LoadConfig env w).world.self.keyAlg ≠ Algorithm.EdDSA →
      (LoadConfig env w).world.self.curveName = some "secp384r1".toList) ∧
    (∀ v, dict.get? "eccurve".toList = some v →
      castString v = some (LoadConfig env w).world.self.curveName) := by
  rw [LoadConfig_apply env w json dict c vs ks vd s cv sf hfile hread hdec hsub hks hvd hserial hs
    hcv hsf]
  obtain ⟨f0, f1, f2, f3, f4, f5, _⟩ := loadIssuer_fields env w.self
    { w with self := { w.self with
        cSubject := some c, config := some dict, keySize := ks, validDays := vd, _serial := s,
        keyAlg := loadedAlgorithm dict, curveName := cv, suffix := sf.getD [] } }
  rw [f1, f2, f3, f4, f5]
  refine ⟨f0, ?_, ?_, ?_, ?_, ?_, ?_, ?_, ?_, ?_, ?_, ?_, ?_⟩
  · intro h
    unfold loadedKeySize at hks
    rw [h] at hks
    exact (Option.some.inj hks).symm
  · intro v h
    unfold loadedKeySize at hks
    rw [h] at hks
    exact hks
  · intro h
    unfold loadedValidDays at hvd
    rw [h] at hvd
    exact (Option.some.inj hvd).symm
  · intro v h
    unfold loadedValidDays at hvd
    rw [h] at hvd
    exact hvd
  · intro h
    show loadedAlgorithm dict = _
    unfold loadedAlgorithm
    rw [h]
  · intro v n h hn
    show loadedAlgorithm dict = _
    unfold loadedAlgorithm
    rw [h]
    simp only [hn]
  · intro v h hn
    show loadedAlgorithm dict = _
    unfold loadedAlgorithm
    rw [h]
    simp only [hn]
  · intro h
    unfold loadedSuffix at hsf
    rw [h] at hsf
    show sf.getD [] = []
    rw [← Option.some.inj hsf]
    rfl
  · intro v x h hx
    unfold loadedSuffix at hsf
    rw [h] at hsf
    have hsf' : castString v = some sf := hsf
    rw [hx] at hsf'
    show sf.getD [] = x
    rw [← Option.some.inj hsf']
    rfl
  · intro h ha
    unfold loadedCurve at hcv
    rw [h] at hcv
    have ha' : loadedAlgorithm dict = Algorithm.EdDSA := ha
    rw [if_pos ha'] at hcv
    exact (Option.some.inj hcv).symm
  · intro h ha
    unfold loadedCurve at hcv
    rw [h] at hcv
    have ha' : ¬ loadedAlgorithm dict = Algorithm.EdDSA := ha
    rw [if_neg ha'] at hcv
    exact (Option.some.inj hcv).symm
  · intro v h
    unfold loadedCurve at hcv
    rw [h] at hcv
    exact hcv

set_option maxRecDepth 1000000 in
theorem LoadConfig_fallbacks_witness :
    constructedWorld.self.keySize = 4096 ∧
    constructedWorld.self.keyAlg = Algorithm.EdDSA ∧
    (LoadConfig sampleEnv constructedWorld).result.isSome = true ∧
    (LoadConfig sampleEnv constructedWorld).world.self.keySize = 2048 ∧
    (LoadConfig sampleEnv constructedWorld).world.self.validDays = 3650 ∧
    (LoadConfig sampleEnv constructedWorld).world.self.keyAlg = Algorithm.RSA ∧
    (LoadConfig sampleEnv constructedWorld).world.self.suffix = [] :=
  have T := LoadConfig_fallbacks sampleEnv constructedWorld "J".toList
    [("cn".toList, .str "vpn.example.org".toList), ("serial".toList, .int 0)]
    { CommonName := some "vpn.example.org".toList } (.int 0) 2048 3650 0
    (some "secp384r1".toList) (some []) (by rfl) (by rfl) (by rfl) (by rfl) (by rfl) (by rfl)
    (by rfl) (by rfl) (by rfl) (by rfl)
  ⟨by rfl, by rfl, T.1, T.2.1 (by rfl), T.2.2.2.1 (by rfl), T.2.2.2.2.2.1 (by rfl),
    T.2.2.2.2.2.2.2.2.1 (by rfl)⟩

set_option maxRecDepth 1000000 in
/-- C8 as stated fails: with an entry `keysize` that is no number `LoadConfig`
raises an exception and leaves the key size and the suffix of the constructor,
although `keysize` is present and `suffix` is missing; and with an entry
`algorithm` that is no number it returns success with the default RSA. -/
theorem LoadConfig_fallbacks_counterexample :
    constructedWorld.self.keySize = 4096 ∧
    constructedWorld.self.suffix = "-s".toList ∧
    (LoadConfig (dictEnv [("cn".toList, .str "vpn.example.org".toList),
      ("serial".toList, .int 0), ("keysize".toList, .str "abc".toList)])
      constructedWorld).result = none ∧
    (LoadConfig (dictEnv [("cn".toList, .str "vpn.example.org".toList),
      ("serial".toList, .int 0), ("keysize".toList, .str "abc".toList)])
      constructedWorld).world.self.keySize = 4096 ∧
    (LoadConfig (dictEnv [("cn".toList, .str "vpn.example.org".toList),
      ("serial".toList, .int 0), ("keysize".toList, .str "abc".toList)])
      constructedWorld).world.self.suffix = "-s".toList ∧
    (LoadConfig (dictEnv [("cn".toList, .str "vpn.example.org".toList),
      ("serial".toList, .int 0), ("algorithm".toList, .str "abc".toList)])
      constructedWorld).result = some true ∧
    (LoadConfig (dictEnv [("cn".toList, .str "vpn.example.org".toList),
      ("serial".toList, .int 0), ("algorithm".toList, .str "abc".toList)])
      constructedWorld).world.self.keyAlg = Algorithm.RSA :=
  ⟨by rfl, by rfl, by decide!, by decide!, by decide!, by decide!, by decide!⟩

/-! ## C10: the CA files after CreateNewIssuer -/

/-- C10 fails in the code, by the slip of C7: whatever the getter of `Serial`
does, when it returns the serial `s` and the backend makes the CA with it,
`CreateNewIssuer` returns success and holds the new issuer although the writes
of `pki/ca.crt` and `pki/ca.key` failed: no file on the disk was written. -/
theorem CreateNewIssuer_unwritten_ca (serialGetter : M Int) (env : Env) (w w1 : World)
    (subject : CertificateSubject) (s : Int) (identity : Identity) (cert key : Str)
    (hsubject : w.self.cSubject = some subject)
    (hserial : serialGetter w = .ret s w1)
    (hca : env.CreateCAAndKey subject w.self.keyAlg w.self.keySize w.self.curveName
      w.self.validDays s = some identity)
    (hcert : env.CertAsPEM identity.cert = some cert)
    (hkey : env.KeyAsPEM identity.key = some key)
    (hwc : w1.fs.fails (.write w1.self.caPath) = true)
    (hwk : w1.fs.fails (.write w1.self.keyPath) = true) :
    (CreateNewIssuerWith serialGetter env w).result = some true ∧
    (CreateNewIssuerWith serialGetter env w).world.calls =
      w1.calls ++ [.createCA subject w.self.keyAlg s] ∧
    (CreateNewIssuerWith serialGetter env w).world.self.Issuer = some identity ∧
    (CreateNewIssuerWith serialGetter env w).world.fs.files = w1.fs.files := by
  have h : CreateNewIssuerWith serialGetter env w =
      saveIdentity env identity "ca".toList
        { w1 with
          self := { w1.self with Issuer := some identity }
          calls := w1.calls ++ [.createCA subject w.self.keyAlg s] } := by
    unfold CreateNewIssuerWith
    simp only [bind_apply, getSelf_apply, andThen_ret, hsubject, tryCatch_apply, hserial,
      pure_apply, orElse_ret, logCall_apply, hca, modifySelf_apply]
  rw [h, saveIdentity_apply, hcert, hkey]
  refine ⟨rfl, by simp [Outcome.world], by simp [Outcome.world], ?_⟩
  funext q
  simp only [Outcome.world, tryWrite_files, tryWrite_fails, tryMkdir_fails, tryMkdir_files]
  have e1 : Combine w1.self.pkiPath ("ca".toList ++ ".crt".toList) = w1.self.caPath := rfl
  have e2 : Combine w1.self.pkiPath ("ca".toList ++ ".key".toList) = w1.self.keyPath := rfl
  show (if q = Combine w1.self.pkiPath ("ca".toList ++ ".key".toList) ∧
        w1.fs.fails (.write (Combine w1.self.pkiPath ("ca".toList ++ ".key".toList))) = false
      then some key
      else if q = Combine w1.self.pkiPath ("ca".toList ++ ".crt".toList) ∧
        w1.fs.fails (.write (Combine w1.self.pkiPath ("ca".toList ++ ".crt".toList))) = false
      then some cert else w1.fs.files q) = w1.fs.files q
  rw [e1, e2, hwc, hwk]
  simp

set_option maxRecDepth 1000000 in
theorem CreateNewIssuer_unwritten_ca_witness :
    lockedPkiWorld.fs.fails (.write lockedPkiWorld.self.configPath) = false ∧
    lockedPkiWorld.fs.fails (.write lockedPkiWorld.self.caPath) = true ∧
    lockedPkiWorld.fs.fails (.write lockedPkiWorld.self.keyPath) = true ∧
    lockedPkiWorld.fs.files lockedPkiWorld.self.caPath = none ∧
    lockedPkiWorld.fs.files lockedPkiWorld.self.keyPath = none ∧
    (CreateNewIssuer sampleEnv lockedPkiWorld).result = some true ∧
    (CreateNewIssuer sampleEnv lockedPkiWorld).world.calls =
      [.createCA { CommonName := some "vpn.example.org".toList } Algorithm.RSA 0] ∧
    (CreateNewIssuer sampleEnv lockedPkiWorld).world.self.Issuer =
      some ⟨"CA-CERT".toList, "CA-KEY".toList⟩ ∧
    (CreateNewIssuer sampleEnv lockedPkiWorld).world.fs.files lockedPkiWorld.self.caPath
      = none ∧
    (CreateNewIssuer sampleEnv lockedPkiWorld).world.fs.files lockedPkiWorld.self.keyPath
      = none :=
  have T := CreateNewIssuer_unwritten_ca Serial sampleEnv lockedPkiWorld
    { lockedPkiWorld with self := { lockedPkiWorld.self with _serial := 1 } }
    { CommonName := some "vpn.example.org".toList } 0 ⟨"CA-CERT".toList, "CA-KEY".toList⟩
    "CA-CERT".toList "CA-KEY".toList rfl rfl rfl rfl rfl rfl rfl
  have e : CreateNewIssuer sampleEnv = CreateNewIssuerWith Serial sampleEnv := rfl
  ⟨by rfl, by rfl, by rfl, by rfl, by rfl, T.1, T.2.1, T.2.2.1, by rw [e, T.2.2.2]; rfl,
    by rw [e, T.2.2.2]; rfl⟩

/-! ## C11: the subject of an issuance -/

theorem createNewClientIdentity_apply (env : Env) (name : Str) (w : World) :
    createNewClientIdentity env name w =
      match w.self.Issuer, w.self.cSubject with
      | some issuer, some c =>
        match env.CreateCertKeyBundle { c with CommonName := some name } issuer
            w.self.keyAlg w.self.keySize w.self.curveName w.self.validDays w.self._serial false with
        | none => .ret false
            { w with
              self := { w.self with
                cSubject := some { c with CommonName := some name }
                _serial := wrapInt32 (w.self._serial + 1) }
              calls := w.calls ++
                [.createBundle { c with CommonName := some name } w.self._serial false] }
        | some identity => saveIdentity env identity name
            { w with
              self := { w.self with
                cSubject := some { c with CommonName := some name }
                _serial := wrapInt32 (w.self._serial + 1) }
              calls := w.calls ++
                [.createBundle { c with CommonName := some name } w.self._serial false] }
      | _, _ => .ret false w := by
  rcases w with ⟨⟨path, keySize, validDays, keyAlg, curveName, suffix, cSubject, config, serial,
    Issuer⟩, fs, stdin, calls⟩
  unfold createNewClientIdentity verifyRequirements
  rcases Issuer with _ | issuer
  · rfl
  · rcases cSubject with _ | c
    · rfl
    · simp only [bind_apply, getSelf_apply, andThen_ret, Option.isNone, pure_apply,
        Bool.false_eq_true, if_false, Bool.not_false, Bool.not_true, modifySelf_apply, Option.map,
        Serial_apply, logCall_apply, ite_apply_world]
      rcases env.CreateCertKeyBundle { c with CommonName := some name } issuer
          keyAlg keySize curveName validDays serial false with _ | identity
      · rfl
      · rfl

theorem saveIdentity_calls (env : Env) (identity : Identity) (name : Str) (w : World) :
    (saveIdentity env identity name w).world.calls = w.calls := by
  rw [saveIdentity_apply]
  rcases env.CertAsPEM identity.cert with _ | cert
  · simp
  · rcases env.KeyAsPEM identity.key with _ | key <;> simp

/-- C11 (amended): `createNewClientIdentity(name)` and `createNewServerIdentity()`
do not work on a clone: when issuer and subject are loaded, the subject held by
the object has afterwards the common name `name` (`server`), its other fields
as before, and it is this subject that went to the backend; without issuer or
subject nothing changes.  The configuration dictionary stays as it was. -/
theorem issuance_overrides_common_name (env : Env) (name : Str) (w : World) :
    (createNewClientIdentity env name w).world.self.cSubject =
      (if w.self.Issuer.isSome = true then
        w.self.cSubject.map (fun c => { c with CommonName := some name })
      else w.self.cSubject) ∧
    (createNewServerIdentity env w).world.self.cSubject =
      (if w.self.Issuer.isSome = true then
        w.self.cSubject.map (fun c => { c with CommonName := some "server".toList })
      else w.self.cSubject) ∧
    (createNewClientIdentity env name w).world.calls =
      (match w.self.Issuer, w.self.cSubject with
      | some _, some c =>
        w.calls ++ [.createBundle { c with CommonName := some name } w.self._serial false]
      | _, _ => w.calls) ∧
    (createNewServerIdentity env w).world.calls =
      (match w.self.Issuer, w.self.cSubject with
      | some _, some c =>
        w.calls ++
          [.createBundle { c with CommonName := some "server".toList } w.self._serial true]
      | _, _ => w.calls) ∧
    (createNewClientIdentity env name w).world.self.config = w.self.config ∧
    (createNewServerIdentity env w).world.self.config = w.self.config := by
  rw [createNewClientIdentity_apply, createNewServerIdentity_apply]
  rcases hI : w.self.Issuer with _ | issuer
  · rcases hc : w.self.cSubject with _ | c <;> simp [hI, hc]
  rcases hc : w.self.cSubject with _ | c
  · simp [hI, hc]
  simp only [Option.isSome_some, if_true, Option.map_some']
  rcases env.CreateCertKeyBundle { c with CommonName := some name } issuer
      w.self.keyAlg w.self.keySize w.self.curveName w.self.validDays w.self._serial false
    with _ | i1 <;>
  rcases env.CreateCertKeyBundle { c with CommonName := some "server".toList } issuer
      w.self.keyAlg w.self.keySize w.self.curveName w.self.validDays w.self._serial true
    with _ | i2 <;>
  simp [saveIdentity_self, saveIdentity_calls, -String.toList]

set_option maxRecDepth 1000000 in
/-- C11 as stated fails: on the sample directory, whose subject has the common
name `vpn.example.org`, `createNewClientIdentity("alice")` returns success and
leaves the subject of the object with the common name `alice`, and
`createNewServerIdentity()` leaves it with `server`. -/
theorem issuance_overrides_common_name_counterexample :
    ecdsaWorld.self.cSubject = some { CommonName := some "vpn.example.org".toList } ∧
    (createNewClientIdentity sampleEnv "alice".toList ecdsaWorld).result = some true ∧
    (createNewClientIdentity sampleEnv "alice".toList ecdsaWorld).world.self.cSubject =
      some { CommonName := some "alice".toList } ∧
    (createNewServerIdentity sampleEnv ecdsaWorld).result = some true ∧
    (createNewServerIdentity sampleEnv ecdsaWorld).world.self.cSubject =
      some { CommonName := some "server".toList } :=
  ⟨by rfl, by decide!, by decide!, by decide!, by decide!⟩

/-! ## C12: the DNS lines of the server configuration -/

theorem filter_map_all {α β : Type} (p : β → Bool) (f : α → β) (l : List α)
    (h : ∀ x, p (f x) = true) : (l.map f).filter p = l.map f := by
  induction l with
  | nil => rfl
  | cons x xs ih => simp [List.filter, h x, ih]

set_option maxRecDepth 100000 in
theorem serverLines_dnsPush (self : Interactive) (crl : Bool) (proto port : Str) :
    (serverLines self crl proto port).filter
        (fun l => "push \"dhcp-option DNS ".toList.isPrefixOf l) = serverLinesDns self := by
  have h1 : (serverLinesHead self proto).filter
      (fun l => "push \"dhcp-option DNS ".toList.isPrefixOf l) = [] := rfl
  have h2 : (serverLinesCrl self crl).filter
      (fun l => "push \"dhcp-option DNS ".toList.isPrefixOf l) = [] := by
    unfold serverLinesCrl; split <;> rfl
  have h3 : (serverLinesAlg self).filter
      (fun l => "push \"dhcp-option DNS ".toList.isPrefixOf l) = [] := by
    unfold serverLinesAlg
    split
    · rfl
    · split <;> rfl
  have h4 : (serverLinesMid port).filter
      (fun l => "push \"dhcp-option DNS ".toList.isPrefixOf l) = [] := rfl
  have h5 : (serverLinesRedirect self).filter
      (fun l => "push \"dhcp-option DNS ".toList.isPrefixOf l) = [] := by
    unfold serverLinesRedirect; split <;> rfl
  have h6 : serverLinesTail.filter
      (fun l => "push \"dhcp-option DNS ".toList.isPrefixOf l) = [] := rfl
  have h7 : (serverLinesDns self).filter
      (fun l => "push \"dhcp-option DNS ".toList.isPrefixOf l) = serverLinesDns self := by
    unfold serverLinesDns
    apply filter_map_all
    intro d
    simp [List.isPrefixOf]
  unfold serverLines
  simp only [List.filter_append, h1, h2, h3, h4, h5, h6, h7, List.append_nil, List.nil_append]

/-- The DNS lines of a written server configuration: when `CreateServerConfig`
succeeds and the suffix, the curve name and the DNS entries hold neither a
brace nor a line feed and the port no line feed, the lines of the file that
begin with `push "dhcp-option DNS ` are the lines `push "dhcp-option DNS <d>"`
for the entries `d` that the cast `(List<String^>^)config["dns"]` gives, in the
order of the list. -/
theorem dnsLines_of_written_config (env : Env) (w w' : World)
    (hok : CreateServerConfig env w = .ret true w') (hplain : w.self.plainValues = true) :
    ∃ text, w'.fs.files w.self.serverConfPath = some text ∧
      directiveLines "push \"dhcp-option DNS ".toList text =
        (dnsList w.self.config).map
          (fun d => "push \"dhcp-option DNS ".toList ++ d ++ "\"".toList) := by
  obtain ⟨crl, proto, port, hfile, hlines, -⟩ := CreateServerConfig_text env w w' hok hplain
  refine ⟨_, hfile, ?_⟩
  unfold directiveLines
  rw [hlines, List.filter_append, serverLines_dnsPush]
  unfold serverLinesDns
  simp [List.isPrefixOf]

theorem dnsList_json (d : Dict) : dnsList (some d.json) = [] := by
  unfold dnsList
  simp only [get?_json]
  rcases d.get? "dns".toList with _ | v
  · rfl
  · cases v <;> rfl

/-- C12 fails in the code: a configuration that was read back from its JSON
text holds the DNS list as a JSON array, the cast `(List<String^>^)config["dns"]`
raises, and the empty `catch` swallows it: a server configuration written from
such a configuration has no line that begins with `push "dhcp-option DNS `,
whatever the configured list was. -/
theorem CreateServerConfig_drops_loaded_dns (env : Env) (w w' : World) (d : Dict)
    (hconfig : w.self.config = some d.json)
    (hok : CreateServerConfig env w = .ret true w')
    (hplain : w.self.plainValues = true) :
    ∃ text, w'.fs.files w.self.serverConfPath = some text ∧
      directiveLines "push \"dhcp-option DNS ".toList text = [] := by
  obtain ⟨text, hfile, hlines⟩ := dnsLines_of_written_config env w w' hok hplain
  refine ⟨text, hfile, ?_⟩
  rw [hlines, hconfig, dnsList_json]
  rfl

set_option maxRecDepth 1000000 in
theorem CreateServerConfig_drops_loaded_dns_witness :
    dnsList storedWorld.self.config = ["1.1.1.1".toList, "1.0.0.1".toList] ∧
    (∃ text,
      (CreateServerConfig codecEnv storedWorld).world.fs.files storedWorld.self.serverConfPath =
        some text ∧
      directiveLines "push \"dhcp-option DNS ".toList text =
        ["push \"dhcp-option DNS 1.1.1.1\"".toList,
         "push \"dhcp-option DNS 1.0.0.1\"".toList]) ∧
    (SaveConfig codecEnv storedWorld).result = some true ∧
    (LoadConfig codecEnv (SaveConfig codecEnv storedWorld).world).result = some true ∧
    (LoadConfig codecEnv (SaveConfig codecEnv storedWorld).world).world.self.config =
      some storedConfig.json ∧
    (CreateServerConfig codecEnv
      (LoadConfig codecEnv (SaveConfig codecEnv storedWorld).world).world).result = some true ∧
    (LoadConfig codecEnv (SaveConfig codecEnv storedWorld).world).world.self.plainValues
      = true ∧
    ∃ text,
      (CreateServerConfig codecEnv
        (LoadConfig codecEnv (SaveConfig codecEnv storedWorld).world).world).world.fs.files
          (LoadConfig codecEnv (SaveConfig codecEnv storedWorld).world).world.self.serverConfPath
        = some text ∧
      directiveLines "push \"dhcp-option DNS ".toList text = [] :=
  ⟨by decide!, ⟨_, rfl, by decide!⟩, by decide!, by decide!, by decide!, by decide!, by decide!,
    CreateServerConfig_drops_loaded_dns codecEnv
      (LoadConfig codecEnv (SaveConfig codecEnv storedWorld).world).world _ storedConfig
      (by decide!) (ret_of_result _ _ (by decide!)) (by decide!)⟩

/-! ## C13: the working directory of a client configuration -/

set_option maxRecDepth 1000000 in
/-- C13 fails in the code: the call of `createVisz` stands outside every `try`;
when writing the archive raises, `CreateNewClientConfig` ends by that exception
and the working directory `d\alice` stays, with the client configuration and
the private key in it.  When the archive is written the directory is removed. -/
theorem CreateNewClientConfig_leaves_directory :
    (CreateNewClientConfig sampleEnv (some "alice".toList) packFailWorld).raised = true ∧
    (CreateNewClientConfig sampleEnv (some "alice".toList) packFailWorld).world.fs.dirs
      "d\\alice".toList = true ∧
    ((CreateNewClientConfig sampleEnv (some "alice".toList) packFailWorld).world.fs.files
      "d\\alice\\config.conf".toList).isSome = true ∧
    (CreateNewClientConfig sampleEnv (some "alice".toList) packFailWorld).world.fs.files
      "d\\alice\\alice.key".toList = some "KEY alice".toList ∧
    (CreateNewClientConfig sampleEnv (some "alice".toList) ecdsaWorld).result = some true ∧
    (CreateNewClientConfig sampleEnv (some "alice".toList) ecdsaWorld).world.fs.dirs
      "d\\alice".toList = false ∧
    ((CreateNewClientConfig sampleEnv (some "alice".toList) ecdsaWorld).world.fs.files
      "d\\clients\\alice.visz".toList).isSome = true :=
  ⟨by decide!, by decide!, by decide!, by decide!, by decide!, by decide!, by decide!⟩

/-! ## C14: the prompt loop -/

theorem askQuestion_eq (allowedBlank hasDefault : Bool) (w : World) :
    askQuestion allowedBlank hasDefault w =
      loopFuel (askRound allowedBlank hasDefault) (w.stdin.length + 1) w := rfl

theorem loopFuel_ret_some {α : Type} (body : M (Option α)) (n : Nat) (w w' : World) (a : α)
    (h : body w = .ret (some a) w') : loopFuel body (n + 1) w = .ret a w' := by
  simp only [loopFuel, h]

theorem loopFuel_ret_none {α : Type} (body : M (Option α)) (n : Nat) (w w' : World)
    (h : body w = .ret none w') : loopFuel body (n + 1) w = loopFuel body n w' := by
  simp only [loopFuel, h]

theorem askRound_cons (allowedBlank hasDefault : Bool) (w : World) (x : Str) (xs : List Str)
    (h : w.stdin = x :: xs) :
    askRound allowedBlank hasDefault w =
      .ret (if rejectedLine allowedBlank hasDefault (some x) = true then none else some (some x))
        { w with stdin := xs } := by
  unfold askRound rejectedLine ReadLine
  simp only [bind_apply, h, andThen_ret]
  cases hasDefault <;> cases allowedBlank <;>
    by_cases h1 : IsNullOrWhiteSpace (some x) = true <;>
    by_cases h2 : x = ".".toList <;>
    simp [h1, h2, -String.toList] <;> split <;> rfl

theorem loopFuel_ask (allowedBlank hasDefault : Bool) (pre : List Str) (l : Str)
    (rest : List Str)
    (hpre : ∀ x ∈ pre, rejectedLine allowedBlank hasDefault (some x) = true)
    (hl : rejectedLine allowedBlank hasDefault (some l) = false) :
    ∀ (n : Nat) (w : World), pre.length < n → w.stdin = pre ++ l :: rest →
      loopFuel (askRound allowedBlank hasDefault) n w = .ret (some l) { w with stdin := rest } := by
  induction pre with
  | nil =>
    intro n w hn hw
    cases n with
    | zero => exact absurd hn (Nat.lt_irrefl 0)
    | succ m =>
      rw [loopFuel_ret_some _ _ _ _ _ (by rw [askRound_cons _ _ w l rest hw, hl]; rfl)]
  | cons x pre ih =>
    intro n w hn hw
    cases n with
    | zero => exact absurd hn (Nat.not_lt_zero _)
    | succ m =>
      rw [loopFuel_ret_none _ _ _ _ (by
        rw [askRound_cons _ _ w x (pre ++ l :: rest) hw, hpre x (List.mem_cons_self _ _)]; rfl)]
      exact ih (fun y hy => hpre y (List.mem_cons_of_mem _ hy)) m _
        (Nat.lt_of_succ_lt_succ hn) rfl

/-- C14: when the console input is lines that are rejected, then a line `l`
that is not, then anything, `askQuestion` returns `l` and leaves exactly the
lines after `l` unread; a line is rejected exactly when it is white space and
`hasDefault` is false, or it is `.` and `allowedBlank` is false, so the answer
is not blank without a default and not `.` when blanks are not allowed; the
overload with two arguments is `askQuestion` with `hasDefault = true`. -/
theorem askQuestion_first_acceptable (allowedBlank hasDefault : Bool) (w : World)
    (pre : List Str) (l : Str) (rest : List Str)
    (hstdin : w.stdin = pre ++ l :: rest)
    (hpre : ∀ x ∈ pre, rejectedLine allowedBlank hasDefault (some x) = true)
    (hl : rejectedLine allowedBlank hasDefault (some l) = false) :
    askQuestion allowedBlank hasDefault w = .ret (some l) { w with stdin := rest } ∧
    (hasDefault = false → IsNullOrWhiteSpace (some l) = false) ∧
    (allowedBlank = false → l ≠ ".".toList) ∧
    askQuestion2 allowedBlank = askQuestion allowedBlank true := by
  refine ⟨?_, ?_, ?_, rfl⟩
  · rw [askQuestion_eq]
    apply loopFuel_ask allowedBlank hasDefault pre l rest hpre hl
    · rw [hstdin, List.length_append, List.length_cons]
      omega
    · exact hstdin
  · intro h
    subst h
    unfold rejectedLine at hl
    simp only [Bool.not_false, Bool.and_true, Bool.or_eq_false_iff] at hl
    exact hl.1
  · intro h
    subst h
    unfold rejectedLine at hl
    intro hdot
    subst hdot
    simp at hl

set_option maxRecDepth 1000000 in
theorem askQuestion_first_acceptable_witness :
    (∀ x ∈ ["  ".toList, [], [Char.ofNat 0x3000]], rejectedLine true false (some x) = true) ∧
    rejectedLine true false (some "vpn.example.org".toList) = false ∧
    askQuestion true false
        { ecdsaWorld with
          stdin := ["  ".toList, [], [Char.ofNat 0x3000], "vpn.example.org".toList,
            "1194".toList] } =
      .ret (some "vpn.example.org".toList)
        { { ecdsaWorld with
            stdin := ["  ".toList, [], [Char.ofNat 0x3000], "vpn.example.org".toList,
              "1194".toList] } with
          stdin := ["1194".toList] } :=
  ⟨by decide, by decide,
    (askQuestion_first_acceptable true false
      { ecdsaWorld with
        stdin := ["  ".toList, [], [Char.ofNat 0x3000], "vpn.example.org".toList,
          "1194".toList] }
      ["  ".toList, [], [Char.ofNat 0x3000]] "vpn.example.org".toList ["1194".toList] rfl
      (by decide) (by decide)).1⟩

/-! ## C15: the port prompt -/

theorem askQuestion2_dots (dots : List Str) (y : Str) (rest : List Str) (w : World)
    (hd : ∀ x ∈ dots, x = ".".toList) (hy : y ≠ ".".toList)
    (hw : w.stdin = dots ++ y :: rest) :
    askQuestion2 false w = .ret (some y) { w with stdin := rest } := by
  show askQuestion false true w = _
  rw [askQuestion_eq]
  apply loopFuel_ask false true dots y rest
  · intro x hx
    rw [hd x hx]
    rfl
  · unfold rejectedLine
    simp [hy, -String.toList]
  · rw [hw, List.length_append, List.length_cons]
    omega
  · exact hw

/-- What a round of the port prompt gives for the answer `y`. -/
theorem portRound_step (env : Env) (dots : List Str) (y : Str) (rest : List Str) (w : World)
    (hd : ∀ x ∈ dots, x = ".".toList) (hy : y ≠ ".".toList)
    (hw : w.stdin = dots ++ y :: rest) :
    portRound env w =
      .ret (if portAccepted y = true then some (if y = [] then env.defaultPort else y) else none)
        { w with stdin := rest } := by
  unfold portRound
  simp only [bind_apply, askQuestion2_dots dots y rest w hd hy hw, andThen_ret]
  unfold portAccepted
  by_cases h0 : y = []
  · subst h0
    simp
  · have h0' : ¬ (some y = some ([] : Str)) := fun h => h0 (Option.some.inj h)
    simp only [h0', if_false, h0, decide_False, Bool.false_or, Option.getD_some]
    rcases parseInt32 (some y) with _ | p
    · rfl
    · by_cases h1 : 0 < p <;> by_cases h2 : p < 65535 <;> simp [h1, h2]

theorem portAccepted_dot : portAccepted ".".toList = false := by decide

theorem loopFuel_port (env : Env) (l : Str) (rest : List Str) (hl : portAccepted l = true) :
    ∀ (pre dots : List Str) (n : Nat) (w : World),
      (∀ x ∈ dots, x = ".".toList) → (∀ x ∈ pre, portAccepted x = false) →
      pre.length < n → w.stdin = dots ++ (pre ++ l :: rest) →
      loopFuel (portRound env) n w =
        .ret (if l = [] then env.defaultPort else l) { w with stdin := rest } := by
  have hldot : l ≠ ".".toList := by
    intro h
    rw [h, portAccepted_dot] at hl
    cases hl
  intro pre
  induction pre with
  | nil =>
    intro dots n w hd _ hn hw
    cases n with
    | zero => exact absurd hn (Nat.lt_irrefl 0)
    | succ m =>
      apply loopFuel_ret_some
      rw [portRound_step env dots l rest w hd hldot hw, if_pos hl]
  | cons x pre ih =>
    intro dots n w hd hpre hn hw
    by_cases hx : x = ".".toList
    · apply ih (dots ++ [x]) n w
      · intro z hz
        rcases List.mem_append.mp hz with h | h
        · exact hd z h
        · rw [List.mem_singleton.mp h, hx]
      · exact fun z hz => hpre z (List.mem_cons_of_mem _ hz)
      · exact Nat.lt_of_succ_lt hn
      · rw [hw]
        simp
    · cases n with
      | zero => exact absurd hn (Nat.not_lt_zero _)
      | succ m =>
        rw [loopFuel_ret_none (portRound env) m w { w with stdin := pre ++ l :: rest }]
        · exact ih [] m _ (fun _ h => absurd h (List.not_mem_nil _))
            (fun z hz => hpre z (List.mem_cons_of_mem _ hz)) (Nat.lt_of_succ_lt_succ hn) rfl
        · rw [portRound_step env dots x (pre ++ l :: rest) w hd hx hw,
            hpre x (List.mem_cons_self _ _)]
          rfl

theorem askPort_first_accepted (env : Env) (w : World) (pre : List Str) (l : Str)
    (rest : List Str) (hw : w.stdin = pre ++ l :: rest)
    (hpre : ∀ x ∈ pre, portAccepted x = false) (hl : portAccepted l = true) :
    askPort env w = .ret (if l = [] then env.defaultPort else l) { w with stdin := rest } := by
  show loopFuel (portRound env) (w.stdin.length + 1) w = _
  apply loopFuel_port env l rest hl pre [] _ w (fun _ h => absurd h (List.not_mem_nil _)) hpre
  · rw [hw, List.length_append, List.length_cons]
    omega
  · exact hw

theorem loopFuel_ret_inv {α : Type} (body : M (Option α)) (a : α) (w' : World) :
    ∀ (n : Nat) (w : World), loopFuel body n w = .ret a w' →
      ∃ w0, body w0 = .ret (some a) w' := by
  intro n
  induction n with
  | zero =>
    intro w h
    cases h
  | succ m ih =>
    intro w h
    rcases hb : body w with ⟨_ | x, w1⟩ | ⟨e, w1⟩
    · rw [loopFuel_ret_none body m w w1 hb] at h
      exact ih w1 h
    · rw [loopFuel_ret_some body m w w1 x hb] at h
      cases h
      exact ⟨w, hb⟩
    · simp only [loopFuel, hb] at h
      cases h

/-- The port that a round of the prompt gives is the default port or an answer
that reads as a number above 0 and below 65535. -/
theorem portRound_ret (env : Env) (w0 w1 : World) (port : Str)
    (h : portRound env w0 = .ret (some port) w1) :
    port = env.defaultPort ∨ ∃ p, parseInt32 (some port) = some p ∧ 0 < p ∧ p < 65535 := by
  unfold portRound at h
  simp only [bind_apply] at h
  rcases hq : askQuestion2 false w0 with ⟨input, w2⟩ | ⟨e, w2⟩
  · rw [hq] at h
    simp only [andThen_ret] at h
    by_cases h0 : input = some []
    · simp only [h0, if_true, pure_apply] at h
      injection h with h _
      exact Or.inl (Option.some.inj h).symm
    · simp only [h0, if_false, bind_apply, pure_apply, andThen_ret] at h
      rcases input with _ | s
      · simp [parseInt32] at h
      · rcases hp : parseInt32 (some s) with _ | p
        · simp [hp] at h
        · simp only [hp] at h
          by_cases h1 : 0 < p ∧ p < 65535
          · simp only [h1, and_self, if_true, pure_apply, Option.getD_some] at h
            injection h with h _
            have hs : s = port := Option.some.inj h
            subst hs
            exact Or.inr ⟨p, hp, h1.1, h1.2⟩
          · simp [h1] at h
  · rw [hq] at h
    simp at h

theorem askPort_ret (env : Env) (w w' : World) (port : Str) (h : askPort env w = .ret port w') :
    port = env.defaultPort ∨ ∃ p, parseInt32 (some port) = some p ∧ 0 < p ∧ p < 65535 := by
  obtain ⟨w0, h0⟩ := loopFuel_ret_inv (portRound env) port w' _ w h
  exact portRound_ret env w0 w' port h0

theorem bind_ret_inv {α β : Type} (m : M α) (f : α → M β) (w w' : World) (b : β)
    (h : (m >>= f) w = .ret b w') : ∃ a w1, m w = .ret a w1 ∧ f a w1 = .ret b w' := by
  rw [bind_apply] at h
  rcases hm : m w with ⟨a, w1⟩ | ⟨e, w1⟩
  · rw [hm] at h
    exact ⟨a, w1, rfl, h⟩
  · rw [hm] at h
    cases h

theorem orThrow_ret_inv {α : Type} (o : Option α) (w w1 : World) (a : α)
    (h : orThrow o w = .ret a w1) : o = some a ∧ w1 = w := by
  cases o with
  | none => cases h
  | some x =>
    injection h with h1 h2
    exact ⟨congrArg some h1, h2.symm⟩

theorem get?_append_some (d e : Dict) (k : Str) (x : Obj) (h : d.get? k = some x) :
    Dict.get? (d ++ e) k = some x := by
  induction d with
  | nil => cases h
  | cons kv rest ih =>
    obtain ⟨k0, v0⟩ := kv
    by_cases h0 : k0 = k
    · simp only [Dict.get?, h0, if_true, List.cons_append] at h ⊢
      exact h
    · simp only [Dict.get?, h0, if_false, List.cons_append] at h ⊢
      exact ih h

theorem get?_append_none (d : Dict) (k : Str) (v : Obj) (h : d.get? k = none) :
    Dict.get? (d ++ [(k, v)]) k = some v := by
  induction d with
  | nil => simp [Dict.get?]
  | cons kv rest ih =>
    obtain ⟨k0, v0⟩ := kv
    by_cases h0 : k0 = k
    · simp [Dict.get?, h0] at h
    · simp only [Dict.get?, h0, if_false, List.cons_append] at h ⊢
      exact ih h

theorem add_get?_new (d d' : Dict) (k : Str) (v : Obj) (h : d.add k v = some d') :
    d'.get? k = some v := by
  unfold Dict.add at h
  rcases hg : d.get? k with _ | x
  · rw [hg] at h
    rw [← Option.some.inj h]
    exact get?_append_none d k v hg
  · rw [hg] at h
    cases h

theorem add_get?_old (d d' : Dict) (k k' : Str) (v x : Obj) (h : d.add k v = some d')
    (hx : d.get? k' = some x) : d'.get? k' = some x := by
  unfold Dict.add at h
  rcases hg : d.get? k with _ | y
  · rw [hg] at h
    rw [← Option.some.inj h]
    exact get?_append_some d _ k' x hx
  · rw [hg] at h
    cases h

theorem SaveConfig_storedPort (env : Env) (w w' : World) (d : Dict) (port : Str)
    (hc : w.self.config = some d) (hp : d.get? "port".toList = some (.str port))
    (h : SaveConfig env w = .ret true w') : storedPort w' = some port := by
  rw [SaveConfig_apply env w d hc] at h
  have hs : (savedDict w.self d).get? "port".toList = some (.str port) := by
    unfold savedDict
    rw [get?_set_ne _ _ _ _ (by decide)]
    exact hp
  rcases hj : env.jsonEncode (savedDict w.self d) with _ | json
  · rw [hj] at h
    injection h with h1 _
    cases h1
  · rw [hj] at h
    simp only at h
    by_cases hf : w.fs.fails (.write w.self.configPath) = true
    · rw [if_pos hf] at h
      injection h with h1 _
      cases h1
    · rw [if_neg hf] at h
      injection h with _ h2
      subst h2
      unfold storedPort
      simp only [setFile_self, hs]

theorem storeConfig_port (env : Env) (address : Option Str) (proto port : Str) (redirect : Bool)
    (dns : List Str) (cs : CertificateSubject) (w w' : World)
    (h : storeConfig env address proto port redirect dns cs w = .ret true w') :
    storedPort w' = some port := by
  unfold storeConfig at h
  obtain ⟨self2, w12, -, h⟩ := bind_ret_inv _ _ _ _ _ h
  obtain ⟨c1, w13, h1, h⟩ := bind_ret_inv _ _ _ _ _ h
  obtain ⟨c2, w14, h2, h⟩ := bind_ret_inv _ _ _ _ _ h
  obtain ⟨c3, w15, h3, h⟩ := bind_ret_inv _ _ _ _ _ h
  obtain ⟨c4, w16, h4, h⟩ := bind_ret_inv _ _ _ _ _ h
  obtain ⟨c5, w17, h5, h⟩ := bind_ret_inv _ _ _ _ _ h
  obtain ⟨c6, w18, h6, h⟩ := bind_ret_inv _ _ _ _ _ h
  obtain ⟨c7, w19, h7, h⟩ := bind_ret_inv _ _ _ _ _ h
  obtain ⟨c8, w20, h8, h⟩ := bind_ret_inv _ _ _ _ _ h
  obtain ⟨c9, w21, h9, h⟩ := bind_ret_inv _ _ _ _ _ h
  obtain ⟨c10, w22, h10, h⟩ := bind_ret_inv _ _ _ _ _ h
  obtain ⟨u2, w23, hm, h⟩ := bind_ret_inv _ _ _ _ _ h
  have g2 := add_get?_new _ _ _ _ (orThrow_ret_inv _ _ _ _ h2).1
  have g3 := add_get?_old _ _ _ _ _ _ (orThrow_ret_inv _ _ _ _ h3).1 g2
  have g4 := add_get?_old _ _ _ _ _ _ (orThrow_ret_inv _ _ _ _ h4).1 g3
  have g5 := add_get?_old _ _ _ _ _ _ (orThrow_ret_inv _ _ _ _ h5).1 g4
  have g6 := add_get?_old _ _ _ _ _ _ (orThrow_ret_inv _ _ _ _ h6).1 g5
  have g7 := add_get?_old _ _ _ _ _ _ (orThrow_ret_inv _ _ _ _ h7).1 g6
  have g8 := add_get?_old _ _ _ _ _ _ (orThrow_ret_inv _ _ _ _ h8).1 g7
  have g9 := add_get?_old _ _ _ _ _ _ (orThrow_ret_inv _ _ _ _ h9).1 g8
  have g10 := add_get?_old _ _ _ _ _ _ (orThrow_ret_inv _ _ _ _ h10).1 g9
  rw [modifySelf_apply] at hm
  injection hm with _ hm
  subst hm
  exact SaveConfig_storedPort env _ w' c10 port rfl g10 h

theorem GenerateNewConfig_stores_port (env : Env) (w w' : World)
    (h : GenerateNewConfig env w = .ret true w') :
    ∃ port w0 w1, askPort env w0 = .ret port w1 ∧ storedPort w' = some port := by
  unfold GenerateNewConfig at h
  obtain ⟨b, w1, -, h⟩ := bind_ret_inv _ _ _ _ _ h
  cases b
  swap
  · simp at h
  simp only [Bool.false_eq_true, if_false] at h
  obtain ⟨u0, w2, -, h⟩ := bind_ret_inv _ _ _ _ _ h
  obtain ⟨self, w2', -, h⟩ := bind_ret_inv _ _ _ _ _ h
  by_cases hc : self.keyAlg = Algorithm.EdDSA
  all_goals
    first
      | rw [if_pos hc] at h
      | rw [if_neg hc] at h
    obtain ⟨u, w3, -, h⟩ := bind_ret_inv _ _ _ _ _ h
    obtain ⟨address, w4, -, h⟩ := bind_ret_inv _ _ _ _ _ h
    obtain ⟨port, w5, hport, h⟩ := bind_ret_inv _ _ _ _ _ h
    refine ⟨port, w4, w5, hport, ?_⟩
    obtain ⟨proto, w6, -, h⟩ := bind_ret_inv _ _ _ _ _ h
    obtain ⟨redirect, w7, -, h⟩ := bind_ret_inv _ _ _ _ _ h
    obtain ⟨discr, w8, -, h⟩ := bind_ret_inv _ _ _ _ _ h
    obtain ⟨dns, w9, -, h⟩ := bind_ret_inv _ _ _ _ _ h
    obtain ⟨cs, w11, -, h⟩ := bind_ret_inv _ _ _ _ _ h
    exact storeConfig_port env _ _ _ _ _ _ _ _ h

theorem portAccepted_iff (x : Str) :
    portAccepted x = true ↔
      (x = [] ∨ ∃ p, parseInt32 (some x) = some p ∧ 0 < p ∧ p < 65535) := by
  unfold portAccepted
  rcases parseInt32 (some x) with _ | p
  · simp
  · simp

theorem ret_inj {α : Type} (a b : α) (w v : World) (h : (Outcome.ret a w) = .ret b v) :
    a = b ∧ w = v := by
  injection h with h1 h2
  exact ⟨h1, h2⟩

theorem GenerateNewConfig_port_of_answers (env : Env) (w w1 w2 w3 w' : World)
    (address : Option Str) (pre : List Str) (l : Str) (rest : List Str)
    (hload : LoadConfig env w = .ret false w1)
    (hnotice : w1.self.keyAlg = Algorithm.EdDSA → confirmEdDSA w1 = .ret () w2)
    (hplain : w1.self.keyAlg ≠ Algorithm.EdDSA → w2 = w1)
    (haddr : askQuestion false false w2 = .ret address w3)
    (hstdin : w3.stdin = pre ++ l :: rest)
    (hpre : ∀ x ∈ pre, portAccepted x = false) (hl : portAccepted l = true)
    (hok : GenerateNewConfig env w = .ret true w') :
    storedPort w' = some (if l = [] then env.defaultPort else l) := by
  have hport := askPort_first_accepted env w3 pre l rest hstdin hpre hl
  unfold GenerateNewConfig at hok
  obtain ⟨b, v1, e1, h⟩ := bind_ret_inv _ _ _ _ _ hok
  rw [hload] at e1
  obtain ⟨eb, ev⟩ := ret_inj _ _ _ _ e1
  subst eb
  subst ev
  simp only [Bool.false_eq_true, if_false] at h
  obtain ⟨u0, v2, e2, h⟩ := bind_ret_inv _ _ _ _ _ h
  obtain ⟨-, ev2⟩ := ret_inj _ _ _ _ e2
  subst ev2
  obtain ⟨self, v3, e3, h⟩ := bind_ret_inv _ _ _ _ _ h
  obtain ⟨es, ev3⟩ := ret_inj _ _ _ _ e3
  subst es
  subst ev3
  by_cases hc : w1.self.keyAlg = Algorithm.EdDSA
  · rw [if_pos hc] at h
    obtain ⟨u, v4, e4, h⟩ := bind_ret_inv _ _ _ _ _ h
    rw [hnotice hc] at e4
    obtain ⟨-, ev4⟩ := ret_inj _ _ _ _ e4
    subst ev4
    obtain ⟨a, v5, e5, h⟩ := bind_ret_inv _ _ _ _ _ h
    rw [haddr] at e5
    obtain ⟨ea, ev5⟩ := ret_inj _ _ _ _ e5
    subst ea
    subst ev5
    obtain ⟨port, v6, e6, h⟩ := bind_ret_inv _ _ _ _ _ h
    rw [hport] at e6
    obtain ⟨ep, -⟩ := ret_inj _ _ _ _ e6
    subst ep
    obtain ⟨proto, w6, -, h⟩ := bind_ret_inv _ _ _ _ _ h
    obtain ⟨redirect, w7, -, h⟩ := bind_ret_inv _ _ _ _ _ h
    obtain ⟨discr, w8, -, h⟩ := bind_ret_inv _ _ _ _ _ h
    obtain ⟨dns, w9, -, h⟩ := bind_ret_inv _ _ _ _ _ h
    obtain ⟨cs, w11, -, h⟩ := bind_ret_inv _ _ _ _ _ h
    exact storeConfig_port env _ _ _ _ _ _ _ _ h
  · rw [if_neg hc] at h
    obtain ⟨u, v4, e4, h⟩ := bind_ret_inv _ _ _ _ _ h
    obtain ⟨-, ev4⟩ := ret_inj _ _ _ _ e4
    subst ev4
    have hw := hplain hc
    subst hw
    obtain ⟨a, v5, e5, h⟩ := bind_ret_inv _ _ _ _ _ h
    rw [haddr] at e5
    obtain ⟨ea, ev5⟩ := ret_inj _ _ _ _ e5
    subst ea
    subst ev5
    obtain ⟨port, v6, e6, h⟩ := bind_ret_inv _ _ _ _ _ h
    rw [hport] at e6
    obtain ⟨ep, -⟩ := ret_inj _ _ _ _ e6
    subst ep
    obtain ⟨proto, w6, -, h⟩ := bind_ret_inv _ _ _ _ _ h
    obtain ⟨redirect, w7, -, h⟩ := bind_ret_inv _ _ _ _ _ h
    obtain ⟨discr, w8, -, h⟩ := bind_ret_inv _ _ _ _ _ h
    obtain ⟨dns, w9, -, h⟩ := bind_ret_inv _ _ _ _ _ h
    obtain ⟨cs, w11, -, h⟩ := bind_ret_inv _ _ _ _ _ h
    exact storeConfig_port env _ _ _ _ _ _ _ _ h

/-- C15: say the configuration does not load, the EdDSA notice (if any) is
confirmed, the address prompt is answered, and the console then holds answers
`pre` that the port prompt does not accept, an answer `l` that it accepts, and
the lines `rest`.  Then, when `GenerateNewConfig` returns success, the entry
`port` of the configuration is the default port if `l` is empty and `l` itself
otherwise.  In every case the stored port of a successful `GenerateNewConfig`
is the default port or an answer that `int::TryParse` reads as a number above 0
and below 65535.  The port prompt itself goes past the answers that are not
accepted and returns with the first accepted one, leaving the lines after it
unread; and an answer is accepted exactly when it is empty or reads as such a
number, so that 65535, 0, negative numbers and text are turned down. -/
theorem GenerateNewConfig_port (env : Env) (w w1 w2 w3 w' wp : World) (address : Option Str)
    (pre : List Str) (l : Str) (rest : List Str)
    (hpre : ∀ x ∈ pre, portAccepted x = false) (hl : portAccepted l = true) :
    (LoadConfig env w = .ret false w1 →
      (w1.self.keyAlg = Algorithm.EdDSA → confirmEdDSA w1 = .ret () w2) →
      (w1.self.keyAlg ≠ Algorithm.EdDSA → w2 = w1) →
      askQuestion false false w2 = .ret address w3 →
      w3.stdin = pre ++ l :: rest →
      GenerateNewConfig env w = .ret true w' →
      storedPort w' = some (if l = [] then env.defaultPort else l)) ∧
    (GenerateNewConfig env w = .ret true w' →
      ∃ port, storedPort w' = some port ∧
        (port = env.defaultPort ∨ ∃ p, parseInt32 (some port) = some p ∧ 0 < p ∧ p < 65535)) ∧
    (wp.stdin = pre ++ l :: rest →
      askPort env wp =
        .ret (if l = [] then env.defaultPort else l) { wp with stdin := rest }) ∧
    (∀ x, portAccepted x = true ↔
      (x = [] ∨ ∃ p, parseInt32 (some x) = some p ∧ 0 < p ∧ p < 65535)) := by
  refine ⟨?_, ?_, ?_, portAccepted_iff⟩
  · intro hload hnotice hplain haddr hstdin hok
    exact GenerateNewConfig_port_of_answers env w w1 w2 w3 w' address pre l rest hload hnotice
      hplain haddr hstdin hpre hl hok
  · intro h
    obtain ⟨port, w0, w1, hp, hs⟩ := GenerateNewConfig_stores_port env w w' h
    exact ⟨port, hs, askPort_ret env w0 w1 port hp⟩
  · intro hw
    exact askPort_first_accepted env wp pre l rest hw hpre hl

set_option maxRecDepth 1000000 in
theorem GenerateNewConfig_port_witness :
    (∀ x ∈ ["65535".toList, "0".toList, "abc".toList, ".".toList, "-5".toList],
      portAccepted x = false) ∧
    portAccepted "8080".toList = true ∧
    portAccepted ("8080".toList ++ [Char.ofNat 0]) = true ∧
    rewriteEnv.defaultPort = "1194".toList ∧
    (LoadConfig rewriteEnv portAnswersWorld).result = some false ∧
    (LoadConfig rewriteEnv portAnswersWorld).world.self.keyAlg = Algorithm.RSA ∧
    (askQuestion false false (LoadConfig rewriteEnv portAnswersWorld).world).result =
      some (some "vpn.example.org".toList) ∧
    (askQuestion false false (LoadConfig rewriteEnv portAnswersWorld).world).world.stdin =
      ["65535".toList, "0".toList, "abc".toList, ".".toList, "-5".toList] ++
        "8080".toList :: [[], [], [], []] ∧
    (GenerateNewConfig rewriteEnv portAnswersWorld).result = some true ∧
    storedPort (GenerateNewConfig rewriteEnv portAnswersWorld).world = some "8080".toList ∧
    askPort rewriteEnv
        (askQuestion false false (LoadConfig rewriteEnv portAnswersWorld).world).world =
      .ret "8080".toList
        { (askQuestion false false (LoadConfig rewriteEnv portAnswersWorld).world).world with
          stdin := [[], [], [], []] } :=
  have T := GenerateNewConfig_port rewriteEnv portAnswersWorld
    (LoadConfig rewriteEnv portAnswersWorld).world
    (LoadConfig rewriteEnv portAnswersWorld).world
    (askQuestion false false (LoadConfig rewriteEnv portAnswersWorld).world).world
    (GenerateNewConfig rewriteEnv portAnswersWorld).world
    (askQuestion false false (LoadConfig rewriteEnv portAnswersWorld).world).world
    (some "vpn.example.org".toList)
    ["65535".toList, "0".toList, "abc".toList, ".".toList, "-5".toList] "8080".toList
    [[], [], [], []] (by decide) (by decide)
  ⟨by decide, by decide, by decide, rfl, by decide!, by decide!, by decide!, by decide!, by decide!,
    T.1 (ret_of_result _ _ (by decide!)) (fun h => absurd h (by decide!)) (fun _ => rfl)
      (ret_of_result _ _ (by decide!)) (by decide!) (ret_of_result _ _ (by decide!)),
    T.2.2.1 (by decide!)⟩

end OvpnGen
